import Mathlib

/-!
# Map-ORS: the route playback builder, the navigation sessions and the telemetry simulator

A shallow embedding of `src/backend/index.js` and `src/backend/publisher.js`.

The values of JavaScript numbers are modelled by rationals (`ℚ`).  The route playback
builder and the navigation sessions are modelled over exact arithmetic.  The arithmetic of
the telemetry simulator, whose tests `newSoc >= 100` and `newSoc <= 0` are made on computed
values, and the segment index of the builder as the code computes it (`coordIndexDouble`)
round the result of every operation to the nearest double (`roundDouble`).  The one place
where the source can produce a non-finite number, the quotient `i / (totalPoints - 1)`
with `totalPoints = 1`, is modelled explicitly (`none` stands for `NaN`).  A slot of a
JavaScript array that holds `undefined` is modelled by `none`.
-/

namespace MapORS

/-! ## Route playback builder -/

/-- A coordinate pair `[longitude, latitude]`. -/
abbrev Point := ℚ × ℚ

/-- A value stored in the `movementPoints` array: a coordinate pair, or `undefined`. -/
abbrev Slot := Option Point

/-- The part of a stored route that `processRouteForMovement` reads:
`features[0].geometry.coordinates` and `features[0].properties.summary.duration`
(`features[0]` and `segments[0]` are taken to be present). -/
structure RouteData where
  coordinates : List Point
  duration : ℚ
deriving DecidableEq, Repr

/-- Errors raised while a request handler runs. -/
inductive JSError where
  | typeError
  | storeError
deriving DecidableEq, Repr

/-- Source function `interpolateCoordinates(start, end, progress)`. -/
def interpolateCoordinates (start stop : Point) (progress : ℚ) : Point :=
  let lat := start.2 + (stop.2 - start.2) * progress
  let lng := start.1 + (stop.1 - start.1) * progress
  (lng, lat)

/-- The read `routeCoordinates[k]` for an integer-valued index: `undefined` outside the
array. -/
def coordAt (routeCoordinates : List Point) (k : Int) : Slot :=
  if k < 0 then none else routeCoordinates[k.toNat]?

/-- The constant `totalPoints = Math.max(Math.ceil(duration), routeCoordinates.length)`. -/
def totalPoints (routeData : RouteData) : Int :=
  max ⌈routeData.duration⌉ (routeData.coordinates.length : Int)

/-- The quotient `progress = i / (totalPoints - 1)`.  The loop only runs with
`i < totalPoints`, so a zero divisor means `totalPoints = 1` and `i = 0`: the quotient is
`0 / 0`, `NaN`. -/
def progressAt (total : Int) (i : Nat) : Option ℚ :=
  if total - 1 = 0 then none else some ((i : ℚ) / ((total : ℚ) - 1))

/-- One pass through the body of the `for` loop: the value pushed on `movementPoints`,
or the `TypeError` of reading `start[1]` on `undefined`. -/
def movementStep (routeCoordinates : List Point) (total : Int) (i : Nat) :
    Except JSError Slot :=
  let n : Int := routeCoordinates.length
  match progressAt total i with
  | none =>
    -- `coordIndex` and `nextCoordIndex` are `NaN`, `NaN === NaN` is false,
    -- `routeCoordinates[NaN]` is `undefined`
    .error .typeError
  | some progress =>
    let coordIndex : Int := ⌊progress * ((n : ℚ) - 1)⌋
    let nextCoordIndex : Int := min (coordIndex + 1) (n - 1)
    if coordIndex = nextCoordIndex then
      .ok (coordAt routeCoordinates coordIndex)
    else
      let localProgress : ℚ := progress * ((n : ℚ) - 1) - coordIndex
      match coordAt routeCoordinates coordIndex, coordAt routeCoordinates nextCoordIndex with
      | some start, some stop => .ok (some (interpolateCoordinates start stop localProgress))
      | _, _ => .error .typeError

/-- The loop `for (let i = 0; i < totalPoints; i++)`, entered at `i` with the points pushed
so far; `fuel` bounds the number of passes. -/
def movementLoop (routeCoordinates : List Point) (total : Int) :
    Nat → Nat → List Slot → Except JSError (List Slot)
  | 0, _, movementPoints => .ok movementPoints
  | fuel + 1, i, movementPoints =>
    if (i : Int) < total then
      match movementStep routeCoordinates total i with
      | .error e => .error e
      | .ok p => movementLoop routeCoordinates total fuel (i + 1) (movementPoints ++ [p])
    else .ok movementPoints

/-- Source function `processRouteForMovement(routeData)`; the loop needs `totalPoints`
passes at most. -/
def processRouteForMovement (routeData : RouteData) : Except JSError (List Slot) :=
  movementLoop routeData.coordinates (totalPoints routeData) (totalPoints routeData).toNat 0 []


/-- Linear interpolation of longitude and latitude between `a` and `b` with weight `w`. -/
def specLerp (a b : Point) (w : ℚ) : Point :=
  (a.1 + (b.1 - a.1) * w, a.2 + (b.2 - a.2) * w)

/-- The `i`-th movement point as the specification words it: with
`f = (i / (T - 1)) * (n - 1)` and `k = floor f`, the interpolation between `g[k]` and
`g[k+1]` with weight `f - k`, and `g[n-1]` itself when `k = n - 1`. -/
def specMovementPoint (g : List Point) (T : Int) (i : Nat) : Point :=
  let f : ℚ := ((i : ℚ) / ((T : ℚ) - 1)) * ((g.length : ℚ) - 1)
  let k : Int := ⌊f⌋
  if k = (g.length : Int) - 1 then g.getD (g.length - 1) default
  else specLerp (g.getD k.toNat default) (g.getD (k.toNat + 1) default) (f - k)

/-! ## Navigation sessions -/

abbrev UserId := String

abbrev RouteId := String

/-- The values the `status` field of a navigation object takes in the source:
`'active'` and `'paused'`. -/
inductive Status where
  | active
  | paused
deriving DecidableEq, Repr

/-- The `navigation` object built by `/startNavigation`.  `interval` is the handle
returned by `setInterval`. -/
structure Navigation where
  userId : UserId
  routeId : RouteId
  movementPoints : List Slot
  currentIndex : Nat
  status : Status
  startTime : Nat
  interval : Nat
deriving DecidableEq

/-- Events sent with `io.to(userId).emit`. -/
inductive Event where
  | locationUpdate (position : Slot) (progress : ℚ) (currentIndex totalPoints : Nat)
      (estimatedTimeRemaining : Int)
  | navigationCompleted
  | navigationPaused
  | navigationResumed
  | navigationStopped
deriving DecidableEq

/-- The HTTP answers of the navigation endpoints. -/
inductive Response where
  | started (totalPoints : Nat)
  | paused
  | resumed
  | stopped
  | alreadyActive
  | noActiveNavigation
  | routeNotFound
  | failed
deriving DecidableEq, Repr

/-- The HTTP status code of an answer. -/
def Response.status : Response → Nat
  | .started _ => 200
  | .paused => 200
  | .resumed => 200
  | .stopped => 200
  | .alreadyActive => 400
  | .noActiveNavigation => 404
  | .routeNotFound => 404
  | .failed => 500

/-- The `activeNavigations` map, from user ids to references to navigation objects.  The
source never iterates over the map, so the order of the entries is of no account. -/
abbrev Registry := List (UserId × Nat)

/-- The call `activeNavigations.get(userId)`, as a reference. -/
def Registry.get (m : Registry) (userId : UserId) : Option Nat :=
  m.lookup userId

/-- The call `activeNavigations.has(userId)`. -/
def Registry.has (m : Registry) (userId : UserId) : Bool :=
  (m.get userId).isSome

/-- The call `activeNavigations.delete(userId)`. -/
def Registry.delete (m : Registry) (userId : UserId) : Registry :=
  m.filter (fun e => e.1 != userId)

/-- The call `activeNavigations.set(userId, navigation)`. -/
def Registry.set (m : Registry) (userId : UserId) (ref : Nat) : Registry :=
  (userId, ref) :: m.delete userId

/-- The state of the server that the navigation code reads and writes.
`objects` holds every navigation object created so far; the object at position `k` is the
one whose timer got the handle `k` from `setInterval`.  `timers` lists the handles that
have not been cleared.  `emitted` is the log of the events sent, with their room. -/
structure State where
  objects : List Navigation
  timers : List Nat
  activeNavigations : Registry
  emitted : List (UserId × Event)
deriving DecidableEq

/-- The server right after boot. -/
def State.init : State := ⟨[], [], [], []⟩

/-- The call `clearInterval(handle)`. -/
def clearInterval (timers : List Nat) (handle : Nat) : List Nat :=
  timers.filter (fun t => t != handle)

/-- The call `activeNavigations.get(userId)`, dereferenced: the reference and the object. -/
def State.navigationOf (s : State) (userId : UserId) : Option (Nat × Navigation) :=
  match s.activeNavigations.get userId with
  | none => none
  | some ref =>
    match s.objects[ref]? with
    | none => none
    | some navigation => some (ref, navigation)

/-- The part of `/startNavigation` that runs once `await Route.findById(routeId)` has
settled; `lookup` is the outcome of the query (`.error` when the query rejects). -/
def startAfterLookup (s : State) (now : Nat) (userId : UserId) (routeId : RouteId)
    (lookup : Except JSError (Option RouteData)) : State × Response :=
  match lookup with
  | .error _ => (s, .failed)
  | .ok none => (s, .routeNotFound)
  | .ok (some route) =>
    match processRouteForMovement route with
    | .error _ => (s, .failed)
    | .ok movementPoints =>
      let handle := s.objects.length
      let navigation : Navigation :=
        { userId := userId, routeId := routeId, movementPoints := movementPoints,
          currentIndex := 0, status := .active, startTime := now, interval := handle }
      ({ objects := s.objects ++ [navigation],
         timers := s.timers ++ [handle],
         activeNavigations := s.activeNavigations.set userId handle,
         emitted := s.emitted },
       .started movementPoints.length)

/-- Handler of `POST /startNavigation`, run without interruption. -/
def startNavigation (findById : RouteId → Except JSError (Option RouteData)) (now : Nat)
    (s : State) (userId : UserId) (routeId : RouteId) : State × Response :=
  if s.activeNavigations.has userId then (s, .alreadyActive)
  else startAfterLookup s now userId routeId (findById routeId)

/-- How far the interval callback got: it returned, or it waits for the location write
with `currentPosition` in hand. -/
inductive TickOutcome where
  | returned
  | awaiting (currentPosition : Slot)
deriving DecidableEq

/-- The interval callback of the navigation object `ref`, up to its `await`.  A cleared
timer does not fire. -/
def tickStart (s : State) (ref : Nat) : State × TickOutcome :=
  if ref ∈ s.timers then
    match s.objects[ref]? with
    | none => (s, .returned)
    | some navigation =>
      if navigation.status ≠ .active then (s, .returned)
      else if navigation.currentIndex ≥ navigation.movementPoints.length then
        ({ s with
            timers := clearInterval s.timers navigation.interval,
            activeNavigations := s.activeNavigations.delete navigation.userId,
            emitted := s.emitted ++ [(navigation.userId, .navigationCompleted)] },
         .returned)
      else (s, .awaiting (navigation.movementPoints.getD navigation.currentIndex none))
  else (s, .returned)

/-- The interval callback of the navigation object `ref` after its `await`: the write has
succeeded (`writeOk`) or thrown. -/
def tickResume (s : State) (ref : Nat) (currentPosition : Slot) (writeOk : Bool) : State :=
  if writeOk then
    match s.objects[ref]? with
    | none => s
    | some navigation =>
      let progress : ℚ :=
        ((navigation.currentIndex : ℚ) / (navigation.movementPoints.length : ℚ)) * 100
      let remainingPoints : Int :=
        (navigation.movementPoints.length : Int) - (navigation.currentIndex : Int)
      { s with
          emitted := s.emitted ++ [(navigation.userId,
            .locationUpdate currentPosition progress navigation.currentIndex
              navigation.movementPoints.length remainingPoints)],
          objects := s.objects.set ref
            { navigation with currentIndex := navigation.currentIndex + 1 } }
  else s

/-- One tick run from start to end with nothing in between. -/
def tick (s : State) (ref : Nat) (writeOk : Bool) : State :=
  match tickStart s ref with
  | (s1, .returned) => s1
  | (s1, .awaiting currentPosition) => tickResume s1 ref currentPosition writeOk

/-- Ticks of the timer `ref`, one after another, with the outcomes of their writes. -/
def ticks (s : State) (ref : Nat) (writes : List Bool) : State :=
  writes.foldl (fun st ok => tick st ref ok) s

/-- Handler of `POST /pauseNavigation`. -/
def pauseNavigation (s : State) (userId : UserId) : State × Response :=
  if ¬ s.activeNavigations.has userId then (s, .noActiveNavigation)
  else
    match s.navigationOf userId with
    | none => (s, .failed)
    | some (ref, navigation) =>
      ({ s with
          objects := s.objects.set ref { navigation with status := .paused },
          emitted := s.emitted ++ [(userId, .navigationPaused)] },
       .paused)

/-- Handler of `POST /resumeNavigation`. -/
def resumeNavigation (s : State) (userId : UserId) : State × Response :=
  if ¬ s.activeNavigations.has userId then (s, .noActiveNavigation)
  else
    match s.navigationOf userId with
    | none => (s, .failed)
    | some (ref, navigation) =>
      ({ s with
          objects := s.objects.set ref { navigation with status := .active },
          emitted := s.emitted ++ [(userId, .navigationResumed)] },
       .resumed)

/-- Handler of `POST /stopNavigation`. -/
def stopNavigation (s : State) (userId : UserId) : State × Response :=
  if ¬ s.activeNavigations.has userId then (s, .noActiveNavigation)
  else
    match s.navigationOf userId with
    | none => (s, .failed)
    | some (_, navigation) =>
      ({ s with
          timers := clearInterval s.timers navigation.interval,
          activeNavigations := s.activeNavigations.delete userId,
          emitted := s.emitted ++ [(userId, .navigationStopped)] },
       .stopped)

/-- The `disconnect` handler of a socket; `socketUserId` is `socket.userId` (`none` when
the socket never joined; the empty string is falsy). -/
def disconnect (s : State) (socketUserId : Option UserId) : State :=
  match socketUserId with
  | none => s
  | some userId =>
    if userId ≠ "" ∧ s.activeNavigations.has userId then
      match s.navigationOf userId with
      | none => s
      | some (_, navigation) =>
        { s with
            timers := clearInterval s.timers navigation.interval,
            activeNavigations := s.activeNavigations.delete userId }
    else s

/-- The operations that change the navigation state, each run without interruption. -/
inductive Op where
  | start (userId : UserId) (routeId : RouteId) (now : Nat)
  | tick (ref : Nat) (writeOk : Bool)
  | pause (userId : UserId)
  | resume (userId : UserId)
  | stop (userId : UserId)
  | disconnect (socketUserId : Option UserId)

/-- The state after one operation. -/
def applyOp (findById : RouteId → Except JSError (Option RouteData)) (s : State) :
    Op → State
  | .start userId routeId now => (startNavigation findById now s userId routeId).1
  | .tick ref writeOk => tick s ref writeOk
  | .pause userId => (pauseNavigation s userId).1
  | .resume userId => (resumeNavigation s userId).1
  | .stop userId => (stopNavigation s userId).1
  | .disconnect socketUserId => disconnect s socketUserId

/-- The state after a sequence of operations. -/
def run (findById : RouteId → Except JSError (Option RouteData)) (s : State)
    (ops : List Op) : State :=
  ops.foldl (applyOp findById) s

/-- The `location-update` event of the tick that finds `currentIndex = i`. -/
def updateEvent (userId : UserId) (movementPoints : List Slot) (i : Nat) : UserId × Event :=
  (userId, .locationUpdate (movementPoints.getD i none)
    (((i : ℚ) / (movementPoints.length : ℚ)) * 100) i movementPoints.length
    ((movementPoints.length : Int) - (i : Int)))

/-- A route store with a two-point route of duration 3 under `"r1"` and a one-point route
of duration 0 under `"r2"`. -/
def sampleStore : RouteId → Except JSError (Option RouteData) := fun routeId =>
  if routeId = "r1" then .ok (some ⟨[(0, 0), (0, 10)], 3⟩)
  else if routeId = "r2" then .ok (some ⟨[(0, 0)], 0⟩)
  else .ok none

/-- The movement points of the route `"r1"` of `sampleStore`. -/
def samplePoints : List Slot := [some (0, 0), some (0, 5), some (0, 10)]

/-- The navigation object of the user `"u"` on the route `"r1"` of `sampleStore`, started
at time 0 on a fresh server. -/
def sampleNavigation : Navigation :=
  { userId := "u", routeId := "r1", movementPoints := samplePoints, currentIndex := 0,
    status := .active, startTime := 0, interval := 0 }

/-- The server after `"u"` has started a navigation on `"r1"` from boot. -/
def sampleState : State :=
  { objects := [sampleNavigation], timers := [0], activeNavigations := [("u", 0)],
    emitted := [] }

/-- Every navigation object has its `currentIndex` within `0 .. movementPoints.length`. -/
def State.InBounds (s : State) : Prop :=
  ∀ nav ∈ s.objects, 0 ≤ nav.currentIndex ∧ nav.currentIndex ≤ nav.movementPoints.length

/-- The fractional index `progress * (routeCoordinates.length - 1)` of pass `i` of the
loop, for a geometry of `n` points and a finite `progress = i / (totalPoints - 1)`, over
exact arithmetic. -/
def fractionalIndex (n : Nat) (total : Int) (i : Nat) : ℚ :=
  ((i : ℚ) / ((total : ℚ) - 1)) * ((n : ℚ) - 1)

/-- The value of `coordIndex` in pass `i`, `Math.floor(progress * (length - 1))`, over
exact arithmetic; `coordIndexDouble` below is the value computed on doubles. -/
def coordIndex (n : Nat) (total : Int) (i : Nat) : Int :=
  ⌊fractionalIndex n total i⌋

/-- The value of `nextCoordIndex` in pass `i`: `Math.min(coordIndex + 1, length - 1)`. -/
def nextCoordIndex (n : Nat) (total : Int) (i : Nat) : Int :=
  min (coordIndex n total i + 1) ((n : Int) - 1)

/-- The value of `localProgress` in pass `i`: `progress * (length - 1) - coordIndex`. -/
def localProgress (n : Nat) (total : Int) (i : Nat) : ℚ :=
  fractionalIndex n total i - (coordIndex n total i : ℚ)

/-! ## Double-precision arithmetic -/

/-- The integer nearest to `q`, the even one of the two when `q` lies halfway. -/
def roundHalfEven (q : ℚ) : Int :=
  if q - (⌊q⌋ : ℚ) < 1 / 2 then ⌊q⌋
  else if 1 / 2 < q - (⌊q⌋ : ℚ) then ⌊q⌋ + 1
  else if ⌊q⌋ % 2 = 0 then ⌊q⌋ else ⌊q⌋ + 1

/-- The exponent of the spacing of the doubles around `x`: 52 places below the leading
bit, and not below that of the smallest normal double. -/
def ulpExponent (x : ℚ) : Int :=
  max (Int.log 2 |x|) (-1022) - 52

/-- The double nearest to `x`, the one with the even significand when `x` lies halfway:
the value of an arithmetic operation of JavaScript whose exact result is `x`.  Results
beyond the largest double (`Infinity`) are outside the model. -/
def roundDouble (x : ℚ) : ℚ :=
  (roundHalfEven (x / (2 : ℚ) ^ ulpExponent x) : ℚ) * (2 : ℚ) ^ ulpExponent x

/-- The fractional index as the code computes it on doubles: the quotient
`i / (totalPoints - 1)` and its product with `routeCoordinates.length - 1` are each rounded
to the nearest double (the counter, the divisor and `length - 1` are integers below
`2 ^ 53`, doubles themselves). -/
def fractionalIndexDouble (n : Nat) (total : Int) (i : Nat) : ℚ :=
  roundDouble (roundDouble ((i : ℚ) / ((total : ℚ) - 1)) * ((n : ℚ) - 1))

/-- The value of `coordIndex` in pass `i` as the code computes it on doubles:
`Math.floor` of the rounded product. -/
def coordIndexDouble (n : Nat) (total : Int) (i : Nat) : Int :=
  ⌊fractionalIndexDouble n total i⌋

/-- A route of 23 points on a line, with a duration below its number of points. -/
def sampleLongRoute : RouteData :=
  { coordinates := [
      (0, 0), (1, 0), (2, 0), (3, 0), (4, 0), (5, 0), (6, 0), (7, 0), (8, 0), (9, 0),
      (10, 0), (11, 0), (12, 0), (13, 0), (14, 0), (15, 0), (16, 0), (17, 0), (18, 0),
      (19, 0), (20, 0), (21, 0), (22, 0)],
    duration := 0 }

/-! ## Telemetry simulator (`src/backend/publisher.js`) -/

/-- The values of `car.chargingStatus` allowed by the user schema. -/
inductive ChargingStatus where
  | charging
  | idle
  | discharging
deriving DecidableEq, Repr

/-- The fields of a user document that the simulator reads and writes. -/
structure Vehicle where
  id : String
  batterySOC_percent : ℚ
  batteryTemperature_C : ℚ
  chargingStatus : ChargingStatus
deriving DecidableEq

/-- What one pass of the loop over the vehicles takes from its environment: the two values
of `Math.random()` (the first goes into the temperature, the second into the SOC), and
whether `vehicle.save()` and `client.publish` go through. -/
structure Draw where
  tempRandom : ℚ
  socRandom : ℚ
  saveOk : Bool
  publishOk : Bool
deriving DecidableEq

/-- The value of `parseFloat(x.toFixed(2))`: the multiple of 1/100 nearest to `x`, the
larger in absolute value of the two when `x` lies halfway (exact arithmetic). -/
def toFixed2 (x : ℚ) : ℚ :=
  if x < 0 then -(((⌊(-x) * 100 + 1 / 2⌋ : Int) : ℚ) / 100)
  else ((⌊x * 100 + 1 / 2⌋ : Int) : ℚ) / 100

/-- The value of `newSoc` in the charging branch when the test `newSoc >= 100` is made:
`batterySOC_percent + Math.random() * 1`, the product and the sum each rounded to the
nearest double. -/
def chargingSoc (vehicle : Vehicle) (draw : Draw) : ℚ :=
  roundDouble (vehicle.batterySOC_percent + roundDouble (draw.socRandom * 1))

/-- The decrement `Math.random() * 0.02` of the discharging branch: the literal `0.02` is
the double nearest to 1/50, and the product is rounded to the nearest double. -/
def dischargingStep (draw : Draw) : ℚ :=
  roundDouble (draw.socRandom * roundDouble (1 / 50))

/-- The value of `newSoc` in the discharging branch when the test `newSoc <= 0` is made:
the difference `batterySOC_percent - Math.random() * 0.02`, rounded to the nearest
double. -/
def dischargingSoc (vehicle : Vehicle) (draw : Draw) : ℚ :=
  roundDouble (vehicle.batterySOC_percent - dischargingStep draw)

/-- The body of the loop up to `await vehicle.save()`: the document with its new
`batterySOC_percent`, `batteryTemperature_C` and `chargingStatus`.  The numbers of a
document are doubles; every product, sum and difference of the source is rounded to the
nearest double, the sum `Math.floor(..) + 15` of two small integers being exact. -/
def simulateVehicle (vehicle : Vehicle) (draw : Draw) : Vehicle :=
  match vehicle.chargingStatus with
  | .charging =>
    let newTemp : ℚ :=
      roundDouble (vehicle.batteryTemperature_C + roundDouble (draw.tempRandom * (1 / 2)))
    let newSoc : ℚ := chargingSoc vehicle draw
    if newSoc ≥ 100 then
      { vehicle with
          batterySOC_percent := toFixed2 100,
          batteryTemperature_C := toFixed2 newTemp,
          chargingStatus := .idle }
    else
      { vehicle with
          batterySOC_percent := toFixed2 newSoc,
          batteryTemperature_C := toFixed2 newTemp }
  | .discharging =>
    let newTemp : ℚ := ((⌊roundDouble (draw.tempRandom * (30 - 15 + 1))⌋ : Int) : ℚ) + 15
    let newSoc : ℚ := dischargingSoc vehicle draw
    if newSoc ≤ 0 then
      { vehicle with
          batterySOC_percent := toFixed2 0,
          batteryTemperature_C := toFixed2 newTemp,
          chargingStatus := .idle }
    else
      { vehicle with
          batterySOC_percent := toFixed2 newSoc,
          batteryTemperature_C := toFixed2 newTemp }
  | .idle =>
    { vehicle with
        batterySOC_percent := toFixed2 vehicle.batterySOC_percent,
        batteryTemperature_C := toFixed2 vehicle.batteryTemperature_C }

/-- The topic of a vehicle: the template string with the id of the document. -/
def topicOf (vehicle : Vehicle) : String :=
  "user/" ++ vehicle.id ++ "/data"

/-- One telemetry tick: the loop over the vehicles found, each with what its pass takes
from the environment.  The result is the documents as stored after the tick, in the order
of the loop, and the messages published.  A `save` or a `publish` that throws leaves the
loop for the `catch` around it. -/
def telemetryTick : List (Vehicle × Draw) → List Vehicle × List (String × Vehicle)
  | [] => ([], [])
  | (vehicle, draw) :: rest =>
    if draw.saveOk then
      if draw.publishOk then
        ((simulateVehicle vehicle draw) :: (telemetryTick rest).1,
         (topicOf vehicle, simulateVehicle vehicle draw) :: (telemetryTick rest).2)
      else ((simulateVehicle vehicle draw) :: rest.map Prod.fst, [])
    else (vehicle :: rest.map Prod.fst, [])

/-- A draw in which both values of `Math.random()` lie in `[0, 1)`. -/
def Draw.InRange (draw : Draw) : Prop :=
  0 ≤ draw.tempRandom ∧ draw.tempRandom < 1 ∧ 0 ≤ draw.socRandom ∧ draw.socRandom < 1

/-- A charging vehicle at `SOC = 99.8`. -/
def sampleCharging : Vehicle :=
  { id := "a", batterySOC_percent := 499 / 5, batteryTemperature_C := 25,
    chargingStatus := .charging }

/-- A discharging vehicle at `SOC = 0.01`. -/
def sampleDischarging : Vehicle :=
  { id := "b", batterySOC_percent := 1 / 100, batteryTemperature_C := 25,
    chargingStatus := .discharging }

/-- An idle vehicle whose stored SOC has three decimals, `50.123`. -/
def sampleIdle : Vehicle :=
  { id := "c", batterySOC_percent := 50123 / 1000, batteryTemperature_C := 25,
    chargingStatus := .idle }

/-- A pass in which both values of `Math.random()` are 1/2 and both calls go through. -/
def sampleDraw : Draw :=
  { tempRandom := 1 / 2, socRandom := 1 / 2, saveOk := true, publishOk := true }

/-- A pass whose `vehicle.save()` throws. -/
def sampleFailedSave : Draw :=
  { tempRandom := 1 / 2, socRandom := 1 / 2, saveOk := false, publishOk := true }

/-- A charging vehicle at `SOC = 99.5`. -/
def sampleNearlyFull : Vehicle :=
  { id := "d", batterySOC_percent := 199 / 2, batteryTemperature_C := 25,
    chargingStatus := .charging }

/-- A pass in which the second value of `Math.random()` is `127 / 256 = 0.49609375`. -/
def sampleDrawNearlyFull : Draw :=
  { tempRandom := 1 / 2, socRandom := 127 / 256, saveOk := true, publishOk := true }

/-- A pass in which the second value of `Math.random()` is `0.5 - 2 ^ (-52)`, the second
double below 1/2. -/
def sampleDrawThreshold : Draw :=
  { tempRandom := 1 / 2, socRandom := 2251799813685247 / 4503599627370496, saveOk := true,
    publishOk := true }

/-- A discharging vehicle at `SOC = 7 / 512 = 0.013671875`. -/
def sampleNearlyEmpty : Vehicle :=
  { id := "e", batterySOC_percent := 7 / 512, batteryTemperature_C := 25,
    chargingStatus := .discharging }

/-- A charging vehicle whose SOC is the double nearest to 99.8. -/
def sampleChargingDouble : Vehicle :=
  { id := "f", batterySOC_percent := 7022800668930867 / 70368744177664,
    batteryTemperature_C := 25, chargingStatus := .charging }

/-- A pass in which the second value of `Math.random()` is the double nearest to 0.2. -/
def sampleDrawFifth : Draw :=
  { tempRandom := 1 / 2, socRandom := 3602879701896397 / 18014398509481984, saveOk := true,
    publishOk := true }

/-- A discharging vehicle whose SOC is the double nearest to 0.007. -/
def sampleLowDischarging : Vehicle :=
  { id := "g", batterySOC_percent := 8070450532247929 / 1152921504606846976,
    batteryTemperature_C := 25, chargingStatus := .discharging }

/-- A pass in which the second value of `Math.random()` is the double nearest to 0.35. -/
def sampleDrawLow : Draw :=
  { tempRandom := 1 / 2, socRandom := 3152519739159347 / 9007199254740992, saveOk := true,
    publishOk := true }

/-- The links between the registry and the navigation objects that the handlers set up:
every navigation object holds the handle of its own timer, and every registry entry leads
to a navigation object of the user it is filed under. -/
def State.Linked (s : State) : Prop :=
  (∀ (k : Nat) (nav : Navigation), s.objects[k]? = some nav → nav.interval = k) ∧
  (∀ (w : UserId) (ref : Nat), s.activeNavigations.get w = some ref →
    ∃ nav, s.objects[ref]? = some nav ∧ nav.userId = w)

/-- An operation performed for the user `v`: a request with `userId = v`, the disconnect
of a connection joined as `v`, or a tick of a navigation object of `v`. -/
def Op.isFor (s : State) (v : UserId) : Op → Prop
  | .start userId _ _ => userId = v
  | .tick ref _ => ∃ nav, s.objects[ref]? = some nav ∧ nav.userId = v
  | .pause userId => userId = v
  | .resume userId => userId = v
  | .stop userId => userId = v
  | .disconnect socketUserId => socketUserId = some v

/-- The events sent to the room of the user `u`, in order. -/
def State.eventsFor (s : State) (u : UserId) : List Event :=
  (s.emitted.filter (fun e => e.1 == u)).map Prod.snd

/-- The server after `"u"` and then `"v"` have started a navigation on `"r1"` from boot. -/
def sampleTwoUsers : State :=
  { objects := [sampleNavigation,
      { userId := "v", routeId := "r1", movementPoints := samplePoints, currentIndex := 0,
        status := .active, startTime := 1, interval := 1 }],
    timers := [0, 1], activeNavigations := [("v", 1), ("u", 0)], emitted := [] }

/-- The session of `u`, with the reference `ref` and the fields `nav` in `s`, is in `t` as
it is in `s`: same registry entry, same fields, its timer alive in `t` exactly when it is
alive in `s`, and no event more or less in the room of `u`. -/
def State.FrameFor (s t : State) (u : UserId) (ref : Nat) (nav : Navigation) : Prop :=
  t.navigationOf u = some (ref, nav) ∧
  (nav.interval ∈ t.timers ↔ nav.interval ∈ s.timers) ∧
  t.eventsFor u = s.eventsFor u

/-! ## Route playback builder: results -/

theorem coordAt_natCast (g : List Point) (k : Nat) (h : k < g.length) :
    coordAt g (k : Int) = some (g.getD k default) := by
  simp [coordAt, List.getD, List.getElem?_eq_getElem h]

theorem movementLoop_ok (g : List Point) (T : Int) (f : Nat → Slot) :
    ∀ (fuel start : Nat) (acc : List Slot),
      (∀ i, start ≤ i → (i : Int) < T → movementStep g T i = .ok (f i)) →
      T.toNat - start ≤ fuel →
      movementLoop g T fuel start acc
        = .ok (acc ++ (List.range' start (T.toNat - start)).map f) := by
  intro fuel
  induction fuel with
  | zero =>
    intro start acc _ hfuel
    have h0 : T.toNat - start = 0 := by omega
    simp [movementLoop, h0]
  | succ fuel ih =>
    intro start acc hstep hfuel
    unfold movementLoop
    by_cases hlt : (start : Int) < T
    · rw [if_pos hlt, hstep start (le_refl _) hlt]
      simp only
      rw [ih (start + 1) (acc ++ [f start]) (fun i hi hiT => hstep i (by omega) hiT) (by omega)]
      have hsplit : T.toNat - start = (T.toNat - (start + 1)) + 1 := by omega
      rw [hsplit, List.range'_succ]
      simp
    · rw [if_neg hlt]
      have h0 : T.toNat - start = 0 := by omega
      simp [h0]

theorem movementStep_eq_spec (g : List Point) (T : Int) (i : Nat)
    (hn : 2 ≤ g.length) (hT : (g.length : Int) ≤ T) (hi : (i : Int) < T) :
    movementStep g T i = .ok (some (specMovementPoint g T i)) := by
  have hT1 : T - 1 ≠ 0 := by omega
  have hTq : (0 : ℚ) < (T : ℚ) - 1 := by
    have : (2 : ℤ) ≤ T := by omega
    have : (2 : ℚ) ≤ (T : ℚ) := by exact_mod_cast this
    linarith
  have hnq : (1 : ℚ) ≤ (g.length : ℚ) - 1 := by
    have : (2 : ℚ) ≤ (g.length : ℚ) := by exact_mod_cast hn
    linarith
  have hiq : (i : ℚ) ≤ (T : ℚ) - 1 := by
    have : (i : ℤ) ≤ T - 1 := by omega
    have : ((i : ℤ) : ℚ) ≤ ((T - 1 : ℤ) : ℚ) := by exact_mod_cast this
    simpa using this
  have hp0 : (0 : ℚ) ≤ (i : ℚ) / ((T : ℚ) - 1) := by positivity
  have hp1 : (i : ℚ) / ((T : ℚ) - 1) ≤ 1 := by
    rw [div_le_one hTq]; exact hiq
  have hf0 : (0 : ℚ) ≤ (i : ℚ) / ((T : ℚ) - 1) * ((g.length : ℚ) - 1) := by
    apply mul_nonneg hp0; linarith
  have hf1 : (i : ℚ) / ((T : ℚ) - 1) * ((g.length : ℚ) - 1) ≤ (g.length : ℚ) - 1 := by
    calc (i : ℚ) / ((T : ℚ) - 1) * ((g.length : ℚ) - 1)
        ≤ 1 * ((g.length : ℚ) - 1) := by
          apply mul_le_mul_of_nonneg_right hp1; linarith
      _ = (g.length : ℚ) - 1 := by ring
  have hk0 : (0 : ℤ) ≤ ⌊(i : ℚ) / ((T : ℚ) - 1) * ((g.length : ℚ) - 1)⌋ := Int.floor_nonneg.mpr hf0
  have hk1 : ⌊(i : ℚ) / ((T : ℚ) - 1) * ((g.length : ℚ) - 1)⌋ ≤ (g.length : ℤ) - 1 := by
    have : ⌊(i : ℚ) / ((T : ℚ) - 1) * ((g.length : ℚ) - 1)⌋ ≤ ⌊(((g.length : ℤ) - 1 : ℤ) : ℚ)⌋ := by
      apply Int.floor_mono
      push_cast
      exact hf1
    simpa using this
  simp only [movementStep, progressAt, if_neg hT1, specMovementPoint]
  generalize hk : ⌊(i : ℚ) / ((T : ℚ) - 1) * ((g.length : ℚ) - 1)⌋ = k at *
  obtain ⟨m, rfl⟩ := Int.eq_ofNat_of_zero_le hk0
  by_cases hlast : (m : ℤ) = (g.length : ℤ) - 1
  · have hmin : (m : ℤ) = min ((m : ℤ) + 1) ((g.length : ℤ) - 1) := by omega
    rw [if_pos hmin, if_pos hlast]
    have hm : m = g.length - 1 := by omega
    rw [coordAt_natCast g m (by omega), hm]
  · have hmin : ¬ (m : ℤ) = min ((m : ℤ) + 1) ((g.length : ℤ) - 1) := by omega
    have hnext : min ((m : ℤ) + 1) ((g.length : ℤ) - 1) = ((m + 1 : ℕ) : ℤ) := by
      push_cast; omega
    rw [if_neg hmin, if_neg hlast, hnext, coordAt_natCast g m (by omega),
      coordAt_natCast g (m + 1) (by omega)]
    simp [interpolateCoordinates, specLerp]

theorem processRouteForMovement_eq_spec (r : RouteData) (hn : 2 ≤ r.coordinates.length) :
    processRouteForMovement r
      = .ok ((List.range (totalPoints r).toNat).map
          (fun i => some (specMovementPoint r.coordinates (totalPoints r) i))) := by
  have hT : (r.coordinates.length : Int) ≤ totalPoints r := le_max_right _ _
  unfold processRouteForMovement
  rw [movementLoop_ok r.coordinates (totalPoints r)
      (fun i => some (specMovementPoint r.coordinates (totalPoints r) i))
      (totalPoints r).toNat 0 []
      (fun i _ hi => movementStep_eq_spec r.coordinates (totalPoints r) i hn hT hi) (by omega)]
  simp [List.range_eq_range']


theorem specMovementPoint_zero (g : List Point) (T : Int) (hn : 2 ≤ g.length) :
    specMovementPoint g T 0 = g.get ⟨0, by omega⟩ := by
  have hne : ¬ ((0 : Int) = (g.length : Int) - 1) := by omega
  have h0 : (0 : Nat) < g.length := by omega
  simp [specMovementPoint, specLerp, hne, List.getD_eq_getElem?_getD, List.getElem?_eq_getElem h0]

theorem specMovementPoint_last (g : List Point) (T : Int) (hn : 2 ≤ g.length)
    (hT : (g.length : Int) ≤ T) :
    specMovementPoint g T (T.toNat - 1) = g.get ⟨g.length - 1, by omega⟩ := by
  have hcast : (((T.toNat - 1 : Nat) : ℚ)) = (T : ℚ) - 1 := by
    have h1 : ((T.toNat - 1 : Nat) : Int) = T - 1 := by omega
    have h2 : (((T.toNat - 1 : Nat) : Int) : ℚ) = ((T - 1 : Int) : ℚ) := by rw [h1]
    simpa using h2
  have hTq : ((T : ℚ) - 1) ≠ 0 := by
    have : (2 : ℤ) ≤ T := by omega
    have : (2 : ℚ) ≤ (T : ℚ) := by exact_mod_cast this
    intro h; linarith
  have hf : ((T.toNat - 1 : Nat) : ℚ) / ((T : ℚ) - 1) * ((g.length : ℚ) - 1)
      = (((g.length : Int) - 1 : Int) : ℚ) := by
    rw [hcast, div_self hTq]; push_cast; ring
  have h0 : g.length - 1 < g.length := by omega
  simp only [specMovementPoint, hf, Int.floor_intCast, if_true]
  simp [List.getD_eq_getElem?_getD, List.getElem?_eq_getElem h0]

theorem head?_map_range {α : Type} (f : Nat → α) (t : Nat) (ht : 0 < t) :
    ((List.range t).map f).head? = some (f 0) := by
  obtain ⟨k, rfl⟩ : ∃ k, t = k + 1 := ⟨t - 1, by omega⟩
  simp [List.range_succ_eq_map]

theorem getLast?_map_range {α : Type} (f : Nat → α) (t : Nat) (ht : 0 < t) :
    ((List.range t).map f).getLast? = some (f (t - 1)) := by
  obtain ⟨k, rfl⟩ : ∃ k, t = k + 1 := ⟨t - 1, by omega⟩
  simp [List.range_succ]

theorem movementStep_single (p : Point) (T : Int) (i : Nat) (hT : T - 1 ≠ 0) :
    movementStep [p] T i = .ok (some p) := by
  simp [movementStep, progressAt, hT, coordAt]

theorem processRouteForMovement_typeError_of_total_one (r : RouteData)
    (h : totalPoints r = 1) : processRouteForMovement r = .error .typeError := by
  simp [processRouteForMovement, h, movementLoop, movementStep, progressAt]

/-- C1: for a route with at least 2 geometry points and a positive duration the Builder
returns, and the returned sequence has exactly `max(ceil(duration), geometry.length)`
points. -/
theorem processRouteForMovement_length (r : RouteData)
    (hn : 2 ≤ r.coordinates.length) (_hd : 0 < r.duration) :
    ∃ pts, processRouteForMovement r = .ok pts ∧
      (pts.length : Int) = max ⌈r.duration⌉ (r.coordinates.length : Int) := by
  refine ⟨_, processRouteForMovement_eq_spec r hn, ?_⟩
  have hT : (0 : Int) ≤ totalPoints r :=
    le_trans (Int.ofNat_nonneg _) (le_max_right _ _)
  simp only [List.length_map, List.length_range]
  rw [Int.toNat_of_nonneg hT]
  rfl

theorem processRouteForMovement_length_witness :
    ∃ pts, processRouteForMovement ⟨[(0, 0), (0, 10)], 10⟩ = .ok pts ∧
      (pts.length : Int) = max ⌈(10 : ℚ)⌉ (([(0, 0), (0, 10)] : List Point).length : Int) :=
  processRouteForMovement_length ⟨[(0, 0), (0, 10)], 10⟩ (by simp) (by norm_num)

/-- C2: for a geometry with at least 2 points and any duration the Builder returns a
sequence whose first point is exactly `geometry[0]` and whose last point is exactly the
last geometry point. -/
theorem processRouteForMovement_endpoints (r : RouteData)
    (hn : 2 ≤ r.coordinates.length) :
    ∃ pts, processRouteForMovement r = .ok pts ∧
      pts.head? = some (some (r.coordinates.get ⟨0, by omega⟩)) ∧
      pts.getLast? = some (some (r.coordinates.get ⟨r.coordinates.length - 1, by omega⟩)) := by
  have hT : (r.coordinates.length : Int) ≤ totalPoints r := le_max_right _ _
  have ht : 0 < (totalPoints r).toNat := by omega
  refine ⟨_, processRouteForMovement_eq_spec r hn, ?_, ?_⟩
  · rw [head?_map_range _ _ ht, specMovementPoint_zero _ _ hn]
  · rw [getLast?_map_range _ _ ht, specMovementPoint_last _ _ hn hT]

theorem processRouteForMovement_endpoints_witness :
    ∃ pts, processRouteForMovement ⟨[(1, 2), (3, 4), (5, 8)], 7⟩ = .ok pts ∧
      pts.head? = some (some (1, 2)) ∧ pts.getLast? = some (some (5, 8)) :=
  processRouteForMovement_endpoints ⟨[(1, 2), (3, 4), (5, 8)], 7⟩ (by simp)

/-- C3: for a geometry `g` with `n >= 2` points and `T = max(ceil(duration), n)` the Builder
returns `T` points, the `i`-th of which is the linear interpolation between `g[k]` and
`g[k+1]` with weight `f - k`, where `f = (i / (T - 1)) * (n - 1)` and `k = floor(f)` (and is
`g[n-1]` when `k = n - 1`); for `[[0,0],[0,10]]` and duration 10 these are the 10 points
`[0, 10*i/9]`. -/
theorem processRouteForMovement_points :
    (∀ r : RouteData, 2 ≤ r.coordinates.length →
      ∃ pts, processRouteForMovement r = .ok pts ∧
        (pts.length : Int) = totalPoints r ∧
        ∀ i : Nat, (i : Int) < totalPoints r →
          pts[i]? = some (some (specMovementPoint r.coordinates (totalPoints r) i))) ∧
    processRouteForMovement ⟨[(0, 0), (0, 10)], 10⟩
      = .ok ((List.range 10).map (fun i => some ((0 : ℚ), 10 * (i : ℚ) / 9))) := by
  constructor
  · intro r hn
    have hT : (0 : Int) ≤ totalPoints r :=
      le_trans (Int.ofNat_nonneg _) (le_max_right _ _)
    refine ⟨_, processRouteForMovement_eq_spec r hn, ?_, ?_⟩
    · simp only [List.length_map, List.length_range]
      exact Int.toNat_of_nonneg hT
    · intro i hi
      have hi2 : i < (totalPoints r).toNat := by omega
      simp [List.getElem?_map, List.getElem?_range hi2]
  · rw [processRouteForMovement_eq_spec _ (by simp)]
    simp [totalPoints, List.range, List.range.loop, specMovementPoint, specLerp]
    norm_num [Int.fract]

theorem processRouteForMovement_points_witness :
    ∃ pts, processRouteForMovement ⟨[(1, 2), (3, 4), (5, 8)], 7⟩ = .ok pts ∧
      (pts.length : Int) = totalPoints ⟨[(1, 2), (3, 4), (5, 8)], 7⟩ ∧
      ∀ i : Nat, (i : Int) < totalPoints ⟨[(1, 2), (3, 4), (5, 8)], 7⟩ →
        pts[i]? = some (some (specMovementPoint [(1, 2), (3, 4), (5, 8)]
          (totalPoints ⟨[(1, 2), (3, 4), (5, 8)], 7⟩) i)) :=
  processRouteForMovement_points.1 ⟨[(1, 2), (3, 4), (5, 8)], 7⟩ (by simp)

/-- C4, as the claim states it, fails: for the single-point geometry `[[0,0]]` and duration 5
the Builder returns five copies of the point, not the geometry. -/
theorem processRouteForMovement_single_point_counterexample :
    processRouteForMovement ⟨[(0, 0)], 5⟩ = .ok (List.replicate 5 (some (0, 0))) ∧
      processRouteForMovement ⟨[(0, 0)], 5⟩ ≠ .ok ([(0, 0)].map some) := by
  have h : processRouteForMovement ⟨[(0, 0)], 5⟩ = .ok (List.replicate 5 (some (0, 0))) := by
    simp [processRouteForMovement, totalPoints, movementLoop, movementStep_single]
  refine ⟨h, ?_⟩
  rw [h]
  simp [List.replicate]

/-- C4, amended: the Builder has no guard for a geometry with fewer than 2 points.  For a
single-point geometry `[p]` and `ceil(duration) >= 2` it returns `ceil(duration)` copies of
`p`; for the empty geometry and `ceil(duration) <= 0` it returns the empty sequence; in both
cases it does not fail. -/
theorem processRouteForMovement_degenerate :
    (∀ (p : Point) (d : ℚ), 2 ≤ ⌈d⌉ →
      processRouteForMovement ⟨[p], d⟩ = .ok (List.replicate ⌈d⌉.toNat (some p))) ∧
    (∀ d : ℚ, ⌈d⌉ ≤ 0 → processRouteForMovement ⟨[], d⟩ = .ok []) := by
  constructor
  · intro p d hd
    have hT : totalPoints ⟨[p], d⟩ = ⌈d⌉ := by
      simp only [totalPoints, List.length_singleton]
      exact max_eq_left (by omega)
    unfold processRouteForMovement
    rw [hT]
    rw [movementLoop_ok [p] ⌈d⌉ (fun _ => some p) ⌈d⌉.toNat 0 []
      (fun i _ _ => movementStep_single p ⌈d⌉ i (by omega)) (by omega)]
    simp [← List.range_eq_range', List.map_const']
  · intro d hd
    have hT : totalPoints ⟨[], d⟩ = 0 := by
      simp only [totalPoints, List.length_nil]
      exact max_eq_right (by simpa using hd)
    unfold processRouteForMovement
    rw [hT]
    simp [movementLoop]

theorem processRouteForMovement_degenerate_witness :
    processRouteForMovement ⟨[(3, 4)], 5 / 2⟩
      = .ok (List.replicate ⌈(5 / 2 : ℚ)⌉.toNat (some (3, 4))) :=
  processRouteForMovement_degenerate.1 (3, 4) (5 / 2) (by
    rw [show (2 : ℤ) = 1 + 1 from rfl, Int.add_one_le_ceil_iff]; norm_num)

/-- C5: for a geometry with at least 2 points and a duration `<= 0` the Builder returns
the very sequence it returns for the duration 1. -/
theorem processRouteForMovement_nonpositive_duration (g : List Point) (d : ℚ)
    (hn : 2 ≤ g.length) (hd : d ≤ 0) :
    ∃ pts, processRouteForMovement ⟨g, d⟩ = .ok pts ∧
      processRouteForMovement ⟨g, 1⟩ = .ok pts := by
  have hc : ⌈d⌉ ≤ 0 := by
    have : ⌈d⌉ ≤ ⌈(0 : ℚ)⌉ := Int.ceil_mono hd
    simpa using this
  have hT : totalPoints ⟨g, d⟩ = totalPoints ⟨g, 1⟩ := by
    simp only [totalPoints, Int.ceil_one]
    rw [max_eq_right (by omega), max_eq_right (by omega)]
  refine ⟨_, ?_, processRouteForMovement_eq_spec ⟨g, 1⟩ hn⟩
  rw [processRouteForMovement_eq_spec ⟨g, d⟩ hn, hT]

theorem processRouteForMovement_nonpositive_duration_witness :
    ∃ pts, processRouteForMovement ⟨[(1, 2), (3, 4), (5, 8)], -7 / 2⟩ = .ok pts ∧
      processRouteForMovement ⟨[(1, 2), (3, 4), (5, 8)], 1⟩ = .ok pts :=
  processRouteForMovement_nonpositive_duration [(1, 2), (3, 4), (5, 8)] (-7 / 2)
    (by simp) (by norm_num)


/-! ## Navigation sessions: results -/

theorem Registry.get_delete_self (m : Registry) (u : UserId) : (m.delete u).get u = none := by
  induction m with
  | nil => rfl
  | cons e m ih =>
    by_cases h : e.1 = u
    · simpa [Registry.delete, Registry.get, List.filter_cons, h] using ih
    · have h2 : ¬ u = e.1 := fun h3 => h h3.symm
      simpa [Registry.delete, Registry.get, List.filter_cons, h, List.lookup_cons, h2] using ih

theorem Registry.has_delete_self (m : Registry) (u : UserId) : (m.delete u).has u = false := by
  simp [Registry.has, Registry.get_delete_self]

theorem Registry.get_set_self (m : Registry) (u : UserId) (ref : Nat) :
    (m.set u ref).get u = some ref := by
  simp [Registry.set, Registry.get]

theorem State.has_of_navigationOf {s : State} {u : UserId} {ref : Nat} {nav : Navigation}
    (h : s.navigationOf u = some (ref, nav)) :
    s.activeNavigations.get u = some ref ∧ s.objects[ref]? = some nav := by
  unfold State.navigationOf at h
  split at h
  · exact absurd h (by simp)
  · rename_i ref2 hget
    split at h
    · exact absurd h (by simp)
    · rename_i nav2 hobj
      simp only [Option.some.injEq, Prod.mk.injEq] at h
      obtain ⟨rfl, rfl⟩ := h
      exact ⟨hget, hobj⟩

theorem State.navigationOf_eq {s : State} {u : UserId} {ref : Nat} {nav : Navigation}
    (hget : s.activeNavigations.get u = some ref) (hobj : s.objects[ref]? = some nav) :
    s.navigationOf u = some (ref, nav) := by
  simp [State.navigationOf, hget, hobj]

theorem tick_dead (s : State) (ref : Nat) (ok : Bool) (h : ref ∉ s.timers) :
    tick s ref ok = s := by
  simp [tick, tickStart, h]

theorem tick_paused (s : State) (ref : Nat) (ok : Bool) (nav : Navigation)
    (hobj : s.objects[ref]? = some nav) (hst : nav.status = .paused) :
    tick s ref ok = s := by
  by_cases h : ref ∈ s.timers
  · simp [tick, tickStart, h, hobj, hst]
  · exact tick_dead s ref ok h

theorem tick_complete (s : State) (ref : Nat) (ok : Bool) (nav : Navigation)
    (hlive : ref ∈ s.timers) (hobj : s.objects[ref]? = some nav)
    (hst : nav.status = .active) (hend : nav.movementPoints.length ≤ nav.currentIndex) :
    tick s ref ok =
      { s with
          timers := clearInterval s.timers nav.interval,
          activeNavigations := s.activeNavigations.delete nav.userId,
          emitted := s.emitted ++ [(nav.userId, .navigationCompleted)] } := by
  simp [tick, tickStart, hlive, hobj, hst, hend]

theorem tick_advance (s : State) (ref : Nat) (nav : Navigation)
    (hlive : ref ∈ s.timers) (hobj : s.objects[ref]? = some nav)
    (hst : nav.status = .active) (hlt : nav.currentIndex < nav.movementPoints.length) :
    tick s ref true =
      { s with
          emitted := s.emitted ++ [updateEvent nav.userId nav.movementPoints nav.currentIndex],
          objects := s.objects.set ref { nav with currentIndex := nav.currentIndex + 1 } } := by
  have h2 : ¬ nav.movementPoints.length ≤ nav.currentIndex := by omega
  simp [tick, tickStart, tickResume, hlive, hobj, hst, h2, updateEvent]

theorem tick_write_failed (s : State) (ref : Nat) (nav : Navigation)
    (hobj : s.objects[ref]? = some nav)
    (hlt : nav.currentIndex < nav.movementPoints.length) :
    tick s ref false = s := by
  have h2 : ¬ nav.movementPoints.length ≤ nav.currentIndex := by omega
  by_cases hlive : ref ∈ s.timers
  · by_cases hst : nav.status = .active
    · simp [tick, tickStart, tickResume, hlive, hobj, hst, h2]
    · simp [tick, tickStart, hlive, hobj, hst]
  · exact tick_dead s ref false hlive

theorem ticks_dead (s : State) (ref : Nat) (writes : List Bool) (h : ref ∉ s.timers) :
    ticks s ref writes = s := by
  induction writes with
  | nil => rfl
  | cons w ws ih =>
    simp only [ticks, List.foldl_cons] at ih ⊢
    rw [tick_dead s ref w h]
    exact ih

theorem ticks_paused (s : State) (ref : Nat) (writes : List Bool) (nav : Navigation)
    (hobj : s.objects[ref]? = some nav) (hst : nav.status = .paused) :
    ticks s ref writes = s := by
  induction writes with
  | nil => rfl
  | cons w ws ih =>
    simp only [ticks, List.foldl_cons] at ih ⊢
    rw [tick_paused s ref w nav hobj hst]
    exact ih

theorem ticks_append (s : State) (ref : Nat) (ws1 ws2 : List Bool) :
    ticks s ref (ws1 ++ ws2) = ticks (ticks s ref ws1) ref ws2 := by
  simp [ticks, List.foldl_append]

/-- C6: when a session exists for `userId`, `startNavigation` answers `AlreadyActive`
(HTTP 400) for every `routeId` and leaves the whole state, the registry and the session
with its timer included, as it was. -/
theorem startNavigation_alreadyActive
    (findById : RouteId → Except JSError (Option RouteData)) (now : Nat) (s : State)
    (userId : UserId) (routeId : RouteId) (h : s.activeNavigations.has userId = true) :
    (startNavigation findById now s userId routeId).2 = .alreadyActive ∧
      (startNavigation findById now s userId routeId).2.status = 400 ∧
      (startNavigation findById now s userId routeId).1 = s := by
  simp [startNavigation, h, Response.status]


theorem set_eq_self_of_getElem? {α : Type} {l : List α} {i : Nat} {a : α}
    (h : l[i]? = some a) : l.set i a = l := by
  apply List.ext_getElem?
  intro j
  rw [List.getElem?_set]
  split
  · rename_i hij
    subst hij
    split
    · exact h.symm
    · rename_i hlt
      rw [List.getElem?_eq_none (by omega)] at h
      exact absurd h (by simp)
  · rfl

theorem ticks_running (k : Nat) :
    ∀ (s : State) (ref : Nat) (nav : Navigation),
      ref ∈ s.timers → s.objects[ref]? = some nav → nav.status = .active →
      nav.currentIndex + k ≤ nav.movementPoints.length →
      ticks s ref (List.replicate k true) =
        { s with
            emitted := s.emitted ++
              (List.range' nav.currentIndex k).map (updateEvent nav.userId nav.movementPoints),
            objects := s.objects.set ref { nav with currentIndex := nav.currentIndex + k } } := by
  induction k with
  | zero =>
    intro s ref nav _ hobj _ _
    have hset : s.objects.set ref nav = s.objects := set_eq_self_of_getElem? hobj
    show s = { s with emitted := s.emitted ++ [], objects := s.objects.set ref nav }
    rw [hset, List.append_nil]
  | succ k ih =>
    intro s ref nav hlive hobj hst hk
    have hlt : ref < s.objects.length := by
      rcases Nat.lt_or_ge ref s.objects.length with h | h
      · exact h
      · rw [List.getElem?_eq_none h] at hobj; exact absurd hobj (by simp)
    rw [List.replicate_succ]
    simp only [ticks, List.foldl_cons]
    rw [tick_advance s ref nav hlive hobj hst (by omega)]
    have h2 := ih
      { s with
          emitted := s.emitted ++ [updateEvent nav.userId nav.movementPoints nav.currentIndex],
          objects := s.objects.set ref { nav with currentIndex := nav.currentIndex + 1 } }
      ref { nav with currentIndex := nav.currentIndex + 1 } hlive
      (by simp [List.getElem?_set_self, hlt]) hst (by simp only; omega)
    simp only [ticks] at h2
    rw [h2]
    simp [List.set_set, List.range'_succ, Nat.add_assoc, Nat.add_comm 1 k]


theorem startNavigation_fresh
    (findById : RouteId → Except JSError (Option RouteData)) (now : Nat) (s : State)
    (u : UserId) (r : RouteId) (route : RouteData) (mp : List Slot)
    (hfree : s.activeNavigations.has u = false)
    (hroute : findById r = .ok (some route))
    (hmp : processRouteForMovement route = .ok mp) :
    startNavigation findById now s u r =
      ({ objects := s.objects ++
            [{ userId := u, routeId := r, movementPoints := mp, currentIndex := 0,
               status := .active, startTime := now, interval := s.objects.length }],
         timers := s.timers ++ [s.objects.length],
         activeNavigations := s.activeNavigations.set u s.objects.length,
         emitted := s.emitted },
       .started mp.length) := by
  simp [startNavigation, hfree, startAfterLookup, hroute, hmp]

theorem not_mem_clearInterval (timers : List Nat) (h : Nat) : h ∉ clearInterval timers h := by
  simp [clearInterval]

theorem ticks_from_zero (s1 : State) (ref : Nat) (nav0 : Navigation)
    (hlive : ref ∈ s1.timers) (hobj : s1.objects[ref]? = some nav0)
    (hst : nav0.status = .active) (hci : nav0.currentIndex = 0)
    (hint : nav0.interval = ref) (k : Nat) :
    (ticks s1 ref (List.replicate k true)).emitted
      = s1.emitted ++
          (List.range (min k nav0.movementPoints.length)).map
            (updateEvent nav0.userId nav0.movementPoints)
          ++ (if nav0.movementPoints.length < k
                then [(nav0.userId, Event.navigationCompleted)] else []) := by
  have hlen : ref < s1.objects.length := by
    rcases Nat.lt_or_ge ref s1.objects.length with h | h
    · exact h
    · rw [List.getElem?_eq_none h] at hobj; exact absurd hobj (by simp)
  by_cases hk : k ≤ nav0.movementPoints.length
  · rw [ticks_running k s1 ref nav0 hlive hobj hst (by rw [hci]; omega)]
    simp [hci, min_eq_left hk, List.range_eq_range', not_lt.mpr hk]
  · obtain ⟨m, rfl⟩ : ∃ m, k = nav0.movementPoints.length + (1 + m) :=
      ⟨k - nav0.movementPoints.length - 1, by omega⟩
    have hrun := ticks_running nav0.movementPoints.length s1 ref nav0 hlive hobj hst
      (by rw [hci]; omega)
    rw [List.replicate_add, ticks_append, List.replicate_add, ticks_append]
    generalize ticks s1 ref (List.replicate nav0.movementPoints.length true) = s2 at hrun ⊢
    have ht2 : ref ∈ s2.timers := by rw [hrun]; exact hlive
    have hobj2 : s2.objects[ref]?
        = some { nav0 with currentIndex := nav0.currentIndex + nav0.movementPoints.length } := by
      rw [hrun]; simp [List.getElem?_set_self, hlen]
    have hem2 : s2.emitted = s1.emitted ++
        (List.range' nav0.currentIndex nav0.movementPoints.length).map
          (updateEvent nav0.userId nav0.movementPoints) := by
      rw [hrun]
    have hstep : ticks s2 ref (List.replicate 1 true) = tick s2 ref true := rfl
    rw [hstep, tick_complete s2 ref true _ ht2 hobj2 hst (by simp only; omega)]
    rw [ticks_dead _ _ _ (by simp only; rw [hint]; exact not_mem_clearInterval _ _)]
    have hmin : min (nav0.movementPoints.length + (1 + m)) nav0.movementPoints.length
        = nav0.movementPoints.length := by omega
    have hlt : nav0.movementPoints.length < nav0.movementPoints.length + (1 + m) := by omega
    simp [hem2, hci, hmin, hlt, List.range_eq_range']

/-- C7: a session started with `N` movement points that stays active, its ticks run one
after another and every location write succeeding, emits the `location-update` events
with `currentIndex` 0, 1, ..., `N - 1`, in this order and each once, then
`navigation-completed`, and nothing after it: after `k` ticks the events emitted since the
start are the first `min k N` updates, followed by the completion when `k > N`. -/
theorem navigation_emits_each_point_once
    (findById : RouteId → Except JSError (Option RouteData)) (now : Nat) (s : State)
    (u : UserId) (r : RouteId) (route : RouteData) (mp : List Slot)
    (hfree : s.activeNavigations.has u = false)
    (hroute : findById r = .ok (some route))
    (hmp : processRouteForMovement route = .ok mp) (k : Nat) :
    (ticks (startNavigation findById now s u r).1 s.objects.length
        (List.replicate k true)).emitted
      = s.emitted ++ (List.range (min k mp.length)).map (updateEvent u mp)
          ++ (if mp.length < k then [(u, Event.navigationCompleted)] else []) := by
  rw [startNavigation_fresh findById now s u r route mp hfree hroute hmp]
  exact ticks_from_zero _ s.objects.length
    { userId := u, routeId := r, movementPoints := mp, currentIndex := 0,
      status := .active, startTime := now, interval := s.objects.length }
    (by simp) (by simp) rfl rfl rfl k


theorem processRouteForMovement_sample :
    processRouteForMovement ⟨[(0, 0), (0, 10)], 3⟩ = .ok samplePoints := by
  rw [processRouteForMovement_eq_spec _ (by simp)]
  simp [totalPoints, List.range, List.range.loop, specMovementPoint, specLerp, samplePoints]
  norm_num [Int.fract]

theorem navigation_emits_each_point_once_witness :
    (ticks (startNavigation sampleStore 0 State.init "u" "r1").1 0
        (List.replicate 5 true)).emitted
      = [updateEvent "u" samplePoints 0, updateEvent "u" samplePoints 1,
         updateEvent "u" samplePoints 2, ("u", Event.navigationCompleted)] := by
  have h := navigation_emits_each_point_once sampleStore 0 State.init "u" "r1"
    ⟨[(0, 0), (0, 10)], 3⟩ samplePoints rfl rfl processRouteForMovement_sample 5
  simpa [State.init, samplePoints, List.range, List.range.loop] using h

theorem pauseNavigation_of_navigationOf (s : State) (u : UserId) (ref : Nat)
    (nav : Navigation) (hnav : s.navigationOf u = some (ref, nav)) :
    pauseNavigation s u =
      ({ s with
          objects := s.objects.set ref { nav with status := .paused },
          emitted := s.emitted ++ [(u, .navigationPaused)] },
       .paused) := by
  have hget := (State.has_of_navigationOf hnav).1
  simp [pauseNavigation, Registry.has, hget, hnav]

theorem resumeNavigation_of_navigationOf (s : State) (u : UserId) (ref : Nat)
    (nav : Navigation) (hnav : s.navigationOf u = some (ref, nav)) :
    resumeNavigation s u =
      ({ s with
          objects := s.objects.set ref { nav with status := .active },
          emitted := s.emitted ++ [(u, .navigationResumed)] },
       .resumed) := by
  have hget := (State.has_of_navigationOf hnav).1
  simp [resumeNavigation, Registry.has, hget, hnav]

theorem stopNavigation_of_navigationOf (s : State) (u : UserId) (ref : Nat)
    (nav : Navigation) (hnav : s.navigationOf u = some (ref, nav)) :
    stopNavigation s u =
      ({ s with
          timers := clearInterval s.timers nav.interval,
          activeNavigations := s.activeNavigations.delete u,
          emitted := s.emitted ++ [(u, .navigationStopped)] },
       .stopped) := by
  have hget := (State.has_of_navigationOf hnav).1
  simp [stopNavigation, Registry.has, hget, hnav]

theorem lt_length_of_getElem? {α : Type} {l : List α} {i : Nat} {a : α}
    (h : l[i]? = some a) : i < l.length := by
  rcases Nat.lt_or_ge i l.length with h1 | h1
  · exact h1
  · rw [List.getElem?_eq_none h1] at h; exact absurd h (by simp)

theorem navigationOf_pause (s : State) (u : UserId) (ref : Nat) (nav : Navigation)
    (hnav : s.navigationOf u = some (ref, nav)) :
    (pauseNavigation s u).1.navigationOf u = some (ref, { nav with status := .paused }) := by
  obtain ⟨hget, hobj⟩ := State.has_of_navigationOf hnav
  have hlen := lt_length_of_getElem? hobj
  rw [pauseNavigation_of_navigationOf s u ref nav hnav]
  exact State.navigationOf_eq hget (by simp [List.getElem?_set_self, hlen])

theorem navigationOf_resume (s : State) (u : UserId) (ref : Nat) (nav : Navigation)
    (hnav : s.navigationOf u = some (ref, nav)) :
    (resumeNavigation s u).1.navigationOf u = some (ref, { nav with status := .active }) := by
  obtain ⟨hget, hobj⟩ := State.has_of_navigationOf hnav
  have hlen := lt_length_of_getElem? hobj
  rw [resumeNavigation_of_navigationOf s u ref nav hnav]
  exact State.navigationOf_eq hget (by simp [List.getElem?_set_self, hlen])

theorem emitted_pause (s : State) (u : UserId) (ref : Nat) (nav : Navigation)
    (hnav : s.navigationOf u = some (ref, nav)) :
    (pauseNavigation s u).1.emitted = s.emitted ++ [(u, .navigationPaused)] := by
  rw [pauseNavigation_of_navigationOf s u ref nav hnav]

theorem emitted_resume (s : State) (u : UserId) (ref : Nat) (nav : Navigation)
    (hnav : s.navigationOf u = some (ref, nav)) :
    (resumeNavigation s u).1.emitted = s.emitted ++ [(u, .navigationResumed)] := by
  rw [resumeNavigation_of_navigationOf s u ref nav hnav]

/-- C8: for an existing session, a pause, then any number of ticks of the session, then a
resume leave `currentIndex` and `movementPoints` as they were before the pause and the
status `active`: the ticks on the paused session change nothing and emit nothing, and the
resume changes the status only. -/
theorem pause_ticks_resume (s : State) (u : UserId) (ref : Nat) (nav : Navigation)
    (hnav : s.navigationOf u = some (ref, nav)) (writes : List Bool) :
    ticks (pauseNavigation s u).1 ref writes = (pauseNavigation s u).1 ∧
      (resumeNavigation (ticks (pauseNavigation s u).1 ref writes) u).1.navigationOf u
        = some (ref, { nav with status := .active }) ∧
      (resumeNavigation (ticks (pauseNavigation s u).1 ref writes) u).1.emitted
        = s.emitted ++ [(u, .navigationPaused), (u, .navigationResumed)] := by
  have h1 := navigationOf_pause s u ref nav hnav
  have ht : ticks (pauseNavigation s u).1 ref writes = (pauseNavigation s u).1 :=
    ticks_paused _ ref writes _ (State.has_of_navigationOf h1).2 rfl
  rw [ht]
  refine ⟨rfl, ?_, ?_⟩
  · exact navigationOf_resume _ u ref { nav with status := .paused } h1
  · rw [emitted_resume _ u ref { nav with status := .paused } h1,
      emitted_pause s u ref nav hnav]
    simp


theorem startNavigation_sample :
    startNavigation sampleStore 0 State.init "u" "r1" = (sampleState, .started 3) := by
  rw [startNavigation_fresh sampleStore 0 State.init "u" "r1" ⟨[(0, 0), (0, 10)], 3⟩
    samplePoints rfl rfl processRouteForMovement_sample]
  rfl

theorem navigationOf_sample : sampleState.navigationOf "u" = some (0, sampleNavigation) := by
  rfl

theorem startNavigation_alreadyActive_witness :
    (startNavigation sampleStore 7 sampleState "u" "r2").2 = .alreadyActive ∧
      (startNavigation sampleStore 7 sampleState "u" "r2").2.status = 400 ∧
      (startNavigation sampleStore 7 sampleState "u" "r2").1 = sampleState :=
  startNavigation_alreadyActive sampleStore 7 sampleState "u" "r2" rfl

theorem pause_ticks_resume_witness :
    ticks (pauseNavigation sampleState "u").1 0 [true, false, true]
        = (pauseNavigation sampleState "u").1 ∧
      (resumeNavigation (ticks (pauseNavigation sampleState "u").1 0 [true, false, true])
          "u").1.navigationOf "u"
        = some (0, { sampleNavigation with status := .active }) ∧
      (resumeNavigation (ticks (pauseNavigation sampleState "u").1 0 [true, false, true])
          "u").1.emitted
        = sampleState.emitted ++ [("u", .navigationPaused), ("u", .navigationResumed)] :=
  pause_ticks_resume sampleState "u" 0 sampleNavigation navigationOf_sample [true, false, true]


theorem processRouteForMovement_sample_degenerate :
    processRouteForMovement ⟨[(0, 0)], 0⟩ = .error .typeError :=
  processRouteForMovement_typeError_of_total_one _ (by simp [totalPoints])

theorem startNavigation_builder_fails
    (findById : RouteId → Except JSError (Option RouteData)) (now : Nat) (s : State)
    (u : UserId) (r : RouteId) (route : RouteData) (e : JSError)
    (hfree : s.activeNavigations.has u = false)
    (hroute : findById r = .ok (some route))
    (hmp : processRouteForMovement route = .error e) :
    startNavigation findById now s u r = (s, .failed) := by
  simp [startNavigation, hfree, startAfterLookup, hroute, hmp]

/-- C9 at the failing input: `"u"` has a session and `"r2"` is a stored route (one point,
duration 0); the stop succeeds, yet the start that follows answers 500 and registers no
session, because the Builder throws on this route. -/
theorem stop_then_start_degenerate_route :
    sampleState.navigationOf "u" = some (0, sampleNavigation) ∧
      sampleStore "r2" = .ok (some ⟨[(0, 0)], 0⟩) ∧
      (stopNavigation sampleState "u").2 = .stopped ∧
      (startNavigation sampleStore 1 (stopNavigation sampleState "u").1 "u" "r2").2
        = .failed ∧
      (startNavigation sampleStore 1 (stopNavigation sampleState "u").1 "u" "r2").1.navigationOf
        "u" = none := by
  have hstop := stopNavigation_of_navigationOf sampleState "u" 0 sampleNavigation rfl
  have hstore : sampleStore "r2" = .ok (some ⟨[(0, 0)], 0⟩) := rfl
  have hfree : (stopNavigation sampleState "u").1.activeNavigations.has "u" = false := by
    rw [hstop]; exact Registry.has_delete_self _ _
  have hstart := startNavigation_builder_fails sampleStore 1 (stopNavigation sampleState "u").1
    "u" "r2" _ _ hfree hstore processRouteForMovement_sample_degenerate
  refine ⟨rfl, hstore, by rw [hstop], by rw [hstart], ?_⟩
  rw [hstart, hstop]
  simp [State.navigationOf, Registry.get_delete_self]

/-- For a user with a session and a stored route on which the Builder returns (any route
with at least 2 geometry points), `stopNavigation` followed at once by `startNavigation`
succeeds and registers a fresh active session with `currentIndex` 0, whose timer is alive:
the stop leaves nothing behind that blocks the start. -/
theorem stop_then_start
    (findById : RouteId → Except JSError (Option RouteData)) (now : Nat) (s : State)
    (u : UserId) (ref : Nat) (nav : Navigation) (r : RouteId) (route : RouteData)
    (mp : List Slot)
    (hnav : s.navigationOf u = some (ref, nav))
    (hroute : findById r = .ok (some route))
    (hmp : processRouteForMovement route = .ok mp) :
    (stopNavigation s u).2 = .stopped ∧
      (startNavigation findById now (stopNavigation s u).1 u r).2 = .started mp.length ∧
      (startNavigation findById now (stopNavigation s u).1 u r).1.navigationOf u
        = some (s.objects.length,
            { userId := u, routeId := r, movementPoints := mp, currentIndex := 0,
              status := .active, startTime := now, interval := s.objects.length }) ∧
      s.objects.length ∈ (startNavigation findById now (stopNavigation s u).1 u r).1.timers := by
  have hstop := stopNavigation_of_navigationOf s u ref nav hnav
  have hfree : (stopNavigation s u).1.activeNavigations.has u = false := by
    rw [hstop]; exact Registry.has_delete_self _ _
  have hobjs : (stopNavigation s u).1.objects = s.objects := by rw [hstop]
  rw [startNavigation_fresh findById now _ u r route mp hfree hroute hmp, hobjs]
  refine ⟨by rw [hstop], rfl, ?_, ?_⟩
  · exact State.navigationOf_eq (Registry.get_set_self _ _ _) (by simp)
  · simp

theorem stop_then_start_witness :
    (stopNavigation sampleState "u").2 = .stopped ∧
      (startNavigation sampleStore 5 (stopNavigation sampleState "u").1 "u" "r1").2
        = .started samplePoints.length ∧
      (startNavigation sampleStore 5 (stopNavigation sampleState "u").1 "u"
          "r1").1.navigationOf "u"
        = some (sampleState.objects.length,
            { userId := "u", routeId := "r1", movementPoints := samplePoints,
              currentIndex := 0, status := .active, startTime := 5,
              interval := sampleState.objects.length }) ∧
      sampleState.objects.length ∈
        (startNavigation sampleStore 5 (stopNavigation sampleState "u").1 "u" "r1").1.timers :=
  stop_then_start sampleStore 5 sampleState "u" 0 sampleNavigation "r1"
    ⟨[(0, 0), (0, 10)], 3⟩ samplePoints navigationOf_sample rfl
    processRouteForMovement_sample

theorem InBounds_of_objects_eq {s t : State} (h : t.objects = s.objects)
    (hs : s.InBounds) : t.InBounds := by
  intro nav hmem
  rw [h] at hmem
  exact hs nav hmem

theorem InBounds_set {s t : State} {ref : Nat} {nav2 : Navigation}
    (hs : s.InBounds) (ht : t.objects = s.objects.set ref nav2)
    (h2 : nav2.currentIndex ≤ nav2.movementPoints.length) : t.InBounds := by
  intro x hmem
  rw [ht] at hmem
  rcases List.mem_or_eq_of_mem_set hmem with h | h
  · exact hs x h
  · subst h; exact ⟨Nat.zero_le _, h2⟩

theorem InBounds_tick (s : State) (ref : Nat) (ok : Bool) (hs : s.InBounds) :
    (tick s ref ok).InBounds := by
  by_cases hlive : ref ∈ s.timers
  · cases hobj : s.objects[ref]? with
    | none =>
      have : tick s ref ok = s := by simp [tick, tickStart, hlive, hobj]
      rw [this]; exact hs
    | some nav =>
      have hb := hs nav (List.getElem?_mem hobj)
      by_cases hst : nav.status = .active
      · by_cases hend : nav.movementPoints.length ≤ nav.currentIndex
        · rw [tick_complete s ref ok nav hlive hobj hst hend]
          exact InBounds_of_objects_eq rfl hs
        · cases ok with
          | true =>
            rw [tick_advance s ref nav hlive hobj hst (by omega)]
            exact InBounds_set hs rfl (by simp only; omega)
          | false =>
            rw [tick_write_failed s ref nav hobj (by omega)]; exact hs
      · have hp : nav.status = .paused := by
          cases h : nav.status with
          | active => exact absurd h hst
          | paused => rfl
        rw [tick_paused s ref ok nav hobj hp]; exact hs
  · rw [tick_dead s ref ok hlive]; exact hs

theorem InBounds_start (findById : RouteId → Except JSError (Option RouteData)) (now : Nat)
    (s : State) (u : UserId) (r : RouteId) (hs : s.InBounds) :
    (startNavigation findById now s u r).1.InBounds := by
  unfold startNavigation
  split
  · exact hs
  · unfold startAfterLookup
    split
    · exact hs
    · exact hs
    · split
      · exact hs
      · intro nav hmem
        simp only [List.mem_append, List.mem_singleton] at hmem
        rcases hmem with h | h
        · exact hs nav h
        · subst h; exact ⟨Nat.zero_le _, Nat.zero_le _⟩

theorem InBounds_pause (s : State) (u : UserId) (hs : s.InBounds) :
    (pauseNavigation s u).1.InBounds := by
  unfold pauseNavigation
  split
  · exact hs
  · cases hnav : s.navigationOf u with
    | none => exact hs
    | some p =>
      obtain ⟨ref, nav⟩ := p
      have hb := hs nav (List.getElem?_mem (State.has_of_navigationOf hnav).2)
      exact InBounds_set hs rfl hb.2

theorem InBounds_resume (s : State) (u : UserId) (hs : s.InBounds) :
    (resumeNavigation s u).1.InBounds := by
  unfold resumeNavigation
  split
  · exact hs
  · cases hnav : s.navigationOf u with
    | none => exact hs
    | some p =>
      obtain ⟨ref, nav⟩ := p
      have hb := hs nav (List.getElem?_mem (State.has_of_navigationOf hnav).2)
      exact InBounds_set hs rfl hb.2

theorem InBounds_stop (s : State) (u : UserId) (hs : s.InBounds) :
    (stopNavigation s u).1.InBounds := by
  unfold stopNavigation
  split
  · exact hs
  · cases hnav : s.navigationOf u with
    | none => exact hs
    | some p => exact InBounds_of_objects_eq rfl hs

theorem InBounds_disconnect (s : State) (su : Option UserId) (hs : s.InBounds) :
    (disconnect s su).InBounds := by
  unfold disconnect
  cases su with
  | none => exact hs
  | some u =>
    simp only
    split
    · cases hnav : s.navigationOf u with
      | none => exact hs
      | some p => exact InBounds_of_objects_eq rfl hs
    · exact hs

theorem InBounds_run (findById : RouteId → Except JSError (Option RouteData))
    (ops : List Op) : ∀ s : State, s.InBounds → (run findById s ops).InBounds := by
  induction ops with
  | nil => intro s hs; exact hs
  | cons op ops ih =>
    intro s hs
    simp only [run, List.foldl_cons]
    apply ih
    cases op with
    | start u r now => exact InBounds_start findById now s u r hs
    | tick ref ok => exact InBounds_tick s ref ok hs
    | pause u => exact InBounds_pause s u hs
    | resume u => exact InBounds_resume s u hs
    | stop u => exact InBounds_stop s u hs
    | disconnect su => exact InBounds_disconnect s su hs

/-- C10: in every state reached from the boot state by any sequence of start, tick, pause,
resume, stop and disconnect operations (each run without interruption), every session in
the registry has `0 <= currentIndex <= movementPoints.length`. -/
theorem currentIndex_within_bounds
    (findById : RouteId → Except JSError (Option RouteData)) (ops : List Op)
    (u : UserId) (ref : Nat) (nav : Navigation)
    (hnav : (run findById State.init ops).navigationOf u = some (ref, nav)) :
    0 ≤ nav.currentIndex ∧ nav.currentIndex ≤ nav.movementPoints.length := by
  have hinit : State.init.InBounds := by
    intro x hx; simp [State.init] at hx
  exact InBounds_run findById ops State.init hinit nav
    (List.getElem?_mem (State.has_of_navigationOf hnav).2)


theorem tick_sample : tick sampleState 0 true =
    { sampleState with
        emitted := sampleState.emitted ++ [updateEvent "u" samplePoints 0],
        objects := sampleState.objects.set 0 { sampleNavigation with currentIndex := 1 } } :=
  tick_advance sampleState 0 sampleNavigation (by simp [sampleState]) rfl rfl (by decide)

theorem currentIndex_within_bounds_witness :
    (run sampleStore State.init [.start "u" "r1" 0, .tick 0 true, .pause "u"]).navigationOf "u"
        = some (0, { sampleNavigation with currentIndex := 1, status := .paused }) ∧
      (0 ≤ 1 ∧ 1 ≤ samplePoints.length) := by
  have h2 : (tick sampleState 0 true).navigationOf "u"
      = some (0, { sampleNavigation with currentIndex := 1 }) := by
    rw [tick_sample]; rfl
  have h3 := navigationOf_pause _ "u" 0 _ h2
  have h : (run sampleStore State.init [.start "u" "r1" 0, .tick 0 true, .pause "u"]).navigationOf
      "u" = some (0, { sampleNavigation with currentIndex := 1, status := .paused }) := by
    simp only [run, List.foldl, applyOp, startNavigation_sample]
    exact h3
  exact ⟨h, currentIndex_within_bounds sampleStore _ "u" 0 _ h⟩


/-- C11: for an active session with `currentIndex = c < L = movementPoints.length`, a tick
whose location write succeeds emits exactly one event, the `location-update` with
`position = movementPoints[c]`, `progress = c / L * 100`, `currentIndex = c`,
`totalPoints = L` and `estimatedTimeRemaining = L - c`; afterwards the session has
`currentIndex = c + 1` and is otherwise as before. -/
theorem tick_emits_update (s : State) (u : UserId) (ref : Nat) (nav : Navigation)
    (hnav : s.navigationOf u = some (ref, nav)) (hlive : ref ∈ s.timers)
    (hst : nav.status = .active) (hlt : nav.currentIndex < nav.movementPoints.length) :
    (tick s ref true).emitted
        = s.emitted ++ [(nav.userId,
            Event.locationUpdate (nav.movementPoints.get ⟨nav.currentIndex, hlt⟩)
              (((nav.currentIndex : ℚ) / (nav.movementPoints.length : ℚ)) * 100)
              nav.currentIndex nav.movementPoints.length
              ((nav.movementPoints.length : Int) - (nav.currentIndex : Int)))] ∧
      (tick s ref true).navigationOf u
        = some (ref, { nav with currentIndex := nav.currentIndex + 1 }) ∧
      (tick s ref true).timers = s.timers ∧
      (tick s ref true).activeNavigations = s.activeNavigations := by
  obtain ⟨hget, hobj⟩ := State.has_of_navigationOf hnav
  have hlen := lt_length_of_getElem? hobj
  rw [tick_advance s ref nav hlive hobj hst hlt]
  refine ⟨?_, ?_, rfl, rfl⟩
  · simp [updateEvent, List.getD_eq_getElem?_getD, List.getElem?_eq_getElem hlt]
  · exact State.navigationOf_eq hget (by simp [List.getElem?_set_self, hlen])

theorem tick_emits_update_witness :
    (tick sampleState 0 true).emitted
        = sampleState.emitted ++ [("u",
            Event.locationUpdate (some (0, 0)) (((0 : Nat) : ℚ) / ((3 : Nat) : ℚ) * 100) 0 3
              (((3 : Nat) : Int) - ((0 : Nat) : Int)))] ∧
      (tick sampleState 0 true).navigationOf "u"
        = some (0, { sampleNavigation with currentIndex := 0 + 1 }) ∧
      (tick sampleState 0 true).timers = sampleState.timers ∧
      (tick sampleState 0 true).activeNavigations = sampleState.activeNavigations :=
  tick_emits_update sampleState "u" 0 sampleNavigation navigationOf_sample
    (by simp [sampleState]) rfl (by decide)

/-- C12: for an active session with `currentIndex >= movementPoints.length`, a tick clears
the session's timer, removes the session from the registry and emits exactly one event,
`navigation-completed` (no `location-update`); afterwards the registry has no session for
the session's user. -/
theorem tick_completes (s : State) (ref : Nat) (nav : Navigation) (ok : Bool)
    (hnav : s.navigationOf nav.userId = some (ref, nav)) (hlive : ref ∈ s.timers)
    (hst : nav.status = .active) (hend : nav.movementPoints.length ≤ nav.currentIndex) :
    (tick s ref ok).timers = clearInterval s.timers nav.interval ∧
      nav.interval ∉ (tick s ref ok).timers ∧
      (tick s ref ok).activeNavigations = s.activeNavigations.delete nav.userId ∧
      (tick s ref ok).activeNavigations.has nav.userId = false ∧
      (tick s ref ok).navigationOf nav.userId = none ∧
      (tick s ref ok).emitted = s.emitted ++ [(nav.userId, Event.navigationCompleted)] := by
  obtain ⟨_, hobj⟩ := State.has_of_navigationOf hnav
  rw [tick_complete s ref ok nav hlive hobj hst hend]
  refine ⟨rfl, not_mem_clearInterval _ _, rfl, Registry.has_delete_self _ _, ?_, rfl⟩
  simp [State.navigationOf, Registry.get_delete_self]

theorem ticks_sample_three :
    ticks sampleState 0 (List.replicate 3 true) =
      { sampleState with
          emitted := sampleState.emitted ++
            (List.range' 0 3).map (updateEvent "u" samplePoints),
          objects := sampleState.objects.set 0 { sampleNavigation with currentIndex := 3 } } :=
  ticks_running 3 sampleState 0 sampleNavigation (by simp [sampleState]) rfl rfl (by decide)

theorem navigationOf_sample_three :
    (ticks sampleState 0 (List.replicate 3 true)).navigationOf "u"
      = some (0, { sampleNavigation with currentIndex := 3 }) := by
  rw [ticks_sample_three]; rfl

theorem timers_sample_three : 0 ∈ (ticks sampleState 0 (List.replicate 3 true)).timers := by
  rw [ticks_sample_three]; simp [sampleState]

theorem tick_completes_witness :
    (tick (ticks sampleState 0 (List.replicate 3 true)) 0 true).timers
        = clearInterval (ticks sampleState 0 (List.replicate 3 true)).timers 0 ∧
      0 ∉ (tick (ticks sampleState 0 (List.replicate 3 true)) 0 true).timers ∧
      (tick (ticks sampleState 0 (List.replicate 3 true)) 0 true).activeNavigations
        = (ticks sampleState 0 (List.replicate 3 true)).activeNavigations.delete "u" ∧
      (tick (ticks sampleState 0 (List.replicate 3 true)) 0 true).activeNavigations.has "u"
        = false ∧
      (tick (ticks sampleState 0 (List.replicate 3 true)) 0 true).navigationOf "u" = none ∧
      (tick (ticks sampleState 0 (List.replicate 3 true)) 0 true).emitted
        = (ticks sampleState 0 (List.replicate 3 true)).emitted
            ++ [("u", Event.navigationCompleted)] :=
  tick_completes (ticks sampleState 0 (List.replicate 3 true)) 0
    { sampleNavigation with currentIndex := 3 } true navigationOf_sample_three
    timers_sample_three rfl (by decide)

/-- C13: when there is no session for `userId`, each of `pauseNavigation`,
`resumeNavigation` and `stopNavigation` answers 404 and leaves the whole state, the
registry and the log of emitted events included, as it was. -/
theorem control_without_session (s : State) (u : UserId)
    (h : s.activeNavigations.has u = false) :
    pauseNavigation s u = (s, .noActiveNavigation) ∧
      resumeNavigation s u = (s, .noActiveNavigation) ∧
      stopNavigation s u = (s, .noActiveNavigation) ∧
      Response.noActiveNavigation.status = 404 := by
  simp [pauseNavigation, resumeNavigation, stopNavigation, h, Response.status]

theorem control_without_session_witness :
    pauseNavigation sampleState "v" = (sampleState, .noActiveNavigation) ∧
      resumeNavigation sampleState "v" = (sampleState, .noActiveNavigation) ∧
      stopNavigation sampleState "v" = (sampleState, .noActiveNavigation) ∧
      Response.noActiveNavigation.status = 404 :=
  control_without_session sampleState "v" rfl

/-- C14: for a user without a session and a stored route with at least 2 geometry points,
`startNavigation` registers a session for the user with status `active`, `currentIndex` 0
and the Builder's output as `movementPoints`, starts its timer, and answers with
`totalPoints = max(ceil(duration), geometry.length)`. -/
theorem startNavigation_registers
    (findById : RouteId → Except JSError (Option RouteData)) (now : Nat) (s : State)
    (u : UserId) (r : RouteId) (route : RouteData)
    (hfree : s.activeNavigations.has u = false)
    (hroute : findById r = .ok (some route))
    (hn : 2 ≤ route.coordinates.length) :
    ∃ mp, processRouteForMovement route = .ok mp ∧
      (startNavigation findById now s u r).1.navigationOf u
        = some (s.objects.length,
            { userId := u, routeId := r, movementPoints := mp, currentIndex := 0,
              status := .active, startTime := now, interval := s.objects.length }) ∧
      s.objects.length ∈ (startNavigation findById now s u r).1.timers ∧
      (startNavigation findById now s u r).2 = .started mp.length ∧
      (mp.length : Int) = max ⌈route.duration⌉ (route.coordinates.length : Int) := by
  have hmp := processRouteForMovement_eq_spec route hn
  have hT : (0 : Int) ≤ totalPoints route :=
    le_trans (Int.ofNat_nonneg _) (le_max_right _ _)
  refine ⟨_, hmp, ?_⟩
  rw [startNavigation_fresh findById now s u r route _ hfree hroute hmp]
  refine ⟨State.navigationOf_eq (Registry.get_set_self _ _ _) (by simp), by simp, rfl, ?_⟩
  simp only [List.length_map, List.length_range]
  rw [Int.toNat_of_nonneg hT]
  rfl

theorem startNavigation_registers_witness :
    ∃ mp, processRouteForMovement ⟨[(0, 0), (0, 10)], 3⟩ = .ok mp ∧
      (startNavigation sampleStore 0 State.init "u" "r1").1.navigationOf "u"
        = some (State.init.objects.length,
            { userId := "u", routeId := "r1", movementPoints := mp, currentIndex := 0,
              status := .active, startTime := 0, interval := State.init.objects.length }) ∧
      State.init.objects.length ∈ (startNavigation sampleStore 0 State.init "u" "r1").1.timers ∧
      (startNavigation sampleStore 0 State.init "u" "r1").2 = .started mp.length ∧
      (mp.length : Int) = max ⌈(3 : ℚ)⌉ (([(0, 0), (0, 10)] : List Point).length : Int) :=
  startNavigation_registers sampleStore 0 State.init "u" "r1" ⟨[(0, 0), (0, 10)], 3⟩
    rfl rfl (by simp)

/-- C15: for a user without a session and a `routeId` for which the store finds no route,
`startNavigation` answers `RouteNotFound` (HTTP 404) and leaves the whole state as it was:
no session, no timer. -/
theorem startNavigation_unknown_route
    (findById : RouteId → Except JSError (Option RouteData)) (now : Nat) (s : State)
    (u : UserId) (r : RouteId)
    (hfree : s.activeNavigations.has u = false)
    (hroute : findById r = .ok none) :
    (startNavigation findById now s u r).2 = .routeNotFound ∧
      (startNavigation findById now s u r).2.status = 404 ∧
      (startNavigation findById now s u r).1 = s := by
  simp [startNavigation, hfree, startAfterLookup, hroute, Response.status]

theorem startNavigation_unknown_route_witness :
    (startNavigation sampleStore 0 sampleState "v" "r9").2 = .routeNotFound ∧
      (startNavigation sampleStore 0 sampleState "v" "r9").2.status = 404 ∧
      (startNavigation sampleStore 0 sampleState "v" "r9").1 = sampleState :=
  startNavigation_unknown_route sampleStore 0 sampleState "v" "r9" rfl rfl


/-- C16: for a state with a session for `userId`, `stopNavigation` clears the session's
timer, removes the session and emits exactly one event, `navigation-stopped`; afterwards
the ticks of the session's timer, as many as one likes, change nothing and emit nothing. -/
theorem stopNavigation_cancels (s : State) (u : UserId) (ref : Nat) (nav : Navigation)
    (hnav : s.navigationOf u = some (ref, nav)) (writes : List Bool) :
    (stopNavigation s u).2 = .stopped ∧
      (stopNavigation s u).1.timers = clearInterval s.timers nav.interval ∧
      nav.interval ∉ (stopNavigation s u).1.timers ∧
      (stopNavigation s u).1.activeNavigations.has u = false ∧
      (stopNavigation s u).1.navigationOf u = none ∧
      (stopNavigation s u).1.emitted = s.emitted ++ [(u, Event.navigationStopped)] ∧
      ticks (stopNavigation s u).1 nav.interval writes = (stopNavigation s u).1 := by
  have hstop := stopNavigation_of_navigationOf s u ref nav hnav
  have hdead : nav.interval ∉ (stopNavigation s u).1.timers := by
    rw [hstop]; exact not_mem_clearInterval _ _
  refine ⟨by rw [hstop], by rw [hstop], hdead, ?_, ?_, by rw [hstop],
    ticks_dead _ _ _ hdead⟩
  · rw [hstop]; exact Registry.has_delete_self _ _
  · rw [hstop]; simp [State.navigationOf, Registry.get_delete_self]

theorem stopNavigation_cancels_witness :
    (stopNavigation (ticks sampleState 0 (List.replicate 3 true)) "u").2 = .stopped ∧
      (stopNavigation (ticks sampleState 0 (List.replicate 3 true)) "u").1.timers
        = clearInterval (ticks sampleState 0 (List.replicate 3 true)).timers 0 ∧
      0 ∉ (stopNavigation (ticks sampleState 0 (List.replicate 3 true)) "u").1.timers ∧
      (stopNavigation (ticks sampleState 0 (List.replicate 3 true)) "u").1.activeNavigations.has
        "u" = false ∧
      (stopNavigation (ticks sampleState 0 (List.replicate 3 true)) "u").1.navigationOf "u"
        = none ∧
      (stopNavigation (ticks sampleState 0 (List.replicate 3 true)) "u").1.emitted
        = (ticks sampleState 0 (List.replicate 3 true)).emitted
            ++ [("u", Event.navigationStopped)] ∧
      ticks (stopNavigation (ticks sampleState 0 (List.replicate 3 true)) "u").1 0
          [true, true]
        = (stopNavigation (ticks sampleState 0 (List.replicate 3 true)) "u").1 :=
  stopNavigation_cancels (ticks sampleState 0 (List.replicate 3 true)) "u" 0
    { sampleNavigation with currentIndex := 3 } navigationOf_sample_three [true, true]

theorem disconnect_of_navigationOf (s : State) (u : UserId) (ref : Nat)
    (nav : Navigation) (hu : u ≠ "") (hnav : s.navigationOf u = some (ref, nav)) :
    disconnect s (some u) =
      { s with
          timers := clearInterval s.timers nav.interval,
          activeNavigations := s.activeNavigations.delete u } := by
  have hget := (State.has_of_navigationOf hnav).1
  simp [disconnect, Registry.has, hget, hnav, hu]

/-- C17, as the claim states it, fails: on the disconnect of `"u"` no event is emitted,
whereas `stopNavigation` emits `navigation-stopped`. -/
theorem disconnect_emits_nothing_counterexample :
    sampleState.navigationOf "u" = some (0, sampleNavigation) ∧
      (disconnect sampleState (some "u")).emitted = [] ∧
      (stopNavigation sampleState "u").1.emitted = [("u", Event.navigationStopped)] ∧
      (disconnect sampleState (some "u")).emitted
        ≠ (stopNavigation sampleState "u").1.emitted := by
  have hd := disconnect_of_navigationOf sampleState "u" 0 sampleNavigation (by decide) rfl
  have hs := stopNavigation_of_navigationOf sampleState "u" 0 sampleNavigation rfl
  rw [hd, hs]
  exact ⟨rfl, rfl, rfl, by simp [sampleState]⟩

/-- C17, amended: for a non-empty `userId` with a session, the disconnect handler of a
connection joined as `userId` leaves the registry, the timers and the navigation objects
as `stopNavigation(userId)` leaves them (session removed, timer cleared), and emits no
event. -/
theorem disconnect_like_stop (s : State) (u : UserId) (ref : Nat) (nav : Navigation)
    (hu : u ≠ "") (hnav : s.navigationOf u = some (ref, nav)) :
    (disconnect s (some u)).activeNavigations = (stopNavigation s u).1.activeNavigations ∧
      (disconnect s (some u)).timers = (stopNavigation s u).1.timers ∧
      (disconnect s (some u)).objects = (stopNavigation s u).1.objects ∧
      (disconnect s (some u)).activeNavigations.has u = false ∧
      nav.interval ∉ (disconnect s (some u)).timers ∧
      (disconnect s (some u)).emitted = s.emitted := by
  rw [disconnect_of_navigationOf s u ref nav hu hnav,
    stopNavigation_of_navigationOf s u ref nav hnav]
  exact ⟨rfl, rfl, rfl, Registry.has_delete_self _ _, not_mem_clearInterval _ _, rfl⟩

theorem disconnect_like_stop_witness :
    (disconnect sampleState (some "u")).activeNavigations
        = (stopNavigation sampleState "u").1.activeNavigations ∧
      (disconnect sampleState (some "u")).timers = (stopNavigation sampleState "u").1.timers ∧
      (disconnect sampleState (some "u")).objects
        = (stopNavigation sampleState "u").1.objects ∧
      (disconnect sampleState (some "u")).activeNavigations.has "u" = false ∧
      sampleNavigation.interval ∉ (disconnect sampleState (some "u")).timers ∧
      (disconnect sampleState (some "u")).emitted = sampleState.emitted :=
  disconnect_like_stop sampleState "u" 0 sampleNavigation (by decide) navigationOf_sample

/-- C18, as the claim states it, fails: the session of `"u"` is active with
`currentIndex = 0 < 3`, and the tick whose write fails emits nothing. -/
theorem failed_write_counterexample :
    sampleState.navigationOf "u" = some (0, sampleNavigation) ∧
      sampleNavigation.status = .active ∧
      sampleNavigation.currentIndex < sampleNavigation.movementPoints.length ∧
      (tick sampleState 0 false).emitted = [] := by
  refine ⟨rfl, rfl, by decide, ?_⟩
  rw [tick_write_failed sampleState 0 sampleNavigation rfl (by decide)]
  rfl

/-- C18, amended: for an active session with `currentIndex < movementPoints.length`, a
tick whose location write fails emits no event and leaves the whole state, `currentIndex`
included, as it was (the failure is only logged); the next tick reads the same position
again. -/
theorem tick_failed_write (s : State) (u : UserId) (ref : Nat) (nav : Navigation)
    (hnav : s.navigationOf u = some (ref, nav)) (hlive : ref ∈ s.timers)
    (hst : nav.status = .active) (hlt : nav.currentIndex < nav.movementPoints.length) :
    tick s ref false = s ∧
      (tick s ref false).emitted = s.emitted ∧
      (tick s ref false).navigationOf u = some (ref, nav) ∧
      (tickStart (tick s ref false) ref).2
        = .awaiting (nav.movementPoints.get ⟨nav.currentIndex, hlt⟩) := by
  obtain ⟨_, hobj⟩ := State.has_of_navigationOf hnav
  have h := tick_write_failed s ref nav hobj hlt
  have h2 : ¬ nav.movementPoints.length ≤ nav.currentIndex := by omega
  rw [h]
  refine ⟨rfl, rfl, hnav, ?_⟩
  simp [tickStart, hlive, hobj, hst, h2, List.getD_eq_getElem?_getD,
    List.getElem?_eq_getElem hlt]

theorem tick_failed_write_witness :
    tick sampleState 0 false = sampleState ∧
      (tick sampleState 0 false).emitted = sampleState.emitted ∧
      (tick sampleState 0 false).navigationOf "u" = some (0, sampleNavigation) ∧
      (tickStart (tick sampleState 0 false) 0).2 = .awaiting (some (0, 0)) :=
  tick_failed_write sampleState "u" 0 sampleNavigation navigationOf_sample
    (by simp [sampleState]) rfl (by decide)

/-- C19 at the failing run: the tick of `"u"` has read its position and waits for the
write; `stopNavigation` removes the session; the write then succeeds, and the tick emits
its `location-update` after `navigation-stopped` and increments `currentIndex` of the
removed object. -/
theorem inflight_tick_after_stop :
    tickStart sampleState 0 = (sampleState, .awaiting (some (0, 0))) ∧
      (stopNavigation sampleState "u").1.navigationOf "u" = none ∧
      0 ∉ (stopNavigation sampleState "u").1.timers ∧
      (tickResume (stopNavigation sampleState "u").1 0 (some (0, 0)) true).emitted
        = [("u", Event.navigationStopped), updateEvent "u" samplePoints 0] ∧
      (tickResume (stopNavigation sampleState "u").1 0 (some (0, 0)) true).objects
        = [{ sampleNavigation with currentIndex := 1 }] := by
  have hs := stopNavigation_of_navigationOf sampleState "u" 0 sampleNavigation rfl
  rw [hs]
  refine ⟨?_, ?_, ?_, ?_, ?_⟩
  · simp [tickStart, sampleState, sampleNavigation, samplePoints]
  · simp [State.navigationOf, Registry.get_delete_self]
  · exact not_mem_clearInterval _ _
  · simp [tickResume, sampleState, sampleNavigation, samplePoints, updateEvent]
  · simp [tickResume, sampleState, sampleNavigation, samplePoints]

/-- C20 at the failing run: two `startNavigation` requests of `"u"` both pass the registry
check on the boot state before either route lookup settles; both then install a timer.
Two timers are alive, the registry holds the second session only, and after
`stopNavigation` the first timer is still alive with no session in the registry. -/
theorem concurrent_starts_two_timers :
    State.init.activeNavigations.has "u" = false ∧
      (startAfterLookup (startAfterLookup State.init 0 "u" "r1" (sampleStore "r1")).1
          1 "u" "r1" (sampleStore "r1")).1.timers = [0, 1] ∧
      (startAfterLookup (startAfterLookup State.init 0 "u" "r1" (sampleStore "r1")).1
          1 "u" "r1" (sampleStore "r1")).1.activeNavigations = [("u", 1)] ∧
      (stopNavigation
          (startAfterLookup (startAfterLookup State.init 0 "u" "r1" (sampleStore "r1")).1
            1 "u" "r1" (sampleStore "r1")).1 "u").1.timers = [0] ∧
      (stopNavigation
          (startAfterLookup (startAfterLookup State.init 0 "u" "r1" (sampleStore "r1")).1
            1 "u" "r1" (sampleStore "r1")).1 "u").1.activeNavigations = [] := by
  have hstore : sampleStore "r1" = .ok (some ⟨[(0, 0), (0, 10)], 3⟩) := rfl
  have h1 : ∀ (s : State) (now : Nat),
      startAfterLookup s now "u" "r1" (sampleStore "r1") =
        ({ objects := s.objects ++
              [{ userId := "u", routeId := "r1", movementPoints := samplePoints,
                 currentIndex := 0, status := .active, startTime := now,
                 interval := s.objects.length }],
           timers := s.timers ++ [s.objects.length],
           activeNavigations := s.activeNavigations.set "u" s.objects.length,
           emitted := s.emitted },
         .started samplePoints.length) := by
    intro s now
    rw [hstore]
    simp only [startAfterLookup, processRouteForMovement_sample]
  rw [h1, h1]
  refine ⟨rfl, rfl, rfl, ?_, ?_⟩
  · rfl
  · rfl

/-! ## Double-precision arithmetic: results -/

theorem roundHalfEven_floor_le (q : ℚ) : ⌊q⌋ ≤ roundHalfEven q := by
  unfold roundHalfEven
  split
  · exact le_refl _
  · split
    · omega
    · split <;> omega

theorem roundHalfEven_le_floor_add_one (q : ℚ) : roundHalfEven q ≤ ⌊q⌋ + 1 := by
  unfold roundHalfEven
  split
  · omega
  · split
    · exact le_refl _
    · split <;> omega

theorem roundHalfEven_eq (q : ℚ) (k : Int) (h1 : (k : ℚ) - 1 / 2 < q)
    (h2 : q < (k : ℚ) + 1 / 2) : roundHalfEven q = k := by
  unfold roundHalfEven
  have hfl := Int.floor_le q
  have hfl2 := Int.lt_floor_add_one q
  by_cases hlt : q - (⌊q⌋ : ℚ) < 1 / 2
  · rw [if_pos hlt]
    have ha : (⌊q⌋ : ℚ) < (k : ℚ) + 1 := by linarith
    have hb : (k : ℚ) - 1 < (⌊q⌋ : ℚ) := by linarith
    have ha2 : ⌊q⌋ < k + 1 := by exact_mod_cast ha
    have hb2 : k - 1 < ⌊q⌋ := by exact_mod_cast hb
    omega
  · rw [if_neg hlt]
    have hge : (1 : ℚ) / 2 ≤ q - (⌊q⌋ : ℚ) := not_lt.mp hlt
    have ha : (⌊q⌋ : ℚ) < (k : ℚ) := by linarith
    have hb : (k : ℚ) - 2 < (⌊q⌋ : ℚ) := by linarith
    have ha2 : ⌊q⌋ < k := by exact_mod_cast ha
    have hb2 : k - 2 < ⌊q⌋ := by exact_mod_cast hb
    have hk : ⌊q⌋ = k - 1 := by omega
    have hgt : (1 : ℚ) / 2 < q - (⌊q⌋ : ℚ) := by
      rw [hk]; push_cast; linarith
    rw [if_pos hgt]
    omega

theorem roundHalfEven_intCast (k : Int) : roundHalfEven (k : ℚ) = k :=
  roundHalfEven_eq _ k (by linarith) (by linarith)

theorem roundHalfEven_mono {p q : ℚ} (h : p ≤ q) : roundHalfEven p ≤ roundHalfEven q := by
  have hfl : ⌊p⌋ ≤ ⌊q⌋ := Int.floor_mono h
  rcases lt_or_eq_of_le hfl with hlt | heq
  · calc roundHalfEven p ≤ ⌊p⌋ + 1 := roundHalfEven_le_floor_add_one p
      _ ≤ ⌊q⌋ := by omega
      _ ≤ roundHalfEven q := roundHalfEven_floor_le q
  · unfold roundHalfEven
    rw [heq]
    have hpq : p - (⌊q⌋ : ℚ) ≤ q - (⌊q⌋ : ℚ) := by linarith
    by_cases h1 : p - (⌊q⌋ : ℚ) < 1 / 2
    · rw [if_pos h1]
      split
      · exact le_refl _
      · split
        · omega
        · split <;> omega
    · rw [if_neg h1]
      by_cases h2 : 1 / 2 < p - (⌊q⌋ : ℚ)
      · rw [if_pos h2]
        have h3 : ¬ q - (⌊q⌋ : ℚ) < 1 / 2 := by linarith
        have h4 : 1 / 2 < q - (⌊q⌋ : ℚ) := by linarith
        rw [if_neg h3, if_pos h4]
      · rw [if_neg h2]
        have h3 : ¬ q - (⌊q⌋ : ℚ) < 1 / 2 := by linarith
        rw [if_neg h3]
        by_cases h4 : 1 / 2 < q - (⌊q⌋ : ℚ)
        · rw [if_pos h4]
          split <;> omega
        · rw [if_neg h4]

theorem roundHalfEven_error (q : ℚ) :
    |(roundHalfEven q : ℚ) - q| ≤ 1 / 2 := by
  have hfl := Int.floor_le q
  have hfl2 := Int.lt_floor_add_one q
  unfold roundHalfEven
  rw [abs_le]
  by_cases h1 : q - (⌊q⌋ : ℚ) < 1 / 2
  · rw [if_pos h1]
    constructor <;> linarith
  · rw [if_neg h1]
    have hge : (1 : ℚ) / 2 ≤ q - (⌊q⌋ : ℚ) := not_lt.mp h1
    by_cases h2 : 1 / 2 < q - (⌊q⌋ : ℚ)
    · rw [if_pos h2]
      push_cast
      constructor <;> linarith
    · rw [if_neg h2]
      split
      · constructor <;> linarith
      · push_cast
        constructor <;> linarith

theorem two_zpow_pos (e : Int) : (0 : ℚ) < (2 : ℚ) ^ e := zpow_pos (by norm_num) e

theorem roundDouble_nonneg {x : ℚ} (hx : 0 ≤ x) : 0 ≤ roundDouble x := by
  unfold roundDouble
  have h0 : (0 : ℚ) ≤ x / (2 : ℚ) ^ ulpExponent x := div_nonneg hx (two_zpow_pos _).le
  have h1 : (0 : Int) ≤ roundHalfEven (x / (2 : ℚ) ^ ulpExponent x) := by
    have := roundHalfEven_mono h0
    rw [show ((0 : ℚ)) = ((0 : Int) : ℚ) by norm_num, roundHalfEven_intCast] at this
    exact this
  have h2 : (0 : ℚ) ≤ (roundHalfEven (x / (2 : ℚ) ^ ulpExponent x) : ℚ) := by exact_mod_cast h1
  exact mul_nonneg h2 (two_zpow_pos _).le

theorem roundDouble_nonpos {x : ℚ} (hx : x ≤ 0) : roundDouble x ≤ 0 := by
  unfold roundDouble
  have h0 : x / (2 : ℚ) ^ ulpExponent x ≤ 0 := div_nonpos_of_nonpos_of_nonneg hx (two_zpow_pos _).le
  have h1 : roundHalfEven (x / (2 : ℚ) ^ ulpExponent x) ≤ (0 : Int) := by
    have := roundHalfEven_mono h0
    rw [show ((0 : ℚ)) = ((0 : Int) : ℚ) by norm_num, roundHalfEven_intCast] at this
    exact this
  have h2 : (roundHalfEven (x / (2 : ℚ) ^ ulpExponent x) : ℚ) ≤ 0 := by exact_mod_cast h1
  exact mul_nonpos_of_nonpos_of_nonneg h2 (two_zpow_pos _).le

theorem log_two_bounds {x : ℚ} (hx : 0 < x) :
    (2 : ℚ) ^ Int.log 2 x ≤ x ∧ x < (2 : ℚ) ^ (Int.log 2 x + 1) := by
  have h1 := Int.zpow_log_le_self (b := 2) (r := x) (by norm_num) hx
  have h2 := Int.lt_zpow_succ_log_self (b := 2) (by norm_num) x
  simp only [Nat.cast_ofNat] at h1 h2
  exact ⟨h1, h2⟩

theorem log_two_eq {x : ℚ} {e : Int} (h1 : (2 : ℚ) ^ e ≤ x) (h2 : x < (2 : ℚ) ^ (e + 1)) :
    Int.log 2 x = e := by
  have hx : 0 < x := lt_of_lt_of_le (two_zpow_pos e) h1
  have ha : e ≤ Int.log 2 x := by
    rw [← Int.zpow_le_iff_le_log (b := 2) (by norm_num) hx]
    simpa using h1
  have hb : Int.log 2 x < e + 1 := by
    rw [← Int.lt_zpow_iff_log_lt (b := 2) (by norm_num) hx]
    simpa using h2
  omega


theorem two_zpow_le {m n : Int} (h : m ≤ n) : (2 : ℚ) ^ m ≤ (2 : ℚ) ^ n :=
  zpow_le_zpow_right₀ (by norm_num) h

theorem two_zpow_add (m n : Int) : (2 : ℚ) ^ (m + n) = (2 : ℚ) ^ m * (2 : ℚ) ^ n :=
  zpow_add₀ (by norm_num) m n

theorem roundDouble_zero : roundDouble 0 = 0 := by
  unfold roundDouble
  rw [zero_div, show ((0 : ℚ)) = ((0 : Int) : ℚ) by norm_num, roundHalfEven_intCast]
  simp

/-- A positive `x` is rounded to at least the power of two at the foot of its binade, when
that power is a normal double. -/
theorem roundDouble_ge_zpow {x : ℚ} {e : Int} (he : -1022 ≤ e) (h : (2 : ℚ) ^ e ≤ x) :
    (2 : ℚ) ^ e ≤ roundDouble x := by
  have hx : 0 < x := lt_of_lt_of_le (two_zpow_pos e) h
  have hlog : e ≤ Int.log 2 x := by
    rw [← Int.zpow_le_iff_le_log (b := 2) (by norm_num) hx]
    simpa using h
  have hu : ulpExponent x = Int.log 2 x - 52 := by
    unfold ulpExponent
    rw [abs_of_pos hx, max_eq_left (by omega)]
  unfold roundDouble
  rw [hu]
  have hb := (log_two_bounds hx).1
  have hq : (((2 : Int) ^ (52 : ℕ) : Int) : ℚ) ≤ x / (2 : ℚ) ^ (Int.log 2 x - 52) := by
    rw [le_div_iff₀ (two_zpow_pos _)]
    have : (((2 : Int) ^ (52 : ℕ) : Int) : ℚ) * (2 : ℚ) ^ (Int.log 2 x - 52)
        = (2 : ℚ) ^ Int.log 2 x := by
      have h52 : (((2 : Int) ^ (52 : ℕ) : Int) : ℚ) = (2 : ℚ) ^ (52 : Int) := by norm_num
      rw [h52, ← two_zpow_add]
      congr 1
      omega
    rw [this]
    exact hb
  have hr := roundHalfEven_mono hq
  rw [roundHalfEven_intCast] at hr
  have hr2 : (((2 : Int) ^ (52 : ℕ) : Int) : ℚ)
      ≤ (roundHalfEven (x / (2 : ℚ) ^ (Int.log 2 x - 52)) : ℚ) := by exact_mod_cast hr
  have h52 : (((2 : Int) ^ (52 : ℕ) : Int) : ℚ) = (2 : ℚ) ^ (52 : Int) := by norm_num
  calc (2 : ℚ) ^ e ≤ (2 : ℚ) ^ Int.log 2 x := two_zpow_le hlog
    _ = (2 : ℚ) ^ (52 : Int) * (2 : ℚ) ^ (Int.log 2 x - 52) := by
        rw [← two_zpow_add]; congr 1; omega
    _ ≤ (roundHalfEven (x / (2 : ℚ) ^ (Int.log 2 x - 52)) : ℚ)
          * (2 : ℚ) ^ (Int.log 2 x - 52) := by
        rw [← h52]
        exact mul_le_mul_of_nonneg_right hr2 (two_zpow_pos _).le

/-- A positive `x` is rounded to at most the power of two at the head of its binade. -/
theorem roundDouble_le_zpow {x : ℚ} (hx : 0 < x) :
    roundDouble x ≤ (2 : ℚ) ^ (ulpExponent x + 53) := by
  have hb := (log_two_bounds hx).2
  have hle : (2 : ℚ) ^ (Int.log 2 x + 1) ≤ (2 : ℚ) ^ (ulpExponent x + 53) := by
    apply two_zpow_le
    unfold ulpExponent
    rw [abs_of_pos hx]
    have := le_max_left (Int.log 2 x) (-1022)
    omega
  have h53 : (((2 : Int) ^ (53 : ℕ) : Int) : ℚ) = (2 : ℚ) ^ (53 : Int) := by norm_num
  have hq : x / (2 : ℚ) ^ ulpExponent x ≤ (((2 : Int) ^ (53 : ℕ) : Int) : ℚ) := by
    rw [div_le_iff₀ (two_zpow_pos _), h53, ← two_zpow_add]
    have : (53 : Int) + ulpExponent x = ulpExponent x + 53 := by omega
    rw [this]
    linarith
  have hr := roundHalfEven_mono hq
  rw [roundHalfEven_intCast] at hr
  have hr2 : (roundHalfEven (x / (2 : ℚ) ^ ulpExponent x) : ℚ)
      ≤ (((2 : Int) ^ (53 : ℕ) : Int) : ℚ) := by exact_mod_cast hr
  unfold roundDouble
  calc (roundHalfEven (x / (2 : ℚ) ^ ulpExponent x) : ℚ) * (2 : ℚ) ^ ulpExponent x
      ≤ (((2 : Int) ^ (53 : ℕ) : Int) : ℚ) * (2 : ℚ) ^ ulpExponent x :=
        mul_le_mul_of_nonneg_right hr2 (two_zpow_pos _).le
    _ = (2 : ℚ) ^ (ulpExponent x + 53) := by
        rw [h53, ← two_zpow_add]; congr 1; omega

/-- Rounding to the nearest double keeps the order of non-negative values. -/
theorem roundDouble_mono {x y : ℚ} (hx : 0 ≤ x) (hxy : x ≤ y) :
    roundDouble x ≤ roundDouble y := by
  rcases eq_or_lt_of_le hx with h0 | hpos
  · rw [← h0, roundDouble_zero]
    exact roundDouble_nonneg (le_trans hx hxy)
  · have hy : 0 < y := lt_of_lt_of_le hpos hxy
    have hlog : Int.log 2 x ≤ Int.log 2 y := Int.log_mono_right hpos hxy
    have hex : ulpExponent x = max (Int.log 2 x) (-1022) - 52 := by
      unfold ulpExponent; rw [abs_of_pos hpos]
    have hey : ulpExponent y = max (Int.log 2 y) (-1022) - 52 := by
      unfold ulpExponent; rw [abs_of_pos hy]
    have hle : ulpExponent x ≤ ulpExponent y := by
      rw [hex, hey]
      have := max_le_max hlog (le_refl (-1022 : Int))
      omega
    rcases eq_or_lt_of_le hle with heq | hlt
    · unfold roundDouble
      rw [heq]
      have hq : x / (2 : ℚ) ^ ulpExponent y ≤ y / (2 : ℚ) ^ ulpExponent y :=
        div_le_div_of_nonneg_right hxy (two_zpow_pos _).le
      have hr := roundHalfEven_mono hq
      have hr2 : (roundHalfEven (x / (2 : ℚ) ^ ulpExponent y) : ℚ)
          ≤ (roundHalfEven (y / (2 : ℚ) ^ ulpExponent y) : ℚ) := by exact_mod_cast hr
      exact mul_le_mul_of_nonneg_right hr2 (two_zpow_pos _).le
    · have hly : -1022 < Int.log 2 y := by
        by_contra hcon
        have h1 : max (Int.log 2 y) (-1022) = -1022 := max_eq_right (by omega)
        have h2 := le_max_right (Int.log 2 x) (-1022)
        rw [hex, hey, h1] at hlt
        omega
      have hey2 : ulpExponent y = Int.log 2 y - 52 := by
        rw [hey, max_eq_left (by omega)]
      calc roundDouble x ≤ (2 : ℚ) ^ (ulpExponent x + 53) := roundDouble_le_zpow hpos
        _ ≤ (2 : ℚ) ^ Int.log 2 y := two_zpow_le (by omega)
        _ ≤ roundDouble y := roundDouble_ge_zpow (by omega) (log_two_bounds hy).1

/-- A multiple of the spacing of the doubles around it is a double: rounding leaves it as
it is. -/
theorem roundDouble_of_multiple (x : ℚ) (k j : Int) (hx : x = (k : ℚ) * (2 : ℚ) ^ j)
    (hj : ulpExponent x ≤ j) : roundDouble x = x := by
  unfold roundDouble
  obtain ⟨d, hd⟩ : ∃ d : ℕ, j = ulpExponent x + d := ⟨(j - ulpExponent x).toNat, by omega⟩
  have hq : x / (2 : ℚ) ^ ulpExponent x = ((k * (2 : Int) ^ d : Int) : ℚ) := by
    rw [div_eq_iff (two_zpow_pos _).ne']
    conv_lhs => rw [hx, hd, Int.add_comm, two_zpow_add]
    push_cast
    rw [zpow_natCast]
    ring
  rw [hq, roundHalfEven_intCast, ← hq]
  exact div_mul_cancel₀ _ (two_zpow_pos _).ne'

theorem ulpExponent_eq {x : ℚ} {e : Int} (h1 : (2 : ℚ) ^ e ≤ |x|)
    (h2 : |x| < (2 : ℚ) ^ (e + 1)) : ulpExponent x = max e (-1022) - 52 := by
  unfold ulpExponent
  rw [log_two_eq h1 h2]

/-- The rounding of `x` from its binade and the integer nearest to its scaled value. -/
theorem roundDouble_eval (x : ℚ) (e k : Int) (he : -1022 ≤ e) (h1 : (2 : ℚ) ^ e ≤ |x|)
    (h2 : |x| < (2 : ℚ) ^ (e + 1))
    (h3 : (k : ℚ) - 1 / 2 < x / (2 : ℚ) ^ (e - 52))
    (h4 : x / (2 : ℚ) ^ (e - 52) < (k : ℚ) + 1 / 2) :
    roundDouble x = (k : ℚ) * (2 : ℚ) ^ (e - 52) := by
  have hu : ulpExponent x = e - 52 := by
    rw [ulpExponent_eq h1 h2, max_eq_left he]
  unfold roundDouble
  rw [hu, roundHalfEven_eq _ k h3 h4]

/-- The error of rounding a positive value below `2 ^ k`. -/
theorem roundDouble_error {x : ℚ} {k : Int} (hx : 0 ≤ x) (hk : -1021 ≤ k)
    (h : x < (2 : ℚ) ^ k) : |roundDouble x - x| ≤ (2 : ℚ) ^ (k - 54) := by
  rcases eq_or_lt_of_le hx with h0 | hpos
  · rw [← h0, roundDouble_zero]
    simp only [sub_zero, abs_zero]
    exact (two_zpow_pos _).le
  · have hlog : Int.log 2 x < k := by
      rw [← Int.lt_zpow_iff_log_lt (b := 2) (by norm_num) hpos]
      simpa using h
    have hu : ulpExponent x ≤ k - 53 := by
      unfold ulpExponent
      rw [abs_of_pos hpos]
      have := max_le (show Int.log 2 x ≤ k - 1 by omega) (show (-1022 : Int) ≤ k - 1 by omega)
      omega
    have herr := roundHalfEven_error (x / (2 : ℚ) ^ ulpExponent x)
    have hpos2 := two_zpow_pos (ulpExponent x)
    have hx2 : x = x / (2 : ℚ) ^ ulpExponent x * (2 : ℚ) ^ ulpExponent x :=
      (div_mul_cancel₀ _ hpos2.ne').symm
    have hdiff : roundDouble x - x
        = ((roundHalfEven (x / (2 : ℚ) ^ ulpExponent x) : ℚ) - x / (2 : ℚ) ^ ulpExponent x)
            * (2 : ℚ) ^ ulpExponent x := by
      unfold roundDouble
      rw [sub_mul, div_mul_cancel₀ _ hpos2.ne']
    rw [hdiff, abs_mul, abs_of_pos hpos2]
    calc |(roundHalfEven (x / (2 : ℚ) ^ ulpExponent x) : ℚ) - x / (2 : ℚ) ^ ulpExponent x|
          * (2 : ℚ) ^ ulpExponent x
        ≤ 1 / 2 * (2 : ℚ) ^ ulpExponent x := mul_le_mul_of_nonneg_right herr hpos2.le
      _ ≤ 1 / 2 * (2 : ℚ) ^ (k - 53) := by
          apply mul_le_mul_of_nonneg_left (two_zpow_le hu) (by norm_num)
      _ = (2 : ℚ) ^ (k - 54) := by
          have : (k - 53 : Int) = (k - 54) + 1 := by omega
          rw [this, two_zpow_add]
          norm_num
          ring


theorem roundDouble_hundred : roundDouble 100 = 100 := by
  have hu : ulpExponent 100 = -46 := by
    rw [ulpExponent_eq (e := 6) (by norm_num) (by norm_num)]
    norm_num
  exact roundDouble_of_multiple 100 100 0 (by norm_num) (by rw [hu]; norm_num)

theorem roundDouble_fiftieth :
    roundDouble (1 / 50) = (5764607523034235 : ℚ) * (2 : ℚ) ^ (-58 : Int) := by
  have h := roundDouble_eval (1 / 50) (-6) 5764607523034235 (by norm_num)
    (by norm_num [abs_of_pos]) (by norm_num [abs_of_pos]) (by norm_num) (by norm_num)
  norm_num at h ⊢
  exact h

theorem roundDouble_one : roundDouble 1 = 1 := by
  have hu : ulpExponent 1 = -52 := by
    rw [ulpExponent_eq (e := 0) (by norm_num) (by norm_num)]
    norm_num
  exact roundDouble_of_multiple 1 1 0 (by norm_num) (by rw [hu]; norm_num)

/-- A multiple of `2 ^ j` in the binade of `2 ^ e` is a double when `j` is not below the
exponent of the spacing of that binade. -/
theorem roundDouble_dyadic (x : ℚ) (k j e : Int) (hx : x = (k : ℚ) * (2 : ℚ) ^ j)
    (h1 : (2 : ℚ) ^ e ≤ |x|) (h2 : |x| < (2 : ℚ) ^ (e + 1))
    (hj : max e (-1022) - 52 ≤ j) : roundDouble x = x :=
  roundDouble_of_multiple x k j hx (by rw [ulpExponent_eq h1 h2]; exact hj)

theorem roundDouble_half : roundDouble (1 / 2) = 1 / 2 :=
  roundDouble_dyadic (1 / 2) 1 (-1) (-1) (by norm_num) (by norm_num [abs_of_pos])
    (by norm_num [abs_of_pos]) (by norm_num)

theorem ulpExponent_ge (x : ℚ) : -1074 ≤ ulpExponent x := by
  unfold ulpExponent
  have := le_max_right (Int.log 2 |x|) (-1022)
  omega

/-- Every double is a multiple of the smallest positive double, `2 ^ (-1074)`. -/
theorem roundDouble_grid (x : ℚ) :
    ∃ m : Int, roundDouble x = (m : ℚ) * (2 : ℚ) ^ (-1074 : Int) := by
  obtain ⟨d, hd⟩ : ∃ d : ℕ, ulpExponent x = -1074 + d :=
    ⟨(ulpExponent x + 1074).toNat, by have := ulpExponent_ge x; omega⟩
  refine ⟨roundHalfEven (x / (2 : ℚ) ^ ulpExponent x) * (2 : Int) ^ d, ?_⟩
  unfold roundDouble
  have h2 : (2 : ℚ) ^ ulpExponent x = (2 : ℚ) ^ (d : Int) * (2 : ℚ) ^ (-1074 : Int) := by
    rw [hd, Int.add_comm, two_zpow_add]
  generalize roundHalfEven (x / (2 : ℚ) ^ ulpExponent x) = K
  rw [h2]
  push_cast
  rw [zpow_natCast, mul_assoc]

/-- A positive multiple of `2 ^ (-1074)` is not rounded to zero. -/
theorem roundDouble_pos_of_grid {x : ℚ} (m : Int)
    (hx : x = (m : ℚ) * (2 : ℚ) ^ (-1074 : Int)) (hpos : 0 < x) : 0 < roundDouble x := by
  by_cases h : (2 : ℚ) ^ (-1022 : Int) ≤ x
  · exact lt_of_lt_of_le (two_zpow_pos _) (roundDouble_ge_zpow (le_refl _) h)
  · have hlt : x < (2 : ℚ) ^ (-1022 : Int) := not_le.mp h
    have hlog : Int.log 2 x < -1022 := by
      rw [← Int.lt_zpow_iff_log_lt (b := 2) (by norm_num) hpos]
      simpa using hlt
    have hu : ulpExponent x ≤ -1074 := by
      unfold ulpExponent
      rw [abs_of_pos hpos, max_eq_right (by omega)]
      norm_num
    rw [roundDouble_of_multiple x m (-1074) hx hu]
    exact hpos

/-- The difference of two doubles, when positive, is computed as a positive double. -/
theorem roundDouble_sub_pos {a y : ℚ} (ha : roundDouble a = a)
    (h : 0 < a - roundDouble y) : 0 < roundDouble (a - roundDouble y) := by
  obtain ⟨m1, h1⟩ := roundDouble_grid a
  obtain ⟨m2, h2⟩ := roundDouble_grid y
  rw [ha] at h1
  have e : a - roundDouble y = ((m1 - m2 : Int) : ℚ) * (2 : ℚ) ^ (-1074 : Int) := by
    rw [h2]
    push_cast
    rw [sub_mul, ← h1]
  exact roundDouble_pos_of_grid (m1 - m2) e h

/-- The product of a double by 16 is a double: the multiplication is exact. -/
theorem roundDouble_mul_sixteen {t : ℚ} (ht : roundDouble t = t) :
    roundDouble (t * 16) = t * 16 := by
  by_cases h0 : t = 0
  · rw [h0, zero_mul, roundDouble_zero]
  · have habs : 0 < |t| := abs_pos.mpr h0
    obtain ⟨hb1, hb2⟩ := log_two_bounds habs
    have h16 : (2 : ℚ) ^ (4 : Int) = 16 := by norm_num
    have hlog : Int.log 2 |t * 16| = Int.log 2 |t| + 4 := by
      apply log_two_eq
      · rw [abs_mul, two_zpow_add, h16, abs_of_pos (by norm_num : (0 : ℚ) < 16)]
        exact mul_le_mul_of_nonneg_right hb1 (by norm_num)
      · have e : Int.log 2 |t| + 4 + 1 = (Int.log 2 |t| + 1) + 4 := by omega
        rw [abs_mul, e, two_zpow_add, h16, abs_of_pos (by norm_num : (0 : ℚ) < 16)]
        exact mul_lt_mul_of_pos_right hb2 (by norm_num)
    have hrep : t = (roundHalfEven (t / (2 : ℚ) ^ ulpExponent t) : ℚ)
        * (2 : ℚ) ^ ulpExponent t := by
      have := ht
      unfold roundDouble at this
      exact this.symm
    have hj : ulpExponent (t * 16) ≤ ulpExponent t + 4 := by
      unfold ulpExponent
      rw [hlog]
      have h1 := le_max_left (Int.log 2 |t|) (-1022)
      have h2 := le_max_right (Int.log 2 |t|) (-1022)
      have h3 : max (Int.log 2 |t| + 4) (-1022) ≤ max (Int.log 2 |t|) (-1022) + 4 :=
        max_le (by omega) (by omega)
      omega
    refine roundDouble_of_multiple (t * 16) (roundHalfEven (t / (2 : ℚ) ^ ulpExponent t))
      (ulpExponent t + 4) ?_ hj
    rw [two_zpow_add, h16, ← mul_assoc, ← hrep]

/-- A double below 1 is at most the largest double below 1. -/
theorem double_lt_one {r : ℚ} (hr : roundDouble r = r) (h1 : r < 1) :
    r ≤ 1 - (2 : ℚ) ^ (-53 : Int) := by
  by_cases hhalf : r < 1 / 2
  · norm_num
    linarith
  · have hge : 1 / 2 ≤ r := not_lt.mp hhalf
    have hpos : 0 < r := by linarith
    have hu : ulpExponent r = -53 := by
      rw [ulpExponent_eq (e := -1) (by rw [abs_of_pos hpos]; norm_num; linarith)
        (by rw [abs_of_pos hpos]; norm_num; exact h1)]
      norm_num
    have hrep : r = (roundHalfEven (r / (2 : ℚ) ^ (-53 : Int)) : ℚ)
        * (2 : ℚ) ^ (-53 : Int) := by
      have := hr
      unfold roundDouble at this
      rw [hu] at this
      exact this.symm
    have hK : (roundHalfEven (r / (2 : ℚ) ^ (-53 : Int)) : ℚ) < ((2 ^ 53 : Int) : ℚ) := by
      have h2 : (roundHalfEven (r / (2 : ℚ) ^ (-53 : Int)) : ℚ) * (2 : ℚ) ^ (-53 : Int) < 1 := by
        rw [← hrep]; exact h1
      norm_num at h2 ⊢
      linarith
    have hK2 : roundHalfEven (r / (2 : ℚ) ^ (-53 : Int)) < 2 ^ 53 := by exact_mod_cast hK
    have hK3 : roundHalfEven (r / (2 : ℚ) ^ (-53 : Int)) ≤ 2 ^ 53 - 1 := by omega
    have hK4 : (roundHalfEven (r / (2 : ℚ) ^ (-53 : Int)) : ℚ) ≤ ((2 ^ 53 - 1 : Int) : ℚ) := by
      exact_mod_cast hK3
    rw [hrep]
    norm_num at hK4 ⊢
    linarith

/-! ## Route playback builder: indices -/

theorem movementStep_indices (g : List Point) (T : Int) (i : Nat) (hT : T - 1 ≠ 0) :
    movementStep g T i =
      if coordIndex g.length T i = nextCoordIndex g.length T i then
        .ok (coordAt g (coordIndex g.length T i))
      else
        match coordAt g (coordIndex g.length T i), coordAt g (nextCoordIndex g.length T i) with
        | some start, some stop =>
          .ok (some (interpolateCoordinates start stop (localProgress g.length T i)))
        | _, _ => .error .typeError := by
  simp only [movementStep, progressAt, if_neg hT, coordIndex, nextCoordIndex, localProgress,
    fractionalIndex, Int.cast_natCast]

theorem fractionalIndex_nonneg (n : Nat) (T : Int) (i : Nat)
    (hn : 2 ≤ n) (hT : (n : Int) ≤ T) : 0 ≤ fractionalIndex n T i := by
  have hTq : (0 : ℚ) < (T : ℚ) - 1 := by
    have : (2 : ℤ) ≤ T := by omega
    have : (2 : ℚ) ≤ (T : ℚ) := by exact_mod_cast this
    linarith
  have hnq : (0 : ℚ) ≤ (n : ℚ) - 1 := by
    have : (2 : ℚ) ≤ (n : ℚ) := by exact_mod_cast hn
    linarith
  unfold fractionalIndex
  positivity

theorem fractionalIndex_le (n : Nat) (T : Int) (i : Nat)
    (hn : 2 ≤ n) (hT : (n : Int) ≤ T) (hi : (i : Int) < T) :
    fractionalIndex n T i ≤ (n : ℚ) - 1 := by
  have hTq : (0 : ℚ) < (T : ℚ) - 1 := by
    have : (2 : ℤ) ≤ T := by omega
    have : (2 : ℚ) ≤ (T : ℚ) := by exact_mod_cast this
    linarith
  have hnq : (0 : ℚ) ≤ (n : ℚ) - 1 := by
    have : (2 : ℚ) ≤ (n : ℚ) := by exact_mod_cast hn
    linarith
  have hiq : (i : ℚ) ≤ (T : ℚ) - 1 := by
    have h1 : (i : ℤ) ≤ T - 1 := by omega
    have h2 : ((i : ℤ) : ℚ) ≤ ((T - 1 : ℤ) : ℚ) := by exact_mod_cast h1
    simpa using h2
  have hp1 : (i : ℚ) / ((T : ℚ) - 1) ≤ 1 := by
    rw [div_le_one hTq]; exact hiq
  unfold fractionalIndex
  calc (i : ℚ) / ((T : ℚ) - 1) * ((n : ℚ) - 1)
      ≤ 1 * ((n : ℚ) - 1) := mul_le_mul_of_nonneg_right hp1 hnq
    _ = (n : ℚ) - 1 := by ring

theorem coordIndex_nonneg (n : Nat) (T : Int) (i : Nat)
    (hn : 2 ≤ n) (hT : (n : Int) ≤ T) : 0 ≤ coordIndex n T i :=
  Int.floor_nonneg.mpr (fractionalIndex_nonneg n T i hn hT)

theorem coordIndex_le (n : Nat) (T : Int) (i : Nat)
    (hn : 2 ≤ n) (hT : (n : Int) ≤ T) (hi : (i : Int) < T) :
    coordIndex n T i ≤ (n : Int) - 1 := by
  have h : ⌊fractionalIndex n T i⌋ ≤ ⌊(((n : ℤ) - 1 : ℤ) : ℚ)⌋ := by
    apply Int.floor_mono
    push_cast
    exact fractionalIndex_le n T i hn hT hi
  simpa [coordIndex] using h

theorem coordAt_isSome (g : List Point) (k : Int) (h0 : 0 ≤ k) (h1 : k ≤ (g.length : Int) - 1) :
    (coordAt g k).isSome = true := by
  obtain ⟨m, rfl⟩ := Int.eq_ofNat_of_zero_le h0
  rw [coordAt_natCast g m (by omega)]
  rfl

/-- C27: for a geometry with `n >= 2` points and any duration, in every pass of the loop
`0 <= coordIndex <= nextCoordIndex <= n - 1` and the interpolation weight lies in `[0, 1)`;
both reads of the geometry find a point, the pass pushes a point, and the Builder
returns. -/
theorem processRouteForMovement_safe (r : RouteData) (hn : 2 ≤ r.coordinates.length) :
    (∀ i : Nat, (i : Int) < totalPoints r →
      0 ≤ coordIndex r.coordinates.length (totalPoints r) i ∧
      coordIndex r.coordinates.length (totalPoints r) i
        ≤ nextCoordIndex r.coordinates.length (totalPoints r) i ∧
      nextCoordIndex r.coordinates.length (totalPoints r) i ≤ (r.coordinates.length : Int) - 1 ∧
      0 ≤ localProgress r.coordinates.length (totalPoints r) i ∧
      localProgress r.coordinates.length (totalPoints r) i < 1 ∧
      (coordAt r.coordinates (coordIndex r.coordinates.length (totalPoints r) i)).isSome ∧
      (coordAt r.coordinates (nextCoordIndex r.coordinates.length (totalPoints r) i)).isSome ∧
      ∃ p, movementStep r.coordinates (totalPoints r) i = .ok (some p)) ∧
    ∃ pts, processRouteForMovement r = .ok pts := by
  have hT : (r.coordinates.length : Int) ≤ totalPoints r := le_max_right _ _
  refine ⟨?_, _, processRouteForMovement_eq_spec r hn⟩
  intro i hi
  have h0 := coordIndex_nonneg r.coordinates.length (totalPoints r) i hn hT
  have h1 := coordIndex_le r.coordinates.length (totalPoints r) i hn hT hi
  have hnext0 : coordIndex r.coordinates.length (totalPoints r) i
      ≤ nextCoordIndex r.coordinates.length (totalPoints r) i := by
    unfold nextCoordIndex; omega
  have hnext1 : nextCoordIndex r.coordinates.length (totalPoints r) i
      ≤ (r.coordinates.length : Int) - 1 := by
    unfold nextCoordIndex; omega
  refine ⟨h0, hnext0, hnext1, ?_, ?_, coordAt_isSome _ _ h0 h1,
    coordAt_isSome _ _ (le_trans h0 hnext0) hnext1,
    _, movementStep_eq_spec r.coordinates (totalPoints r) i hn hT hi⟩
  · unfold localProgress coordIndex
    exact sub_nonneg.mpr (Int.floor_le _)
  · unfold localProgress coordIndex
    have := Int.lt_floor_add_one (fractionalIndex r.coordinates.length (totalPoints r) i)
    linarith

theorem processRouteForMovement_safe_witness :
    (∀ i : Nat, (i : Int) < totalPoints ⟨[(1, 2), (3, 4), (5, 8)], 7⟩ →
      0 ≤ coordIndex 3 (totalPoints ⟨[(1, 2), (3, 4), (5, 8)], 7⟩) i ∧
      coordIndex 3 (totalPoints ⟨[(1, 2), (3, 4), (5, 8)], 7⟩) i
        ≤ nextCoordIndex 3 (totalPoints ⟨[(1, 2), (3, 4), (5, 8)], 7⟩) i ∧
      nextCoordIndex 3 (totalPoints ⟨[(1, 2), (3, 4), (5, 8)], 7⟩) i ≤ ((3 : Nat) : Int) - 1 ∧
      0 ≤ localProgress 3 (totalPoints ⟨[(1, 2), (3, 4), (5, 8)], 7⟩) i ∧
      localProgress 3 (totalPoints ⟨[(1, 2), (3, 4), (5, 8)], 7⟩) i < 1 ∧
      (coordAt [(1, 2), (3, 4), (5, 8)]
        (coordIndex 3 (totalPoints ⟨[(1, 2), (3, 4), (5, 8)], 7⟩) i)).isSome ∧
      (coordAt [(1, 2), (3, 4), (5, 8)]
        (nextCoordIndex 3 (totalPoints ⟨[(1, 2), (3, 4), (5, 8)], 7⟩) i)).isSome ∧
      ∃ p, movementStep [(1, 2), (3, 4), (5, 8)] (totalPoints ⟨[(1, 2), (3, 4), (5, 8)], 7⟩) i
        = .ok (some p)) ∧
    ∃ pts, processRouteForMovement ⟨[(1, 2), (3, 4), (5, 8)], 7⟩ = .ok pts :=
  processRouteForMovement_safe ⟨[(1, 2), (3, 4), (5, 8)], 7⟩ (by simp)

theorem fractionalIndex_succ (n : Nat) (T : Int) (i : Nat) :
    fractionalIndex n T (i + 1)
      = fractionalIndex n T i + ((n : ℚ) - 1) / ((T : ℚ) - 1) := by
  unfold fractionalIndex
  push_cast
  ring

theorem fractionalIndex_step_le_one (n : Nat) (T : Int)
    (hn : 2 ≤ n) (hT : (n : Int) ≤ T) :
    0 ≤ ((n : ℚ) - 1) / ((T : ℚ) - 1) ∧ ((n : ℚ) - 1) / ((T : ℚ) - 1) ≤ 1 := by
  have hTq : (0 : ℚ) < (T : ℚ) - 1 := by
    have : (2 : ℤ) ≤ T := by omega
    have : (2 : ℚ) ≤ (T : ℚ) := by exact_mod_cast this
    linarith
  have hnq : (0 : ℚ) ≤ (n : ℚ) - 1 := by
    have : (2 : ℚ) ≤ (n : ℚ) := by exact_mod_cast hn
    linarith
  have hnT : (n : ℚ) ≤ (T : ℚ) := by
    have : ((n : ℤ) : ℚ) ≤ (T : ℚ) := by exact_mod_cast hT
    simpa using this
  refine ⟨div_nonneg hnq hTq.le, ?_⟩
  rw [div_le_one hTq]
  linarith

theorem coordIndex_succ (n : Nat) (T : Int) (i : Nat)
    (hn : 2 ≤ n) (hT : (n : Int) ≤ T) :
    coordIndex n T i ≤ coordIndex n T (i + 1) ∧
      coordIndex n T (i + 1) ≤ coordIndex n T i + 1 := by
  obtain ⟨hd0, hd1⟩ := fractionalIndex_step_le_one n T hn hT
  unfold coordIndex
  rw [fractionalIndex_succ]
  constructor
  · apply Int.floor_mono
    linarith
  · have h : ⌊fractionalIndex n T i + ((n : ℚ) - 1) / ((T : ℚ) - 1)⌋
        ≤ ⌊fractionalIndex n T i + 1⌋ := by
      apply Int.floor_mono
      linarith
    rw [Int.floor_add_one] at h
    exact h

theorem fractionalIndexDouble_mono (n : Nat) (T : Int) (i j : Nat)
    (hn : 2 ≤ n) (hT : (n : Int) ≤ T) (hij : i ≤ j) :
    fractionalIndexDouble n T i ≤ fractionalIndexDouble n T j := by
  have hTq : (0 : ℚ) < (T : ℚ) - 1 := by
    have : (2 : ℤ) ≤ T := by omega
    have : (2 : ℚ) ≤ (T : ℚ) := by exact_mod_cast this
    linarith
  have hnq : (0 : ℚ) ≤ (n : ℚ) - 1 := by
    have : (2 : ℚ) ≤ (n : ℚ) := by exact_mod_cast hn
    linarith
  have hi0 : (0 : ℚ) ≤ (i : ℚ) / ((T : ℚ) - 1) := div_nonneg (Nat.cast_nonneg i) hTq.le
  have hx : (i : ℚ) / ((T : ℚ) - 1) ≤ (j : ℚ) / ((T : ℚ) - 1) :=
    div_le_div_of_nonneg_right (by exact_mod_cast hij) hTq.le
  have hp := roundDouble_mono hi0 hx
  unfold fractionalIndexDouble
  exact roundDouble_mono (mul_nonneg (roundDouble_nonneg hi0) hnq)
    (mul_le_mul_of_nonneg_right hp hnq)

/-- The fractional index computed on doubles lies within `2 ^ (-20)` of the exact one, for
routes of at most `2 ^ 32` movement points. -/
theorem fractionalIndexDouble_error (n : Nat) (T : Int) (i : Nat)
    (hn : 2 ≤ n) (hT : (n : Int) ≤ T) (hT2 : T ≤ 2 ^ 32) (hi : (i : Int) < T) :
    |fractionalIndexDouble n T i - fractionalIndex n T i| ≤ (2 : ℚ) ^ (-20 : Int) := by
  have hTq : (0 : ℚ) < (T : ℚ) - 1 := by
    have : (2 : ℤ) ≤ T := by omega
    have : (2 : ℚ) ≤ (T : ℚ) := by exact_mod_cast this
    linarith
  have hnq : (0 : ℚ) ≤ (n : ℚ) - 1 := by
    have : (2 : ℚ) ≤ (n : ℚ) := by exact_mod_cast hn
    linarith
  have hn32 : (n : ℚ) - 1 < (2 : ℚ) ^ (32 : Int) := by
    have h1 : (n : Int) ≤ 2 ^ 32 := le_trans hT hT2
    have h2 : (n : ℚ) ≤ 4294967296 := by exact_mod_cast h1
    norm_num
    linarith
  have hiq : (i : ℚ) ≤ (T : ℚ) - 1 := by
    have h1 : (i : ℤ) ≤ T - 1 := by omega
    have h2 : ((i : ℤ) : ℚ) ≤ ((T - 1 : ℤ) : ℚ) := by exact_mod_cast h1
    simpa using h2
  have hx0 : (0 : ℚ) ≤ (i : ℚ) / ((T : ℚ) - 1) := div_nonneg (Nat.cast_nonneg i) hTq.le
  have hx1 : (i : ℚ) / ((T : ℚ) - 1) ≤ 1 := by
    rw [div_le_one hTq]; exact hiq
  have hp0 := roundDouble_nonneg hx0
  have hp1 : roundDouble ((i : ℚ) / ((T : ℚ) - 1)) ≤ 1 := by
    have := roundDouble_mono hx0 hx1
    rwa [roundDouble_one] at this
  have he1 : |roundDouble ((i : ℚ) / ((T : ℚ) - 1)) - (i : ℚ) / ((T : ℚ) - 1)|
      ≤ (2 : ℚ) ^ (-53 : Int) := by
    have := roundDouble_error (k := 1) hx0 (by norm_num)
      (lt_of_le_of_lt hx1 (by norm_num))
    norm_num at this ⊢
    exact this
  have hy0 : (0 : ℚ) ≤ roundDouble ((i : ℚ) / ((T : ℚ) - 1)) * ((n : ℚ) - 1) :=
    mul_nonneg hp0 hnq
  have hy1 : roundDouble ((i : ℚ) / ((T : ℚ) - 1)) * ((n : ℚ) - 1) < (2 : ℚ) ^ (32 : Int) := by
    calc roundDouble ((i : ℚ) / ((T : ℚ) - 1)) * ((n : ℚ) - 1)
        ≤ 1 * ((n : ℚ) - 1) := mul_le_mul_of_nonneg_right hp1 hnq
      _ = (n : ℚ) - 1 := one_mul _
      _ < (2 : ℚ) ^ (32 : Int) := hn32
  have he2 := roundDouble_error (k := 32) hy0 (by norm_num) hy1
  have he3 : |roundDouble ((i : ℚ) / ((T : ℚ) - 1)) * ((n : ℚ) - 1)
      - (i : ℚ) / ((T : ℚ) - 1) * ((n : ℚ) - 1)| ≤ (2 : ℚ) ^ (-53 : Int) * (2 : ℚ) ^ (32 : Int) := by
    rw [← sub_mul, abs_mul, abs_of_nonneg hnq]
    exact mul_le_mul he1 hn32.le hnq (two_zpow_pos _).le
  unfold fractionalIndexDouble fractionalIndex
  rw [abs_le] at he2 he3 ⊢
  norm_num at he2 he3 ⊢
  constructor <;> linarith

theorem coordIndexDouble_15 : coordIndexDouble 23 23 15 = 14 := by
  have h1 : roundDouble ((15 : ℚ) / 22) = (6141272219141585 : ℚ) * (2 : ℚ) ^ (-53 : Int) := by
    have h := roundDouble_eval (15 / 22) (-1) 6141272219141585 (by norm_num)
      (by norm_num [abs_of_pos]) (by norm_num [abs_of_pos]) (by norm_num) (by norm_num)
    norm_num at h ⊢
    exact h
  have h2 : roundDouble ((6141272219141585 : ℚ) * (2 : ℚ) ^ (-53 : Int) * 22)
      = (8444249301319679 : ℚ) * (2 : ℚ) ^ (-49 : Int) := by
    have h := roundDouble_eval ((6141272219141585 : ℚ) * (2 : ℚ) ^ (-53 : Int) * 22) 3
      8444249301319679 (by norm_num)
      (by norm_num [abs_of_pos]) (by norm_num [abs_of_pos]) (by norm_num) (by norm_num)
    norm_num at h ⊢
    exact h
  unfold coordIndexDouble fractionalIndexDouble
  have e1 : (((15 : Nat) : ℚ) / (((23 : Int) : ℚ) - 1)) = (15 : ℚ) / 22 := by norm_num
  have e2 : (((23 : Nat) : ℚ) - 1) = 22 := by norm_num
  rw [e1, e2, h1, h2]
  rw [Int.floor_eq_iff]
  norm_num

theorem coordIndexDouble_14 : coordIndexDouble 23 23 14 = 14 := by
  have h1 : roundDouble ((14 : ℚ) / 22) = (5731854071198813 : ℚ) * (2 : ℚ) ^ (-53 : Int) := by
    have h := roundDouble_eval (14 / 22) (-1) 5731854071198813 (by norm_num)
      (by norm_num [abs_of_pos]) (by norm_num [abs_of_pos]) (by norm_num) (by norm_num)
    norm_num at h ⊢
    exact h
  have h2 : roundDouble ((5731854071198813 : ℚ) * (2 : ℚ) ^ (-53 : Int) * 22)
      = (7881299347898368 : ℚ) * (2 : ℚ) ^ (-49 : Int) := by
    have h := roundDouble_eval ((5731854071198813 : ℚ) * (2 : ℚ) ^ (-53 : Int) * 22) 3
      7881299347898368 (by norm_num)
      (by norm_num [abs_of_pos]) (by norm_num [abs_of_pos]) (by norm_num) (by norm_num)
    norm_num at h ⊢
    exact h
  unfold coordIndexDouble fractionalIndexDouble
  have e1 : (((14 : Nat) : ℚ) / (((23 : Int) : ℚ) - 1)) = (14 : ℚ) / 22 := by norm_num
  have e2 : (((23 : Nat) : ℚ) - 1) = 22 := by norm_num
  rw [e1, e2, h1, h2]
  rw [Int.floor_eq_iff]
  norm_num

theorem coordIndexDouble_16 : coordIndexDouble 23 23 16 = 16 := by
  have h1 : roundDouble ((16 : ℚ) / 22) = (6550690367084358 : ℚ) * (2 : ℚ) ^ (-53 : Int) := by
    have h := roundDouble_eval (16 / 22) (-1) 6550690367084358 (by norm_num)
      (by norm_num [abs_of_pos]) (by norm_num [abs_of_pos]) (by norm_num) (by norm_num)
    norm_num at h ⊢
    exact h
  have h2 : roundDouble ((6550690367084358 : ℚ) * (2 : ℚ) ^ (-53 : Int) * 22)
      = (4503599627370496 : ℚ) * (2 : ℚ) ^ (-48 : Int) := by
    have h := roundDouble_eval ((6550690367084358 : ℚ) * (2 : ℚ) ^ (-53 : Int) * 22) 4
      4503599627370496 (by norm_num)
      (by norm_num [abs_of_pos]) (by norm_num [abs_of_pos]) (by norm_num) (by norm_num)
    norm_num at h ⊢
    exact h
  unfold coordIndexDouble fractionalIndexDouble
  have e1 : (((16 : Nat) : ℚ) / (((23 : Int) : ℚ) - 1)) = (16 : ℚ) / 22 := by norm_num
  have e2 : (((23 : Nat) : ℚ) - 1) = 22 := by norm_num
  rw [e1, e2, h1, h2]
  rw [Int.floor_eq_iff]
  norm_num

theorem totalPoints_sampleLongRoute :
    sampleLongRoute.coordinates.length = 23 ∧ totalPoints sampleLongRoute = 23 := by
  have h : sampleLongRoute.coordinates.length = 23 := rfl
  refine ⟨h, ?_⟩
  unfold totalPoints
  rw [h]
  simp only [sampleLongRoute, Int.ceil_zero]
  rfl

/-- C28, as the claim states it, fails for the index the code computes: for a geometry of
23 points and a duration of at most 23 s, the product `(15 / 22) * 22` is computed as
`14.999999999999998`, so `coordIndex` is 14 in the passes 14 and 15 and 16 in the pass 16,
a step of 2. -/
theorem coordIndexDouble_step_counterexample :
    2 ≤ sampleLongRoute.coordinates.length ∧
      coordIndexDouble sampleLongRoute.coordinates.length (totalPoints sampleLongRoute) 14
        = 14 ∧
      coordIndexDouble sampleLongRoute.coordinates.length (totalPoints sampleLongRoute) 15
        = 14 ∧
      coordIndexDouble sampleLongRoute.coordinates.length (totalPoints sampleLongRoute) 16
        = 16 ∧
      ¬ (coordIndexDouble sampleLongRoute.coordinates.length (totalPoints sampleLongRoute)
            (15 + 1)
          ≤ coordIndexDouble sampleLongRoute.coordinates.length (totalPoints sampleLongRoute) 15
            + 1) := by
  rw [totalPoints_sampleLongRoute.1, totalPoints_sampleLongRoute.2]
  refine ⟨by norm_num, coordIndexDouble_14, coordIndexDouble_15, coordIndexDouble_16, ?_⟩
  rw [coordIndexDouble_15, show (15 + 1 : Nat) = 16 from rfl, coordIndexDouble_16]
  norm_num

/-- C28, amended: for a geometry with `n >= 2` points and at most `2 ^ 32` movement points,
the segment index that the code computes on doubles is non-decreasing in `i` and grows by
at most 2 from one movement point to the next; its fractional index lies within
`2 ^ (-20)` of `i * (n - 1) / (T - 1)`, whose floor, the index over exact arithmetic, is
non-decreasing and grows by at most 1. -/
theorem coordIndexDouble_monotone (r : RouteData) (hn : 2 ≤ r.coordinates.length)
    (hT : totalPoints r ≤ 2 ^ 32) :
    (∀ i j : Nat, i ≤ j →
      coordIndexDouble r.coordinates.length (totalPoints r) i
        ≤ coordIndexDouble r.coordinates.length (totalPoints r) j) ∧
    (∀ i : Nat, (i : Int) + 1 < totalPoints r →
      coordIndexDouble r.coordinates.length (totalPoints r) (i + 1)
        ≤ coordIndexDouble r.coordinates.length (totalPoints r) i + 2) ∧
    (∀ i : Nat, (i : Int) < totalPoints r →
      |fractionalIndexDouble r.coordinates.length (totalPoints r) i
        - ((i : ℚ) * ((r.coordinates.length : ℚ) - 1)) / ((totalPoints r : ℚ) - 1)|
        ≤ (2 : ℚ) ^ (-20 : Int)) ∧
    (∀ i : Nat,
      coordIndex r.coordinates.length (totalPoints r) i
        = ⌊((i : ℚ) * ((r.coordinates.length : ℚ) - 1)) / ((totalPoints r : ℚ) - 1)⌋ ∧
      coordIndex r.coordinates.length (totalPoints r) i
        ≤ coordIndex r.coordinates.length (totalPoints r) (i + 1) ∧
      coordIndex r.coordinates.length (totalPoints r) (i + 1)
        ≤ coordIndex r.coordinates.length (totalPoints r) i + 1) := by
  have hnT : (r.coordinates.length : Int) ≤ totalPoints r := le_max_right _ _
  have hfr : ∀ i : Nat, fractionalIndex r.coordinates.length (totalPoints r) i
      = ((i : ℚ) * ((r.coordinates.length : ℚ) - 1)) / ((totalPoints r : ℚ) - 1) := by
    intro i
    unfold fractionalIndex
    rw [div_mul_eq_mul_div]
  refine ⟨?_, ?_, ?_, ?_⟩
  · intro i j hij
    exact Int.floor_mono (fractionalIndexDouble_mono _ _ i j hn hnT hij)
  · intro i hi
    have e1 := fractionalIndexDouble_error r.coordinates.length (totalPoints r) i hn hnT hT
      (by omega)
    have e2 := fractionalIndexDouble_error r.coordinates.length (totalPoints r) (i + 1) hn hnT
      hT (by push_cast; omega)
    have hs := fractionalIndex_succ r.coordinates.length (totalPoints r) i
    obtain ⟨_, hd1⟩ := fractionalIndex_step_le_one r.coordinates.length (totalPoints r) hn hnT
    rw [abs_le] at e1 e2
    norm_num at e1 e2
    have hlt : fractionalIndexDouble r.coordinates.length (totalPoints r) (i + 1)
        < fractionalIndexDouble r.coordinates.length (totalPoints r) i + 2 := by
      linarith
    unfold coordIndexDouble
    have h1 := Int.floor_le (fractionalIndexDouble r.coordinates.length (totalPoints r) (i + 1))
    have h2 := Int.lt_floor_add_one
      (fractionalIndexDouble r.coordinates.length (totalPoints r) i)
    have h3 : ((⌊fractionalIndexDouble r.coordinates.length (totalPoints r) (i + 1)⌋ : Int) : ℚ)
        < ((⌊fractionalIndexDouble r.coordinates.length (totalPoints r) i⌋ + 3 : Int) : ℚ) := by
      push_cast
      linarith
    have h4 : ⌊fractionalIndexDouble r.coordinates.length (totalPoints r) (i + 1)⌋
        < ⌊fractionalIndexDouble r.coordinates.length (totalPoints r) i⌋ + 3 := by
      exact_mod_cast h3
    omega
  · intro i hi
    rw [← hfr i]
    exact fractionalIndexDouble_error _ _ i hn hnT hT hi
  · intro i
    refine ⟨?_, coordIndex_succ _ _ i hn hnT⟩
    unfold coordIndex
    rw [hfr i]

theorem coordIndexDouble_monotone_witness :
    (∀ i j : Nat, i ≤ j →
      coordIndexDouble 3 (totalPoints ⟨[(1, 2), (3, 4), (5, 8)], 7⟩) i
        ≤ coordIndexDouble 3 (totalPoints ⟨[(1, 2), (3, 4), (5, 8)], 7⟩) j) ∧
    (∀ i : Nat, (i : Int) + 1 < totalPoints ⟨[(1, 2), (3, 4), (5, 8)], 7⟩ →
      coordIndexDouble 3 (totalPoints ⟨[(1, 2), (3, 4), (5, 8)], 7⟩) (i + 1)
        ≤ coordIndexDouble 3 (totalPoints ⟨[(1, 2), (3, 4), (5, 8)], 7⟩) i + 2) ∧
    (∀ i : Nat, (i : Int) < totalPoints ⟨[(1, 2), (3, 4), (5, 8)], 7⟩ →
      |fractionalIndexDouble 3 (totalPoints ⟨[(1, 2), (3, 4), (5, 8)], 7⟩) i
        - ((i : ℚ) * (((3 : Nat) : ℚ) - 1))
            / ((totalPoints ⟨[(1, 2), (3, 4), (5, 8)], 7⟩ : ℚ) - 1)|
        ≤ (2 : ℚ) ^ (-20 : Int)) ∧
    (∀ i : Nat,
      coordIndex 3 (totalPoints ⟨[(1, 2), (3, 4), (5, 8)], 7⟩) i
        = ⌊((i : ℚ) * (((3 : Nat) : ℚ) - 1))
            / ((totalPoints ⟨[(1, 2), (3, 4), (5, 8)], 7⟩ : ℚ) - 1)⌋ ∧
      coordIndex 3 (totalPoints ⟨[(1, 2), (3, 4), (5, 8)], 7⟩) i
        ≤ coordIndex 3 (totalPoints ⟨[(1, 2), (3, 4), (5, 8)], 7⟩) (i + 1) ∧
      coordIndex 3 (totalPoints ⟨[(1, 2), (3, 4), (5, 8)], 7⟩) (i + 1)
        ≤ coordIndex 3 (totalPoints ⟨[(1, 2), (3, 4), (5, 8)], 7⟩) i + 1) :=
  coordIndexDouble_monotone ⟨[(1, 2), (3, 4), (5, 8)], 7⟩ (by simp) (by
    show max ⌈(7 : ℚ)⌉ ((3 : Nat) : Int) ≤ 2 ^ 32
    norm_num)

theorem specMovementPoint_vertex (g : List Point) (i : Nat)
    (hn : 2 ≤ g.length) (hi : i < g.length) :
    specMovementPoint g (g.length : Int) i = g.get ⟨i, hi⟩ := by
  have hnq : ((g.length : ℚ) - 1) ≠ 0 := by
    have : (2 : ℚ) ≤ (g.length : ℚ) := by exact_mod_cast hn
    intro h; linarith
  have hf : (i : ℚ) / (((g.length : Int) : ℚ) - 1) * ((g.length : ℚ) - 1) = ((i : Int) : ℚ) := by
    push_cast
    field_simp
  simp only [specMovementPoint, hf, Int.floor_intCast]
  by_cases hlast : (i : Int) = (g.length : Int) - 1
  · have hi2 : i = g.length - 1 := by omega
    rw [if_pos hlast]
    subst hi2
    simp [List.getD_eq_getElem?_getD, List.getElem?_eq_getElem hi]
  · have hi1 : i + 1 < g.length := by omega
    rw [if_neg hlast]
    simp [specLerp, List.getD_eq_getElem?_getD, List.getElem?_eq_getElem hi,
      List.getElem?_eq_getElem hi1]

/-- C29: for a geometry with `n >= 2` points and a duration with `ceil(duration) <= n` the
Builder returns exactly the points of the geometry, in order (exact arithmetic). -/
theorem processRouteForMovement_no_resampling (r : RouteData)
    (hn : 2 ≤ r.coordinates.length) (hd : ⌈r.duration⌉ ≤ (r.coordinates.length : Int)) :
    processRouteForMovement r = .ok (r.coordinates.map some) := by
  have hT : totalPoints r = (r.coordinates.length : Int) := max_eq_right hd
  rw [processRouteForMovement_eq_spec r hn, hT, Int.toNat_ofNat]
  congr 1
  apply List.ext_getElem?
  intro i
  by_cases hi : i < r.coordinates.length
  · simp [List.getElem?_map, List.getElem?_range hi, List.getElem?_eq_getElem hi,
      specMovementPoint_vertex r.coordinates i hn hi]
  · have hi2 : r.coordinates.length ≤ i := by omega
    simp [List.getElem?_eq_none, hi2]

theorem processRouteForMovement_no_resampling_witness :
    processRouteForMovement ⟨[(1, 2), (3, 4), (5, 8)], 5 / 2⟩
      = .ok ([(1, 2), (3, 4), (5, 8)].map some) :=
  processRouteForMovement_no_resampling ⟨[(1, 2), (3, 4), (5, 8)], 5 / 2⟩ (by simp) (by
    show ⌈(5 / 2 : ℚ)⌉ ≤ 3
    rw [Int.ceil_le]; norm_num)

/-! ## Telemetry simulator: results -/

theorem toFixed2_hundredths (m : Int) : toFixed2 ((m : ℚ) / 100) = (m : ℚ) / 100 := by
  unfold toFixed2
  by_cases h : (m : ℚ) / 100 < 0
  · rw [if_pos h]
    have h1 : -((m : ℚ) / 100) * 100 + 1 / 2 = ((-m : Int) : ℚ) + 1 / 2 := by
      push_cast; ring
    have h2 : ⌊((-m : Int) : ℚ) + 1 / 2⌋ = -m := by
      rw [Int.floor_int_add]
      norm_num
    rw [h1, h2]
    push_cast
    ring
  · rw [if_neg h]
    have h1 : (m : ℚ) / 100 * 100 + 1 / 2 = (m : ℚ) + 1 / 2 := by ring
    have h2 : ⌊(m : ℚ) + 1 / 2⌋ = m := by
      rw [Int.floor_int_add]
      norm_num
    rw [h1, h2]

theorem toFixed2_is_hundredths (x : ℚ) : ∃ m : Int, toFixed2 x = (m : ℚ) / 100 := by
  unfold toFixed2
  by_cases h : x < 0
  · rw [if_pos h]
    exact ⟨-⌊-x * 100 + 1 / 2⌋, by push_cast; ring⟩
  · rw [if_neg h]
    exact ⟨⌊x * 100 + 1 / 2⌋, rfl⟩

theorem toFixed2_zero : toFixed2 0 = 0 := by
  have := toFixed2_hundredths 0
  simpa using this

theorem toFixed2_hundred : toFixed2 100 = 100 := by
  have := toFixed2_hundredths 10000
  norm_num at this
  exact this

theorem toFixed2_nonneg (x : ℚ) (hx : 0 ≤ x) : 0 ≤ toFixed2 x := by
  unfold toFixed2
  rw [if_neg (not_lt.mpr hx)]
  have h : (0 : Int) ≤ ⌊x * 100 + 1 / 2⌋ := Int.floor_nonneg.mpr (by linarith)
  have h2 : (0 : ℚ) ≤ ((⌊x * 100 + 1 / 2⌋ : Int) : ℚ) := by exact_mod_cast h
  positivity

theorem toFixed2_le_hundred (x : ℚ) (hx0 : 0 ≤ x) (hx : x ≤ 100) : toFixed2 x ≤ 100 := by
  unfold toFixed2
  rw [if_neg (not_lt.mpr hx0)]
  have h : ⌊x * 100 + 1 / 2⌋ ≤ (10000 : Int) := by
    have h1 : ⌊x * 100 + 1 / 2⌋ ≤ ⌊((10000 : Int) : ℚ) + 1 / 2⌋ := by
      apply Int.floor_mono
      push_cast
      linarith
    rw [Int.floor_int_add] at h1
    norm_num at h1
    exact h1
  have h2 : ((⌊x * 100 + 1 / 2⌋ : Int) : ℚ) ≤ 10000 := by exact_mod_cast h
  linarith

theorem telemetryTick_all_ok (vs : List (Vehicle × Draw))
    (hok : ∀ p ∈ vs, p.2.saveOk = true ∧ p.2.publishOk = true) :
    telemetryTick vs =
      (vs.map (fun p => simulateVehicle p.1 p.2),
       vs.map (fun p => (topicOf p.1, simulateVehicle p.1 p.2))) := by
  induction vs with
  | nil => rfl
  | cons p rest ih =>
    obtain ⟨v, d⟩ := p
    have hp := hok (v, d) (List.mem_cons_self _ _)
    have ih2 := ih (fun q hq => hok q (List.mem_cons_of_mem _ hq))
    have h1 : d.saveOk = true := hp.1
    have h2 : d.publishOk = true := hp.2
    simp only [telemetryTick, h1, h2, if_true, ih2, List.map_cons]

theorem telemetryTick_stored (vs : List (Vehicle × Draw))
    (hok : ∀ p ∈ vs, p.2.saveOk = true ∧ p.2.publishOk = true)
    (i : Nat) (v : Vehicle) (d : Draw) (hi : vs[i]? = some (v, d)) :
    (telemetryTick vs).1[i]? = some (simulateVehicle v d) := by
  rw [telemetryTick_all_ok vs hok]
  simp [List.getElem?_map, hi]

theorem toFixed2_eq_hundred {x : ℚ} (h : toFixed2 x = 100) : 9999 / 100 + 1 / 200 ≤ x := by
  unfold toFixed2 at h
  by_cases hx : x < 0
  · rw [if_pos hx] at h
    have h0 : (0 : Int) ≤ ⌊-x * 100 + 1 / 2⌋ := Int.floor_nonneg.mpr (by linarith)
    have h1 : (0 : ℚ) ≤ ((⌊-x * 100 + 1 / 2⌋ : Int) : ℚ) := by exact_mod_cast h0
    linarith
  · rw [if_neg hx] at h
    have h1 : ((⌊x * 100 + 1 / 2⌋ : Int) : ℚ) = 10000 := by linarith
    have h2 := Int.floor_le (x * 100 + 1 / 2)
    rw [h1] at h2
    linarith

theorem toFixed2_eq_zero {x : ℚ} (h : toFixed2 x = 0) (hpos : 0 < x) : x < 1 / 200 := by
  unfold toFixed2 at h
  rw [if_neg (not_lt.mpr hpos.le)] at h
  have h1 : ((⌊x * 100 + 1 / 2⌋ : Int) : ℚ) = 0 := by linarith
  have h2 := Int.lt_floor_add_one (x * 100 + 1 / 2)
  rw [h1] at h2
  linarith

theorem chargingSoc_eq (v : Vehicle) (d : Draw)
    (hdbl : roundDouble d.socRandom = d.socRandom) :
    chargingSoc v d = roundDouble (v.batterySOC_percent + d.socRandom) := by
  unfold chargingSoc
  rw [mul_one, hdbl]

theorem chargingSoc_nonneg (v : Vehicle) (d : Draw) (hv : 0 ≤ v.batterySOC_percent)
    (hr : 0 ≤ d.socRandom) : 0 ≤ chargingSoc v d := by
  unfold chargingSoc
  have h1 : 0 ≤ roundDouble (d.socRandom * 1) := roundDouble_nonneg (by linarith)
  exact roundDouble_nonneg (by linarith)

theorem chargingSoc_ge_hundred (v : Vehicle) (d : Draw) (hv : 100 ≤ v.batterySOC_percent)
    (hr : 0 ≤ d.socRandom) : 100 ≤ chargingSoc v d := by
  unfold chargingSoc
  have h1 : 0 ≤ roundDouble (d.socRandom * 1) := roundDouble_nonneg (by linarith)
  have h2 := roundDouble_mono (x := 100)
    (y := v.batterySOC_percent + roundDouble (d.socRandom * 1)) (by norm_num) (by linarith)
  rwa [roundDouble_hundred] at h2

theorem roundDouble_fiftieth_pos : 0 < roundDouble (1 / 50) := by
  rw [roundDouble_fiftieth]
  norm_num

theorem dischargingStep_nonneg (d : Draw) (hr : 0 ≤ d.socRandom) : 0 ≤ dischargingStep d :=
  roundDouble_nonneg (mul_nonneg hr roundDouble_fiftieth_pos.le)

/-- The decrement computed for a draw below 1 is at most the second double below the
double `0.02`, a value below 1/50. -/
theorem dischargingStep_lt (d : Draw) (h0 : 0 ≤ d.socRandom) (h1 : d.socRandom < 1)
    (hdbl : roundDouble d.socRandom = d.socRandom) : dischargingStep d < 1 / 50 := by
  have hr := double_lt_one hdbl h1
  have hmono := roundDouble_mono (mul_nonneg h0 roundDouble_fiftieth_pos.le)
    (mul_le_mul_of_nonneg_right hr roundDouble_fiftieth_pos.le)
  have heval : roundDouble ((1 - (2 : ℚ) ^ (-53 : Int)) * roundDouble (1 / 50))
      = (5764607523034234 : ℚ) * (2 : ℚ) ^ (-58 : Int) := by
    rw [roundDouble_fiftieth]
    have h := roundDouble_eval
      ((1 - (2 : ℚ) ^ (-53 : Int)) * ((5764607523034235 : ℚ) * (2 : ℚ) ^ (-58 : Int)))
      (-6) 5764607523034234 (by norm_num)
      (by norm_num [abs_of_pos]) (by norm_num [abs_of_pos]) (by norm_num) (by norm_num)
    norm_num at h ⊢
    exact h
  rw [heval] at hmono
  unfold dischargingStep
  calc roundDouble (d.socRandom * roundDouble (1 / 50))
      ≤ (5764607523034234 : ℚ) * (2 : ℚ) ^ (-58 : Int) := hmono
    _ < 1 / 50 := by norm_num

theorem dischargingSoc_nonpos (v : Vehicle) (d : Draw)
    (h : v.batterySOC_percent - dischargingStep d ≤ 0) : dischargingSoc v d ≤ 0 :=
  roundDouble_nonpos h

/-- C22: for a charging vehicle with SOC `s` and increment `r` drawn in `[0, 1)`, both
doubles, a telemetry tick (its saves and publishes going through) stores `SOC = 100` and
`chargingStatus = idle` when the sum `s + r`, as the code computes it, is at least 100,
and otherwise that sum rounded to 2 decimals with `chargingStatus = charging`.  The
computed sum is the double nearest to the exact one: it is at least 100 whenever the exact
sum is, below 100 whenever the exact sum is at most `100 - 2 ^ (-46)`, the largest double
below 100, and for `s` in `[0, 100]` within `2 ^ (-47)` of the exact sum. -/
theorem telemetry_charging (vs : List (Vehicle × Draw))
    (hok : ∀ p ∈ vs, p.2.saveOk = true ∧ p.2.publishOk = true)
    (i : Nat) (v : Vehicle) (d : Draw) (hi : vs[i]? = some (v, d))
    (hst : v.chargingStatus = .charging) (hr : 0 ≤ d.socRandom ∧ d.socRandom < 1)
    (hdbl : roundDouble d.socRandom = d.socRandom) :
    ∃ w, (telemetryTick vs).1[i]? = some w ∧
      (100 ≤ roundDouble (v.batterySOC_percent + d.socRandom) →
        w.batterySOC_percent = 100 ∧ w.chargingStatus = .idle) ∧
      (roundDouble (v.batterySOC_percent + d.socRandom) < 100 →
        w.batterySOC_percent = toFixed2 (roundDouble (v.batterySOC_percent + d.socRandom)) ∧
        w.chargingStatus = .charging) ∧
      (100 ≤ v.batterySOC_percent + d.socRandom →
        100 ≤ roundDouble (v.batterySOC_percent + d.socRandom)) ∧
      (0 ≤ v.batterySOC_percent →
        v.batterySOC_percent + d.socRandom ≤ 100 - (2 : ℚ) ^ (-46 : Int) →
        roundDouble (v.batterySOC_percent + d.socRandom) < 100) ∧
      (0 ≤ v.batterySOC_percent → v.batterySOC_percent ≤ 100 →
        |roundDouble (v.batterySOC_percent + d.socRandom)
            - (v.batterySOC_percent + d.socRandom)| ≤ (2 : ℚ) ^ (-47 : Int)) := by
  have hc := chargingSoc_eq v d hdbl
  refine ⟨_, telemetryTick_stored vs hok i v d hi, ?_, ?_, ?_, ?_, ?_⟩
  · intro h
    have h2 : chargingSoc v d ≥ 100 := by rw [hc]; exact h
    simp only [simulateVehicle, hst, if_pos h2, toFixed2_hundred, and_self]
  · intro h
    have h2 : ¬ chargingSoc v d ≥ 100 := by rw [hc]; exact not_le.mpr h
    constructor
    · simp only [simulateVehicle, hst, if_neg h2]
      rw [hc]
    · simp only [simulateVehicle, hst, if_neg h2]
  · intro h
    have h2 := roundDouble_mono (x := 100) (by norm_num) h
    rwa [roundDouble_hundred] at h2
  · intro hv h
    have h2 := roundDouble_mono (by linarith [hr.1]) h
    have h3 : roundDouble (100 - (2 : ℚ) ^ (-46 : Int)) = 100 - (2 : ℚ) ^ (-46 : Int) :=
      roundDouble_dyadic (100 - (2 : ℚ) ^ (-46 : Int)) 7036874417766399 (-46) 6
        (by norm_num) (by norm_num [abs_of_pos]) (by norm_num [abs_of_pos]) (by norm_num)
    rw [h3] at h2
    have h4 : (0 : ℚ) < (2 : ℚ) ^ (-46 : Int) := two_zpow_pos _
    linarith
  · intro hv0 hv1
    have h := roundDouble_error (x := v.batterySOC_percent + d.socRandom) (k := 7)
      (by linarith [hr.1]) (by norm_num) (by norm_num; linarith [hr.2])
    norm_num at h ⊢
    exact h

theorem roundDouble_sampleDrawFifth :
    roundDouble sampleDrawFifth.socRandom = sampleDrawFifth.socRandom :=
  roundDouble_dyadic _ 3602879701896397 (-54) (-3) (by norm_num [sampleDrawFifth])
    (by norm_num [sampleDrawFifth, abs_of_pos]) (by norm_num [sampleDrawFifth, abs_of_pos])
    (by norm_num)

theorem telemetry_charging_witness :
    ∃ w, (telemetryTick [(sampleChargingDouble, sampleDrawFifth)]).1[0]? = some w ∧
      (100 ≤ roundDouble (sampleChargingDouble.batterySOC_percent + sampleDrawFifth.socRandom) →
        w.batterySOC_percent = 100 ∧ w.chargingStatus = .idle) ∧
      (roundDouble (sampleChargingDouble.batterySOC_percent + sampleDrawFifth.socRandom) < 100 →
        w.batterySOC_percent
          = toFixed2 (roundDouble
              (sampleChargingDouble.batterySOC_percent + sampleDrawFifth.socRandom)) ∧
        w.chargingStatus = .charging) ∧
      (100 ≤ sampleChargingDouble.batterySOC_percent + sampleDrawFifth.socRandom →
        100 ≤ roundDouble
          (sampleChargingDouble.batterySOC_percent + sampleDrawFifth.socRandom)) ∧
      (0 ≤ sampleChargingDouble.batterySOC_percent →
        sampleChargingDouble.batterySOC_percent + sampleDrawFifth.socRandom
          ≤ 100 - (2 : ℚ) ^ (-46 : Int) →
        roundDouble (sampleChargingDouble.batterySOC_percent + sampleDrawFifth.socRandom)
          < 100) ∧
      (0 ≤ sampleChargingDouble.batterySOC_percent →
        sampleChargingDouble.batterySOC_percent ≤ 100 →
        |roundDouble (sampleChargingDouble.batterySOC_percent + sampleDrawFifth.socRandom)
            - (sampleChargingDouble.batterySOC_percent + sampleDrawFifth.socRandom)|
          ≤ (2 : ℚ) ^ (-47 : Int)) :=
  telemetry_charging [(sampleChargingDouble, sampleDrawFifth)]
    (by simp [sampleDrawFifth]) 0 sampleChargingDouble sampleDrawFifth rfl rfl
    (by norm_num [sampleDrawFifth]) roundDouble_sampleDrawFifth

/-- At the edge of the clamp the computed sum decides: for `SOC = 99.5` and the draw
`0.5 - 2 ^ (-52)` the exact sum lies below 100, the sum computed on doubles is 100, and the
vehicle is stored with `SOC = 100` and `chargingStatus = idle`. -/
theorem simulateVehicle_charging_threshold :
    sampleNearlyFull.batterySOC_percent + sampleDrawThreshold.socRandom < 100 ∧
      chargingSoc sampleNearlyFull sampleDrawThreshold = 100 ∧
      (simulateVehicle sampleNearlyFull sampleDrawThreshold).batterySOC_percent = 100 ∧
      (simulateVehicle sampleNearlyFull sampleDrawThreshold).chargingStatus = .idle := by
  have h1 : roundDouble ((2251799813685247 : ℚ) / 4503599627370496)
      = (2251799813685247 : ℚ) / 4503599627370496 :=
    roundDouble_dyadic _ 2251799813685247 (-52) (-2) (by norm_num)
      (by norm_num [abs_of_pos]) (by norm_num [abs_of_pos]) (by norm_num)
  have h2 : roundDouble ((199 : ℚ) / 2 + (2251799813685247 : ℚ) / 4503599627370496) = 100 := by
    have h := roundDouble_eval ((199 : ℚ) / 2 + (2251799813685247 : ℚ) / 4503599627370496)
      6 7036874417766400 (by norm_num)
      (by norm_num [abs_of_pos]) (by norm_num [abs_of_pos]) (by norm_num) (by norm_num)
    norm_num at h ⊢
    exact h
  have hc : chargingSoc sampleNearlyFull sampleDrawThreshold = 100 := by
    simp only [chargingSoc, sampleNearlyFull, sampleDrawThreshold, mul_one, h1, h2]
  have hst : sampleNearlyFull.chargingStatus = .charging := rfl
  have hge : chargingSoc sampleNearlyFull sampleDrawThreshold ≥ 100 := by rw [hc]
  refine ⟨by norm_num [sampleNearlyFull, sampleDrawThreshold], hc, ?_, ?_⟩
  · simp only [simulateVehicle, hst, if_pos hge, toFixed2_hundred]
  · simp only [simulateVehicle, hst, if_pos hge]

/-- C23: for a discharging vehicle with SOC `s` and the decrement `r = random * 0.02` as
the code computes it, a value in `[0, 0.02)`, a telemetry tick (its saves and publishes
going through; the stored SOC and the two draws being doubles) stores `SOC = 0` and
`chargingStatus = idle` when `s - r <= 0`, and otherwise the computed difference `s - r`
rounded to 2 decimals with `chargingStatus = discharging`; in both cases the stored
temperature is `floor(16 * random) + 15`, a value in `[15, 30]` in which the previous
temperature has no part. -/
theorem telemetry_discharging (vs : List (Vehicle × Draw))
    (hok : ∀ p ∈ vs, p.2.saveOk = true ∧ p.2.publishOk = true)
    (i : Nat) (v : Vehicle) (d : Draw) (hi : vs[i]? = some (v, d))
    (hst : v.chargingStatus = .discharging) (hr : d.InRange)
    (hsoc : roundDouble v.batterySOC_percent = v.batterySOC_percent)
    (hdbl : roundDouble d.tempRandom = d.tempRandom ∧ roundDouble d.socRandom = d.socRandom) :
    ∃ w, (telemetryTick vs).1[i]? = some w ∧
      (v.batterySOC_percent - dischargingStep d ≤ 0 →
        w.batterySOC_percent = 0 ∧ w.chargingStatus = .idle) ∧
      (0 < v.batterySOC_percent - dischargingStep d →
        w.batterySOC_percent
          = toFixed2 (roundDouble (v.batterySOC_percent - dischargingStep d)) ∧
        w.chargingStatus = .discharging) ∧
      dischargingStep d = roundDouble (d.socRandom * roundDouble (1 / 50)) ∧
      0 ≤ dischargingStep d ∧ dischargingStep d < 1 / 50 ∧
      w.batteryTemperature_C = ((⌊d.tempRandom * 16⌋ : Int) : ℚ) + 15 ∧
      15 ≤ w.batteryTemperature_C ∧ w.batteryTemperature_C ≤ 30 := by
  obtain ⟨ht0, ht1, hs0, hs1⟩ := hr
  have hfl0 : (0 : Int) ≤ ⌊d.tempRandom * 16⌋ := Int.floor_nonneg.mpr (by linarith)
  have hfl1 : ⌊d.tempRandom * 16⌋ ≤ (15 : Int) := by
    have h : ⌊d.tempRandom * 16⌋ < (16 : Int) := by
      rw [Int.floor_lt]; push_cast; linarith
    omega
  have hq0 : (0 : ℚ) ≤ ((⌊d.tempRandom * 16⌋ : Int) : ℚ) := by exact_mod_cast hfl0
  have hq1 : ((⌊d.tempRandom * 16⌋ : Int) : ℚ) ≤ 15 := by exact_mod_cast hfl1
  have htemp : toFixed2 (((⌊roundDouble (d.tempRandom * (30 - 15 + 1))⌋ : Int) : ℚ) + 15)
      = ((⌊d.tempRandom * 16⌋ : Int) : ℚ) + 15 := by
    have h16 : (30 - 15 + 1 : ℚ) = 16 := by norm_num
    rw [h16, roundDouble_mul_sixteen hdbl.1]
    have h := toFixed2_hundredths ((⌊d.tempRandom * 16⌋ + 15) * 100)
    have e : (((⌊d.tempRandom * 16⌋ + 15) * 100 : Int) : ℚ) / 100
        = ((⌊d.tempRandom * 16⌋ : Int) : ℚ) + 15 := by
      push_cast; ring
    rw [e] at h
    exact h
  have hw : ∃ w, (telemetryTick vs).1[i]? = some w ∧ w = simulateVehicle v d :=
    ⟨_, telemetryTick_stored vs hok i v d hi, rfl⟩
  obtain ⟨w, hw1, hw2⟩ := hw
  have hT : w.batteryTemperature_C = ((⌊d.tempRandom * 16⌋ : Int) : ℚ) + 15 := by
    rw [hw2]
    simp only [simulateVehicle, hst]
    split <;> exact htemp
  refine ⟨w, hw1, ?_, ?_, rfl, dischargingStep_nonneg d hs0,
    dischargingStep_lt d hs0 hs1 hdbl.2, hT, by rw [hT]; linarith, by rw [hT]; linarith⟩
  · intro h
    have h2 : dischargingSoc v d ≤ 0 := dischargingSoc_nonpos v d h
    rw [hw2]
    simp only [simulateVehicle, hst, if_pos h2, toFixed2_zero, and_self]
  · intro h
    have h2 : ¬ dischargingSoc v d ≤ 0 := not_le.mpr (roundDouble_sub_pos hsoc h)
    rw [hw2]
    constructor
    · simp only [simulateVehicle, hst, if_neg h2]
      rfl
    · simp only [simulateVehicle, hst, if_neg h2]

theorem roundDouble_sampleNearlyEmpty : roundDouble ((7 : ℚ) / 512) = 7 / 512 :=
  roundDouble_dyadic (7 / 512) 7 (-9) (-7) (by norm_num) (by norm_num [abs_of_pos])
    (by norm_num [abs_of_pos]) (by norm_num)

theorem telemetry_discharging_witness :
    ∃ w, (telemetryTick [(sampleNearlyEmpty, sampleDraw)]).1[0]? = some w ∧
      (sampleNearlyEmpty.batterySOC_percent - dischargingStep sampleDraw ≤ 0 →
        w.batterySOC_percent = 0 ∧ w.chargingStatus = .idle) ∧
      (0 < sampleNearlyEmpty.batterySOC_percent - dischargingStep sampleDraw →
        w.batterySOC_percent
          = toFixed2 (roundDouble
              (sampleNearlyEmpty.batterySOC_percent - dischargingStep sampleDraw)) ∧
        w.chargingStatus = .discharging) ∧
      dischargingStep sampleDraw = roundDouble (sampleDraw.socRandom * roundDouble (1 / 50)) ∧
      0 ≤ dischargingStep sampleDraw ∧ dischargingStep sampleDraw < 1 / 50 ∧
      w.batteryTemperature_C = ((⌊sampleDraw.tempRandom * 16⌋ : Int) : ℚ) + 15 ∧
      15 ≤ w.batteryTemperature_C ∧ w.batteryTemperature_C ≤ 30 :=
  telemetry_discharging [(sampleNearlyEmpty, sampleDraw)]
    (by simp [sampleDraw]) 0 sampleNearlyEmpty sampleDraw rfl rfl
    (by norm_num [Draw.InRange, sampleDraw]) roundDouble_sampleNearlyEmpty
    ⟨roundDouble_half, roundDouble_half⟩

/-- C24, as the claim states it, fails: the idle vehicle with the stored SOC 50.123 has
the SOC 50.12 after the tick. -/
theorem telemetry_idle_rounds_counterexample :
    sampleIdle.chargingStatus = .idle ∧
      (telemetryTick [(sampleIdle, sampleDraw)]).1
        = [{ sampleIdle with batterySOC_percent := 1253 / 25 }] ∧
      (1253 / 25 : ℚ) ≠ sampleIdle.batterySOC_percent := by
  refine ⟨rfl, ?_, by norm_num [sampleIdle]⟩
  rw [telemetryTick_all_ok _ (by simp [sampleDraw])]
  simp only [List.map_cons, List.map_nil, simulateVehicle, sampleIdle]
  have h1 : toFixed2 (50123 / 1000) = 1253 / 25 := by
    unfold toFixed2; norm_num
  have h2 : toFixed2 25 = 25 := by
    have := toFixed2_hundredths 2500
    norm_num at this
    exact this
  rw [h1, h2]

/-- C24, amended: for an idle vehicle a telemetry tick (its saves and publishes going
through) leaves `chargingStatus` unchanged and stores `batterySOC_percent` and
`batteryTemperature_C` rounded to 2 decimals; when both stored values are multiples of
1/100, as every value written by a tick is, the document is stored exactly as it was. -/
theorem telemetry_idle (vs : List (Vehicle × Draw))
    (hok : ∀ p ∈ vs, p.2.saveOk = true ∧ p.2.publishOk = true)
    (i : Nat) (v : Vehicle) (d : Draw) (hi : vs[i]? = some (v, d))
    (hst : v.chargingStatus = .idle) :
    ∃ w, (telemetryTick vs).1[i]? = some w ∧
      w.chargingStatus = .idle ∧
      w.batterySOC_percent = toFixed2 v.batterySOC_percent ∧
      w.batteryTemperature_C = toFixed2 v.batteryTemperature_C ∧
      (∀ m n : Int, v.batterySOC_percent = (m : ℚ) / 100 →
        v.batteryTemperature_C = (n : ℚ) / 100 → w = v) ∧
      (∃ m n : Int, w.batterySOC_percent = (m : ℚ) / 100 ∧
        w.batteryTemperature_C = (n : ℚ) / 100) := by
  refine ⟨_, telemetryTick_stored vs hok i v d hi, ?_, ?_, ?_, ?_, ?_⟩
  · simp only [simulateVehicle, hst]
  · simp only [simulateVehicle, hst]
  · simp only [simulateVehicle, hst]
  · intro m n hm hn
    simp only [simulateVehicle, hst, hm, hn, toFixed2_hundredths]
    cases v
    simp_all
  · obtain ⟨m, hm⟩ := toFixed2_is_hundredths v.batterySOC_percent
    obtain ⟨n, hn⟩ := toFixed2_is_hundredths v.batteryTemperature_C
    exact ⟨m, n, by simp only [simulateVehicle, hst, hm], by simp only [simulateVehicle, hst, hn]⟩

theorem telemetry_idle_witness :
    ∃ w, (telemetryTick [(sampleIdle, sampleDraw)]).1[0]? = some w ∧
      w.chargingStatus = .idle ∧
      w.batterySOC_percent = toFixed2 sampleIdle.batterySOC_percent ∧
      w.batteryTemperature_C = toFixed2 sampleIdle.batteryTemperature_C ∧
      (∀ m n : Int, sampleIdle.batterySOC_percent = (m : ℚ) / 100 →
        sampleIdle.batteryTemperature_C = (n : ℚ) / 100 → w = sampleIdle) ∧
      (∃ m n : Int, w.batterySOC_percent = (m : ℚ) / 100 ∧
        w.batteryTemperature_C = (n : ℚ) / 100) :=
  telemetry_idle [(sampleIdle, sampleDraw)] (by simp [sampleDraw]) 0 sampleIdle sampleDraw
    rfl rfl

/-- C25, as the claim states it, fails: the save of the first vehicle throws, and the
second vehicle, charging at `SOC = 99.8`, is neither updated nor published in that tick. -/
theorem telemetry_failure_aborts_counterexample :
    telemetryTick [(sampleIdle, sampleFailedSave), (sampleCharging, sampleDraw)]
        = ([sampleIdle, sampleCharging], []) ∧
      simulateVehicle sampleCharging sampleDraw ≠ sampleCharging := by
  refine ⟨by simp [telemetryTick, sampleFailedSave], ?_⟩
  intro h
  have h2 : (simulateVehicle sampleCharging sampleDraw).chargingStatus
      = sampleCharging.chargingStatus := by rw [h]
  have h3 : chargingSoc sampleCharging sampleDraw ≥ 100 := by
    rw [chargingSoc_eq sampleCharging sampleDraw roundDouble_half]
    have h5 := roundDouble_mono (x := 100)
      (y := sampleCharging.batterySOC_percent + sampleDraw.socRandom) (by norm_num)
      (by norm_num [sampleCharging, sampleDraw])
    rwa [roundDouble_hundred] at h5
  have h4 : (simulateVehicle sampleCharging sampleDraw).chargingStatus = .idle := by
    have hst : sampleCharging.chargingStatus = .charging := rfl
    simp only [simulateVehicle, hst, if_pos h3]
  rw [h4] at h2
  exact absurd h2 (by decide)

/-- C25, amended: when in a telemetry tick the save or the publish of a vehicle fails, the
vehicles before it in the list are updated and published, the vehicle itself is stored
updated only if its save went through and is not published, and the vehicles after it are
left as they were stored and are not published in that tick. -/
theorem telemetry_failure_aborts (done : List (Vehicle × Draw)) (v : Vehicle) (d : Draw)
    (rest : List (Vehicle × Draw))
    (hok : ∀ p ∈ done, p.2.saveOk = true ∧ p.2.publishOk = true)
    (hfail : d.saveOk = false ∨ d.publishOk = false) :
    telemetryTick (done ++ (v, d) :: rest) =
      (done.map (fun p => simulateVehicle p.1 p.2)
          ++ (if d.saveOk then simulateVehicle v d else v) :: rest.map Prod.fst,
       done.map (fun p => (topicOf p.1, simulateVehicle p.1 p.2))) := by
  induction done with
  | nil =>
    rcases hfail with h | h
    · simp [telemetryTick, h]
    · cases hs : d.saveOk <;> simp [telemetryTick, h, hs]
  | cons p done ih =>
    obtain ⟨a, b⟩ := p
    have hp := hok (a, b) (List.mem_cons_self _ _)
    have h1 : b.saveOk = true := hp.1
    have h2 : b.publishOk = true := hp.2
    have ih2 := ih (fun q hq => hok q (List.mem_cons_of_mem _ hq))
    simp only [List.cons_append, telemetryTick, h1, h2, if_true, List.append_eq, ih2,
      List.map_cons]

theorem telemetry_failure_aborts_witness :
    telemetryTick ([(sampleDischarging, sampleDraw)]
        ++ (sampleIdle, sampleFailedSave) :: [(sampleCharging, sampleDraw)]) =
      ([(sampleDischarging, sampleDraw)].map (fun p => simulateVehicle p.1 p.2)
          ++ (if sampleFailedSave.saveOk then simulateVehicle sampleIdle sampleFailedSave
              else sampleIdle) :: [(sampleCharging, sampleDraw)].map Prod.fst,
       [(sampleDischarging, sampleDraw)].map
          (fun p => (topicOf p.1, simulateVehicle p.1 p.2))) :=
  telemetry_failure_aborts [(sampleDischarging, sampleDraw)] sampleIdle sampleFailedSave
    [(sampleCharging, sampleDraw)] (by simp [sampleDraw]) (Or.inl rfl)

theorem simulateVehicle_soc_range (v : Vehicle) (d : Draw)
    (hv : 0 ≤ v.batterySOC_percent ∧ v.batterySOC_percent ≤ 100) (hd : d.InRange) :
    0 ≤ (simulateVehicle v d).batterySOC_percent ∧
      (simulateVehicle v d).batterySOC_percent ≤ 100 := by
  obtain ⟨hv0, hv1⟩ := hv
  obtain ⟨_, _, hs0, hs1⟩ := hd
  unfold simulateVehicle
  cases hst : v.chargingStatus with
  | charging =>
    simp only
    split
    · simp only [toFixed2_hundred]; norm_num
    · rename_i h
      have h2 : chargingSoc v d < 100 := not_le.mp h
      exact ⟨toFixed2_nonneg _ (chargingSoc_nonneg v d hv0 hs0),
        toFixed2_le_hundred _ (chargingSoc_nonneg v d hv0 hs0) h2.le⟩
  | discharging =>
    simp only
    split
    · simp only [toFixed2_zero]; norm_num
    · rename_i h
      have h2 : 0 < dischargingSoc v d := not_le.mp h
      have h3 : dischargingSoc v d ≤ 100 := by
        by_cases hneg : v.batterySOC_percent - dischargingStep d ≤ 0
        · have := dischargingSoc_nonpos v d hneg
          linarith
        · have h4 := roundDouble_mono (x := v.batterySOC_percent - dischargingStep d)
            (y := 100) (not_le.mp hneg).le (by linarith [dischargingStep_nonneg d hs0])
          rw [roundDouble_hundred] at h4
          exact h4
      exact ⟨toFixed2_nonneg _ h2.le, toFixed2_le_hundred _ h2.le h3⟩
  | idle =>
    exact ⟨toFixed2_nonneg _ hv0, toFixed2_le_hundred _ hv0 hv1⟩

/-- C26: when every vehicle has its stored `batterySOC_percent` in `[0, 100]`, then for
every charging status, every random draw in `[0, 1)` and every outcome of the saves and
publishes, every vehicle stored after a telemetry tick has its `batterySOC_percent` in
`[0, 100]` again, rounding included. -/
theorem telemetry_soc_range (vs : List (Vehicle × Draw))
    (hv : ∀ p ∈ vs, 0 ≤ p.1.batterySOC_percent ∧ p.1.batterySOC_percent ≤ 100)
    (hd : ∀ p ∈ vs, p.2.InRange) :
    (telemetryTick vs).1.length = vs.length ∧
      ∀ w ∈ (telemetryTick vs).1, 0 ≤ w.batterySOC_percent ∧ w.batterySOC_percent ≤ 100 := by
  induction vs with
  | nil => simp [telemetryTick]
  | cons p rest ih =>
    obtain ⟨v, d⟩ := p
    have hp := hv (v, d) (List.mem_cons_self _ _)
    have hdp := hd (v, d) (List.mem_cons_self _ _)
    have ih2 := ih (fun q hq => hv q (List.mem_cons_of_mem _ hq))
      (fun q hq => hd q (List.mem_cons_of_mem _ hq))
    have hsim := simulateVehicle_soc_range v d hp hdp
    have hrest : ∀ w ∈ rest.map Prod.fst,
        0 ≤ w.batterySOC_percent ∧ w.batterySOC_percent ≤ 100 := by
      intro w hw
      obtain ⟨q, hq, rfl⟩ := List.mem_map.mp hw
      exact hv q (List.mem_cons_of_mem _ hq)
    unfold telemetryTick
    cases hs : d.saveOk with
    | true =>
      cases hpb : d.publishOk with
      | true =>
        simp only [if_true, List.length_cons, ih2.1, List.mem_cons, true_and]
        rintro w (rfl | hw)
        · exact hsim
        · exact ih2.2 w hw
      | false =>
        simp only [if_true, Bool.false_eq_true, if_false, List.length_cons, List.length_map,
          List.mem_cons, true_and]
        rintro w (rfl | hw)
        · exact hsim
        · exact hrest w hw
    | false =>
      simp only [Bool.false_eq_true, if_false, List.length_cons, List.length_map,
        List.mem_cons, true_and]
      rintro w (rfl | hw)
      · exact hp
      · exact hrest w hw

theorem telemetry_soc_range_witness :
    (telemetryTick [(sampleCharging, sampleDraw), (sampleDischarging, sampleDraw)]).1.length
        = [(sampleCharging, sampleDraw), (sampleDischarging, sampleDraw)].length ∧
      ∀ w ∈ (telemetryTick [(sampleCharging, sampleDraw), (sampleDischarging, sampleDraw)]).1,
        0 ≤ w.batterySOC_percent ∧ w.batterySOC_percent ≤ 100 :=
  telemetry_soc_range [(sampleCharging, sampleDraw), (sampleDischarging, sampleDraw)]
    (by
      intro p hp
      simp only [List.mem_cons, List.mem_singleton, List.not_mem_nil, or_false] at hp
      rcases hp with rfl | rfl <;> norm_num [sampleCharging, sampleDischarging])
    (by
      intro p hp
      simp only [List.mem_cons, List.mem_singleton, List.not_mem_nil, or_false] at hp
      rcases hp with rfl | rfl <;> norm_num [Draw.InRange, sampleDraw])

theorem simulateVehicle_charging (v : Vehicle) (d : Draw)
    (hst : v.chargingStatus = .charging) :
    (simulateVehicle v d).chargingStatus
        = (if chargingSoc v d ≥ 100 then ChargingStatus.idle else ChargingStatus.charging) ∧
      (simulateVehicle v d).batterySOC_percent
        = (if chargingSoc v d ≥ 100 then 100 else toFixed2 (chargingSoc v d)) := by
  simp only [simulateVehicle, hst]
  split <;> simp only [toFixed2_hundred, and_self]

theorem simulateVehicle_discharging (v : Vehicle) (d : Draw)
    (hst : v.chargingStatus = .discharging) :
    (simulateVehicle v d).chargingStatus
        = (if dischargingSoc v d ≤ 0 then ChargingStatus.idle
            else ChargingStatus.discharging) ∧
      (simulateVehicle v d).batterySOC_percent
        = (if dischargingSoc v d ≤ 0 then 0 else toFixed2 (dischargingSoc v d)) := by
  simp only [simulateVehicle, hst]
  split <;> simp only [toFixed2_zero, and_self]

theorem simulateVehicle_idle (v : Vehicle) (d : Draw) (hst : v.chargingStatus = .idle) :
    (simulateVehicle v d).chargingStatus = .idle := by
  simp only [simulateVehicle, hst]

theorem telemetryTick_single (v : Vehicle) (d : Draw) (hs : d.saveOk = true) :
    (telemetryTick [(v, d)]).1 = [simulateVehicle v d] := by
  cases hp : d.publishOk <;> simp [telemetryTick, hs, hp]

theorem chargingSoc_sample :
    chargingSoc sampleNearlyFull sampleDrawNearlyFull = 25599 / 256 := by
  have h1 : roundDouble ((127 : ℚ) / 256) = 127 / 256 :=
    roundDouble_dyadic _ 127 (-8) (-2) (by norm_num) (by norm_num [abs_of_pos])
      (by norm_num [abs_of_pos]) (by norm_num)
  have h2 : roundDouble ((199 : ℚ) / 2 + 127 / 256) = 25599 / 256 := by
    have h := roundDouble_dyadic ((199 : ℚ) / 2 + 127 / 256) 25599 (-8) 6 (by norm_num)
      (by norm_num [abs_of_pos]) (by norm_num [abs_of_pos]) (by norm_num)
    rw [h]
    norm_num
  simp only [chargingSoc, sampleNearlyFull, sampleDrawNearlyFull, mul_one, h1, h2]

theorem dischargingSoc_sample :
    dischargingSoc sampleNearlyEmpty sampleDraw
      = (2116691824864133 : ℚ) * (2 : ℚ) ^ (-59 : Int) := by
  have h1 : roundDouble ((1 : ℚ) / 2 * ((5764607523034235 : ℚ) * (2 : ℚ) ^ (-58 : Int)))
      = (5764607523034235 : ℚ) * (2 : ℚ) ^ (-59 : Int) := by
    have h := roundDouble_dyadic
      ((1 : ℚ) / 2 * ((5764607523034235 : ℚ) * (2 : ℚ) ^ (-58 : Int)))
      5764607523034235 (-59) (-7) (by norm_num) (by norm_num [abs_of_pos])
      (by norm_num [abs_of_pos]) (by norm_num)
    rw [h]
    norm_num
  have h2 : roundDouble ((7 : ℚ) / 512 - (5764607523034235 : ℚ) * (2 : ℚ) ^ (-59 : Int))
      = (2116691824864133 : ℚ) * (2 : ℚ) ^ (-59 : Int) := by
    have h := roundDouble_dyadic
      ((7 : ℚ) / 512 - (5764607523034235 : ℚ) * (2 : ℚ) ^ (-59 : Int))
      2116691824864133 (-59) (-9) (by norm_num) (by norm_num [abs_of_pos])
      (by norm_num [abs_of_pos]) (by norm_num)
    rw [h]
    norm_num
  simp only [dischargingSoc, dischargingStep, sampleNearlyEmpty, sampleDraw,
    roundDouble_fiftieth, h1, h2]

/-- C30, as the claim states it, fails: a charging vehicle at `SOC = 99.5` with the draw
`127 / 256` has the new SOC `99.99609375`, which passes the test `newSoc >= 100` as false
and is then rounded to 100: it is stored with `SOC = 100` and `chargingStatus = charging`.
A discharging vehicle at `SOC = 7 / 512` with the draw `1 / 2` has a new SOC between 0.003
and 0.004, which is rounded to 0: it is stored with `SOC = 0` and
`chargingStatus = discharging`. -/
theorem telemetry_clamp_rounding_counterexample :
    (0 ≤ sampleNearlyFull.batterySOC_percent ∧ sampleNearlyFull.batterySOC_percent ≤ 100) ∧
      sampleDrawNearlyFull.InRange ∧
      (∃ w, (telemetryTick [(sampleNearlyFull, sampleDrawNearlyFull)]).1 = [w] ∧
        w.batterySOC_percent = 100 ∧ w.chargingStatus = .charging) ∧
      (0 ≤ sampleNearlyEmpty.batterySOC_percent ∧
        sampleNearlyEmpty.batterySOC_percent ≤ 100) ∧
      sampleDraw.InRange ∧
      (∃ w, (telemetryTick [(sampleNearlyEmpty, sampleDraw)]).1 = [w] ∧
        w.batterySOC_percent = 0 ∧ w.chargingStatus = .discharging) := by
  refine ⟨by norm_num [sampleNearlyFull], by norm_num [Draw.InRange, sampleDrawNearlyFull],
    ⟨_, telemetryTick_single _ _ rfl, ?_, ?_⟩,
    by norm_num [sampleNearlyEmpty], by norm_num [Draw.InRange, sampleDraw],
    ⟨_, telemetryTick_single _ _ rfl, ?_, ?_⟩⟩
  · rw [(simulateVehicle_charging sampleNearlyFull sampleDrawNearlyFull rfl).2,
      chargingSoc_sample, if_neg (by norm_num)]
    unfold toFixed2
    norm_num
  · rw [(simulateVehicle_charging sampleNearlyFull sampleDrawNearlyFull rfl).1,
      chargingSoc_sample, if_neg (by norm_num)]
  · rw [(simulateVehicle_discharging sampleNearlyEmpty sampleDraw rfl).2,
      dischargingSoc_sample, if_neg (by norm_num)]
    unfold toFixed2
    norm_num
  · rw [(simulateVehicle_discharging sampleNearlyEmpty sampleDraw rfl).1,
      dischargingSoc_sample, if_neg (by norm_num)]

theorem toFixed2_near_hundred {x : ℚ} (h1 : 9999 / 100 + 1 / 200 ≤ x) (h2 : x < 100) :
    toFixed2 x = 100 := by
  unfold toFixed2
  rw [if_neg (by linarith)]
  have h : ⌊x * 100 + 1 / 2⌋ = 10000 := by
    rw [Int.floor_eq_iff]
    constructor <;> push_cast <;> linarith
  rw [h]
  norm_num

theorem toFixed2_near_zero {x : ℚ} (h1 : 0 < x) (h2 : x < 1 / 200) : toFixed2 x = 0 := by
  unfold toFixed2
  rw [if_neg (by linarith)]
  have h : ⌊x * 100 + 1 / 2⌋ = 0 := by
    rw [Int.floor_eq_iff]
    constructor <;> push_cast <;> linarith
  rw [h]
  norm_num

/-- C30, amended: after a telemetry tick (its saves and publishes going through) a vehicle
is stored with `SOC = 100` and `chargingStatus = charging` exactly when it was charging and
its new SOC before the rounding lay in `[99.995, 100)`, and with `SOC = 0` and
`chargingStatus = discharging` exactly when it was discharging and its new SOC before the
rounding lay in `(0, 0.005)`; the next tick that saves such a vehicle stores it with the
same SOC and `chargingStatus = idle`, whatever it draws. -/
theorem telemetry_full_or_empty (vs : List (Vehicle × Draw))
    (hok : ∀ p ∈ vs, p.2.saveOk = true ∧ p.2.publishOk = true)
    (i : Nat) (v : Vehicle) (d : Draw) (hi : vs[i]? = some (v, d)) :
    ∃ w, (telemetryTick vs).1[i]? = some w ∧
      ((w.batterySOC_percent = 100 ∧ w.chargingStatus = .charging) ↔
        (v.chargingStatus = .charging ∧
          9999 / 100 + 1 / 200 ≤ chargingSoc v d ∧ chargingSoc v d < 100)) ∧
      ((w.batterySOC_percent = 0 ∧ w.chargingStatus = .discharging) ↔
        (v.chargingStatus = .discharging ∧
          0 < dischargingSoc v d ∧ dischargingSoc v d < 1 / 200)) ∧
      (w.batterySOC_percent = 100 → w.chargingStatus = .charging →
        ∀ e : Draw, e.InRange → e.saveOk = true →
          ∃ u, (telemetryTick [(w, e)]).1 = [u] ∧
            u.batterySOC_percent = 100 ∧ u.chargingStatus = .idle) ∧
      (w.batterySOC_percent = 0 → w.chargingStatus = .discharging →
        ∀ e : Draw, e.InRange → e.saveOk = true →
          ∃ u, (telemetryTick [(w, e)]).1 = [u] ∧
            u.batterySOC_percent = 0 ∧ u.chargingStatus = .idle) := by
  refine ⟨_, telemetryTick_stored vs hok i v d hi, ⟨?_, ?_⟩, ⟨?_, ?_⟩, ?_, ?_⟩
  · rintro ⟨hsoc, hstat⟩
    cases hst : v.chargingStatus with
    | charging =>
      obtain ⟨h1, h2⟩ := simulateVehicle_charging v d hst
      by_cases hge : chargingSoc v d ≥ 100
      · rw [h1, if_pos hge] at hstat
        exact absurd hstat (by decide)
      · rw [h2, if_neg hge] at hsoc
        exact ⟨rfl, toFixed2_eq_hundred hsoc, not_le.mp hge⟩
    | idle =>
      rw [simulateVehicle_idle v d hst] at hstat
      exact absurd hstat (by decide)
    | discharging =>
      obtain ⟨h1, _⟩ := simulateVehicle_discharging v d hst
      rw [h1] at hstat
      split at hstat <;> exact absurd hstat (by decide)
  · rintro ⟨hst, hlo, hhi⟩
    obtain ⟨h1, h2⟩ := simulateVehicle_charging v d hst
    have hge : ¬ chargingSoc v d ≥ 100 := not_le.mpr hhi
    rw [h1, h2, if_neg hge, if_neg hge]
    exact ⟨toFixed2_near_hundred hlo hhi, rfl⟩
  · rintro ⟨hsoc, hstat⟩
    cases hst : v.chargingStatus with
    | charging =>
      obtain ⟨h1, _⟩ := simulateVehicle_charging v d hst
      rw [h1] at hstat
      split at hstat <;> exact absurd hstat (by decide)
    | idle =>
      rw [simulateVehicle_idle v d hst] at hstat
      exact absurd hstat (by decide)
    | discharging =>
      obtain ⟨h1, h2⟩ := simulateVehicle_discharging v d hst
      by_cases hle : dischargingSoc v d ≤ 0
      · rw [h1, if_pos hle] at hstat
        exact absurd hstat (by decide)
      · rw [h2, if_neg hle] at hsoc
        exact ⟨rfl, not_le.mp hle, toFixed2_eq_zero hsoc (not_le.mp hle)⟩
  · rintro ⟨hst, hlo, hhi⟩
    obtain ⟨h1, h2⟩ := simulateVehicle_discharging v d hst
    have hle : ¬ dischargingSoc v d ≤ 0 := not_le.mpr hlo
    rw [h1, h2, if_neg hle, if_neg hle]
    exact ⟨toFixed2_near_zero hlo hhi, rfl⟩
  · intro hsoc hstat e he hs
    obtain ⟨h1, h2⟩ := simulateVehicle_charging (simulateVehicle v d) e hstat
    have hge : chargingSoc (simulateVehicle v d) e ≥ 100 :=
      chargingSoc_ge_hundred _ e (by rw [hsoc]) he.2.2.1
    refine ⟨_, telemetryTick_single _ e hs, ?_, ?_⟩
    · rw [h2, if_pos hge]
    · rw [h1, if_pos hge]
  · intro hsoc hstat e he hs
    obtain ⟨h1, h2⟩ := simulateVehicle_discharging (simulateVehicle v d) e hstat
    have hle : dischargingSoc (simulateVehicle v d) e ≤ 0 :=
      dischargingSoc_nonpos _ e (by
        rw [hsoc]
        linarith [dischargingStep_nonneg e he.2.2.1])
    refine ⟨_, telemetryTick_single _ e hs, ?_, ?_⟩
    · rw [h2, if_pos hle]
    · rw [h1, if_pos hle]

theorem telemetry_full_or_empty_witness :
    ∃ w, (telemetryTick [(sampleNearlyFull, sampleDrawNearlyFull)]).1[0]? = some w ∧
      ((w.batterySOC_percent = 100 ∧ w.chargingStatus = .charging) ↔
        (sampleNearlyFull.chargingStatus = .charging ∧
          9999 / 100 + 1 / 200 ≤ chargingSoc sampleNearlyFull sampleDrawNearlyFull ∧
          chargingSoc sampleNearlyFull sampleDrawNearlyFull < 100)) ∧
      ((w.batterySOC_percent = 0 ∧ w.chargingStatus = .discharging) ↔
        (sampleNearlyFull.chargingStatus = .discharging ∧
          0 < dischargingSoc sampleNearlyFull sampleDrawNearlyFull ∧
          dischargingSoc sampleNearlyFull sampleDrawNearlyFull < 1 / 200)) ∧
      (w.batterySOC_percent = 100 → w.chargingStatus = .charging →
        ∀ e : Draw, e.InRange → e.saveOk = true →
          ∃ u, (telemetryTick [(w, e)]).1 = [u] ∧
            u.batterySOC_percent = 100 ∧ u.chargingStatus = .idle) ∧
      (w.batterySOC_percent = 0 → w.chargingStatus = .discharging →
        ∀ e : Draw, e.InRange → e.saveOk = true →
          ∃ u, (telemetryTick [(w, e)]).1 = [u] ∧
            u.batterySOC_percent = 0 ∧ u.chargingStatus = .idle) :=
  telemetry_full_or_empty [(sampleNearlyFull, sampleDrawNearlyFull)]
    (by simp [sampleDrawNearlyFull]) 0 sampleNearlyFull sampleDrawNearlyFull rfl

/-! ### The clamp tests at their edges -/

/-- The example of the specification on doubles: the doubles nearest to 99.8 and to 0.2
have an exact sum below 100; the sum the code computes is 100, and the vehicle is stored
with `SOC = 100` and `chargingStatus = idle`. -/
theorem simulateVehicle_charging_example :
    sampleChargingDouble.batterySOC_percent + sampleDrawFifth.socRandom < 100 ∧
      chargingSoc sampleChargingDouble sampleDrawFifth = 100 ∧
      (simulateVehicle sampleChargingDouble sampleDrawFifth).batterySOC_percent = 100 ∧
      (simulateVehicle sampleChargingDouble sampleDrawFifth).chargingStatus = .idle := by
  have h1 : roundDouble ((3602879701896397 : ℚ) / 18014398509481984)
      = (3602879701896397 : ℚ) / 18014398509481984 :=
    roundDouble_dyadic _ 3602879701896397 (-54) (-3) (by norm_num)
      (by norm_num [abs_of_pos]) (by norm_num [abs_of_pos]) (by norm_num)
  have h2 : roundDouble ((7022800668930867 : ℚ) / 70368744177664
      + (3602879701896397 : ℚ) / 18014398509481984) = 100 := by
    have h := roundDouble_eval ((7022800668930867 : ℚ) / 70368744177664
        + (3602879701896397 : ℚ) / 18014398509481984)
      6 7036874417766400 (by norm_num)
      (by norm_num [abs_of_pos]) (by norm_num [abs_of_pos]) (by norm_num) (by norm_num)
    norm_num at h ⊢
    exact h
  have hc : chargingSoc sampleChargingDouble sampleDrawFifth = 100 := by
    simp only [chargingSoc, sampleChargingDouble, sampleDrawFifth, mul_one, h1, h2]
  have hge : chargingSoc sampleChargingDouble sampleDrawFifth ≥ 100 := by rw [hc]
  obtain ⟨h3, h4⟩ := simulateVehicle_charging sampleChargingDouble sampleDrawFifth rfl
  refine ⟨by norm_num [sampleChargingDouble, sampleDrawFifth], hc, ?_, ?_⟩
  · rw [h4, if_pos hge]
  · rw [h3, if_pos hge]

/-- At the edge of the lower clamp the computed values decide: with the doubles nearest to
0.007 and to 0.35 the decrement `random * 0.02` is computed as the double just below the
stored SOC, the difference is `2 ^ (-60)`, above 0, and the vehicle is stored with
`SOC = 0` and `chargingStatus = discharging`. -/
theorem simulateVehicle_discharging_threshold :
    dischargingSoc sampleLowDischarging sampleDrawLow = (2 : ℚ) ^ (-60 : Int) ∧
      (simulateVehicle sampleLowDischarging sampleDrawLow).batterySOC_percent = 0 ∧
      (simulateVehicle sampleLowDischarging sampleDrawLow).chargingStatus
        = .discharging := by
  have h1 : roundDouble ((3152519739159347 : ℚ) / 9007199254740992
      * ((5764607523034235 : ℚ) * (2 : ℚ) ^ (-58 : Int)))
      = (8070450532247928 : ℚ) * (2 : ℚ) ^ (-60 : Int) := by
    have h := roundDouble_eval ((3152519739159347 : ℚ) / 9007199254740992
        * ((5764607523034235 : ℚ) * (2 : ℚ) ^ (-58 : Int)))
      (-8) 8070450532247928 (by norm_num)
      (by norm_num [abs_of_pos]) (by norm_num [abs_of_pos]) (by norm_num) (by norm_num)
    norm_num at h ⊢
    exact h
  have h2 : roundDouble ((8070450532247929 : ℚ) / 1152921504606846976
      - (8070450532247928 : ℚ) * (2 : ℚ) ^ (-60 : Int)) = (2 : ℚ) ^ (-60 : Int) := by
    have h := roundDouble_dyadic ((8070450532247929 : ℚ) / 1152921504606846976
        - (8070450532247928 : ℚ) * (2 : ℚ) ^ (-60 : Int)) 1 (-60) (-60) (by norm_num)
      (by norm_num [abs_of_pos]) (by norm_num [abs_of_pos]) (by norm_num)
    rw [h]
    norm_num
  have hc : dischargingSoc sampleLowDischarging sampleDrawLow = (2 : ℚ) ^ (-60 : Int) := by
    simp only [dischargingSoc, dischargingStep, sampleLowDischarging, sampleDrawLow,
      roundDouble_fiftieth, h1, h2]
  have hpos : ¬ dischargingSoc sampleLowDischarging sampleDrawLow ≤ 0 := by
    rw [hc]
    exact not_le.mpr (two_zpow_pos _)
  obtain ⟨h3, h4⟩ := simulateVehicle_discharging sampleLowDischarging sampleDrawLow rfl
  refine ⟨hc, ?_, ?_⟩
  · rw [h4, if_neg hpos, hc]
    unfold toFixed2
    norm_num
  · rw [h3, if_neg hpos]

/-! ## Navigation sessions: independence of the users -/

theorem Registry.get_delete_ne (m : Registry) (u w : UserId) (h : w ≠ u) :
    (m.delete u).get w = m.get w := by
  induction m with
  | nil => rfl
  | cons e m ih =>
    obtain ⟨k, r⟩ := e
    by_cases hk : k = u
    · subst hk
      have hwk : (w == k) = false := by simpa using h
      have : Registry.delete ((k, r) :: m) k = Registry.delete m k := by
        simp [Registry.delete, List.filter_cons]
      rw [this, ih]
      simp [Registry.get, List.lookup_cons, hwk]
    · have : Registry.delete ((k, r) :: m) u = (k, r) :: Registry.delete m u := by
        simp [Registry.delete, List.filter_cons, hk]
      rw [this]
      simp only [Registry.get, List.lookup_cons] at ih ⊢
      rw [ih]

theorem Registry.get_set_ne (m : Registry) (u w : UserId) (ref : Nat) (h : w ≠ u) :
    (m.set u ref).get w = m.get w := by
  have hwu : (w == u) = false := by simpa using h
  have h1 : (m.set u ref).get w = (m.delete u).get w := by
    simp [Registry.set, Registry.get, List.lookup_cons, hwu]
  rw [h1, Registry.get_delete_ne m u w h]

theorem Registry.get_delete_some (m : Registry) (u w : UserId) (ref : Nat)
    (h : (m.delete u).get w = some ref) : m.get w = some ref ∧ w ≠ u := by
  by_cases hw : w = u
  · subst hw
    rw [Registry.get_delete_self] at h
    exact absurd h (by simp)
  · rw [Registry.get_delete_ne m u w hw] at h
    exact ⟨h, hw⟩

theorem mem_clearInterval (timers : List Nat) (h x : Nat) :
    x ∈ clearInterval timers h ↔ x ∈ timers ∧ x ≠ h := by
  simp [clearInterval]

theorem Linked_init : State.init.Linked := by
  unfold State.Linked
  refine ⟨?_, ?_⟩
  · intro k nav h; simp [State.init] at h
  · intro w ref h; simp [State.init, Registry.get] at h

theorem Linked_of_shape {s t : State} (hl : s.Linked)
    (hobj : ∀ (k : Nat) (nav2 : Navigation), t.objects[k]? = some nav2 →
      ∃ nav : Navigation, s.objects[k]? = some nav ∧ nav2.userId = nav.userId ∧
        nav2.interval = nav.interval)
    (hobj2 : ∀ (k : Nat) (nav : Navigation), s.objects[k]? = some nav →
      ∃ nav2 : Navigation, t.objects[k]? = some nav2 ∧ nav2.userId = nav.userId)
    (hreg : ∀ (w : UserId) (ref : Nat), t.activeNavigations.get w = some ref →
      s.activeNavigations.get w = some ref) : t.Linked := by
  unfold State.Linked at hl ⊢
  refine ⟨?_, ?_⟩
  · intro k nav2 h
    obtain ⟨nav, h1, _, h3⟩ := hobj k nav2 h
    rw [h3]; exact hl.1 k nav h1
  · intro w ref h
    obtain ⟨nav, h1, h2⟩ := hl.2 w ref (hreg w ref h)
    obtain ⟨nav2, h3, h4⟩ := hobj2 ref nav h1
    exact ⟨nav2, h3, by rw [h4, h2]⟩

theorem Linked_of_set {s t : State} {ref : Nat} {nav nav2 : Navigation} (hl : s.Linked)
    (hs : s.objects[ref]? = some nav) (ht : t.objects = s.objects.set ref nav2)
    (hu : nav2.userId = nav.userId) (hi : nav2.interval = nav.interval)
    (hreg : ∀ w r, t.activeNavigations.get w = some r →
      s.activeNavigations.get w = some r) : t.Linked := by
  have hlen := lt_length_of_getElem? hs
  apply Linked_of_shape hl _ _ hreg
  · intro k x hx
    rw [ht, List.getElem?_set] at hx
    by_cases hk : ref = k
    · subst hk
      simp only [if_true, hlen] at hx
      simp only [Option.some.injEq] at hx
      subst hx
      exact ⟨nav, hs, hu, hi⟩
    · rw [if_neg hk] at hx
      exact ⟨x, hx, rfl, rfl⟩
  · intro k x hx
    rw [ht, List.getElem?_set]
    by_cases hk : ref = k
    · subst hk
      simp only [if_true, hlen]
      rw [hs] at hx
      simp only [Option.some.injEq] at hx
      subst hx
      exact ⟨nav2, rfl, hu⟩
    · rw [if_neg hk]
      exact ⟨x, hx, rfl⟩

theorem Linked_of_objects_eq {s t : State} (hl : s.Linked) (ht : t.objects = s.objects)
    (hreg : ∀ w r, t.activeNavigations.get w = some r →
      s.activeNavigations.get w = some r) : t.Linked := by
  apply Linked_of_shape hl _ _ hreg
  · intro k x hx; rw [ht] at hx; exact ⟨x, hx, rfl, rfl⟩
  · intro k x hx; rw [ht]; exact ⟨x, hx, rfl⟩

theorem Linked_tick (s : State) (ref : Nat) (ok : Bool) (hl : s.Linked) :
    (tick s ref ok).Linked := by
  by_cases hlive : ref ∈ s.timers
  · cases hobj : s.objects[ref]? with
    | none =>
      have : tick s ref ok = s := by simp [tick, tickStart, hlive, hobj]
      rw [this]; exact hl
    | some nav =>
      by_cases hst : nav.status = .active
      · by_cases hend : nav.movementPoints.length ≤ nav.currentIndex
        · rw [tick_complete s ref ok nav hlive hobj hst hend]
          exact Linked_of_objects_eq hl rfl
            (fun w r h => (Registry.get_delete_some _ _ _ _ h).1)
        · cases ok with
          | true =>
            rw [tick_advance s ref nav hlive hobj hst (by omega)]
            exact Linked_of_set hl hobj rfl rfl rfl (fun _ _ h => h)
          | false =>
            rw [tick_write_failed s ref nav hobj (by omega)]; exact hl
      · have hp : nav.status = .paused := by
          cases h : nav.status with
          | active => exact absurd h hst
          | paused => rfl
        rw [tick_paused s ref ok nav hobj hp]; exact hl
  · rw [tick_dead s ref ok hlive]; exact hl

theorem Linked_start (findById : RouteId → Except JSError (Option RouteData)) (now : Nat)
    (s : State) (u : UserId) (r : RouteId) (hl : s.Linked) :
    (startNavigation findById now s u r).1.Linked := by
  unfold startNavigation
  split
  · exact hl
  · unfold startAfterLookup
    split
    · exact hl
    · exact hl
    · split
      · exact hl
      · unfold State.Linked at hl ⊢
        refine ⟨?_, ?_⟩
        · intro k nav hk
          simp only at hk
          rw [List.getElem?_append] at hk
          by_cases hlt : k < s.objects.length
          · rw [if_pos hlt] at hk
            exact hl.1 k nav hk
          · rw [if_neg hlt] at hk
            have hk0 : k - s.objects.length = 0 := by
              rcases Nat.eq_zero_or_pos (k - s.objects.length) with h | h
              · exact h
              · rw [List.getElem?_eq_none (by simp; omega)] at hk
                exact absurd hk (by simp)
            rw [hk0] at hk
            simp only [List.getElem?_cons_zero, Option.some.injEq] at hk
            subst hk
            simp only
            omega
        · intro w ref hw
          simp only at hw ⊢
          by_cases hwu : w = u
          · subst hwu
            rw [Registry.get_set_self] at hw
            simp only [Option.some.injEq] at hw
            subst hw
            exact ⟨_, List.getElem?_concat_length _ _, rfl⟩
          · rw [Registry.get_set_ne _ _ _ _ hwu] at hw
            obtain ⟨nav, h1, h2⟩ := hl.2 w ref hw
            exact ⟨nav, by rw [List.getElem?_append_left (lt_length_of_getElem? h1)]; exact h1,
              h2⟩

theorem Linked_pause (s : State) (u : UserId) (hl : s.Linked) :
    (pauseNavigation s u).1.Linked := by
  unfold pauseNavigation
  split
  · exact hl
  · cases hnav : s.navigationOf u with
    | none => exact hl
    | some p =>
      obtain ⟨ref, nav⟩ := p
      exact Linked_of_set hl (State.has_of_navigationOf hnav).2 rfl rfl rfl (fun _ _ h => h)

theorem Linked_resume (s : State) (u : UserId) (hl : s.Linked) :
    (resumeNavigation s u).1.Linked := by
  unfold resumeNavigation
  split
  · exact hl
  · cases hnav : s.navigationOf u with
    | none => exact hl
    | some p =>
      obtain ⟨ref, nav⟩ := p
      exact Linked_of_set hl (State.has_of_navigationOf hnav).2 rfl rfl rfl (fun _ _ h => h)

theorem Linked_stop (s : State) (u : UserId) (hl : s.Linked) :
    (stopNavigation s u).1.Linked := by
  unfold stopNavigation
  split
  · exact hl
  · cases hnav : s.navigationOf u with
    | none => exact hl
    | some p =>
      exact Linked_of_objects_eq hl rfl
        (fun w r h => (Registry.get_delete_some _ _ _ _ h).1)

theorem Linked_disconnect (s : State) (su : Option UserId) (hl : s.Linked) :
    (disconnect s su).Linked := by
  unfold disconnect
  cases su with
  | none => exact hl
  | some u =>
    simp only
    split
    · cases hnav : s.navigationOf u with
      | none => exact hl
      | some p =>
        exact Linked_of_objects_eq hl rfl
          (fun w r h => (Registry.get_delete_some _ _ _ _ h).1)
    · exact hl

theorem Linked_applyOp (findById : RouteId → Except JSError (Option RouteData))
    (s : State) (op : Op) (hl : s.Linked) : (applyOp findById s op).Linked := by
  cases op with
  | start u r now => exact Linked_start findById now s u r hl
  | tick ref ok => exact Linked_tick s ref ok hl
  | pause u => exact Linked_pause s u hl
  | resume u => exact Linked_resume s u hl
  | stop u => exact Linked_stop s u hl
  | disconnect su => exact Linked_disconnect s su hl

theorem Linked_run (findById : RouteId → Except JSError (Option RouteData))
    (ops : List Op) : ∀ s : State, s.Linked → (run findById s ops).Linked := by
  induction ops with
  | nil => intro s hs; exact hs
  | cons op ops ih =>
    intro s hs
    simp only [run, List.foldl_cons]
    exact ih _ (Linked_applyOp findById s op hs)

theorem eventsFor_append_other (s : State) (u w : UserId) (e : Event) (h : w ≠ u)
    (em : List (UserId × Event)) (hem : em = s.emitted ++ [(w, e)]) :
    ((em.filter (fun x => x.1 == u)).map Prod.snd) = s.eventsFor u := by
  have hwu : (w == u) = false := by simpa using h
  subst hem
  simp [State.eventsFor, List.filter_append, List.filter_cons, hwu]

theorem frame_general {s t : State} {u : UserId} {ref : Nat} {nav : Navigation}
    (hnav : s.navigationOf u = some (ref, nav))
    (hobj : t.objects[ref]? = s.objects[ref]?)
    (hreg : t.activeNavigations.get u = s.activeNavigations.get u)
    (htim : nav.interval ∈ t.timers ↔ nav.interval ∈ s.timers)
    (hem : t.eventsFor u = s.eventsFor u) : s.FrameFor t u ref nav := by
  obtain ⟨hget, hobjs⟩ := State.has_of_navigationOf hnav
  exact ⟨State.navigationOf_eq (hreg.trans hget) (hobj.trans hobjs), htim, hem⟩

theorem frame_refl {s : State} {u : UserId} {ref : Nat} {nav : Navigation}
    (hnav : s.navigationOf u = some (ref, nav)) : s.FrameFor s u ref nav :=
  ⟨hnav, Iff.rfl, rfl⟩

theorem Linked_session {s : State} (hl : s.Linked) {u : UserId} {ref : Nat}
    {nav : Navigation} (hnav : s.navigationOf u = some (ref, nav)) :
    nav.userId = u ∧ nav.interval = ref := by
  obtain ⟨hget, hobj⟩ := State.has_of_navigationOf hnav
  obtain ⟨nav2, h1, h2⟩ := hl.2 u ref hget
  rw [hobj] at h1
  simp only [Option.some.injEq] at h1
  subst h1
  exact ⟨h2, hl.1 ref nav hobj⟩

theorem frame_tick (s : State) (hl : s.Linked) (u v : UserId) (ref : Nat)
    (nav : Navigation) (hnav : s.navigationOf u = some (ref, nav)) (hv : v ≠ u)
    (r : Nat) (ok : Bool) (navt : Navigation) (hobjt : s.objects[r]? = some navt)
    (hvt : navt.userId = v) : s.FrameFor (tick s r ok) u ref nav := by
  obtain ⟨hu, hint⟩ := Linked_session hl hnav
  obtain ⟨_, hobj⟩ := State.has_of_navigationOf hnav
  have hintt : navt.interval = r := hl.1 r navt hobjt
  have hr : r ≠ ref := by
    intro h
    subst h
    rw [hobj] at hobjt
    simp only [Option.some.injEq] at hobjt
    subst hobjt
    exact hv (hvt.symm.trans hu)
  have hroom : navt.userId ≠ u := by rw [hvt]; exact hv
  by_cases hlive : r ∈ s.timers
  · by_cases hst : navt.status = .active
    · by_cases hend : navt.movementPoints.length ≤ navt.currentIndex
      · rw [tick_complete s r ok navt hlive hobjt hst hend]
        apply frame_general hnav
        · rfl
        · exact Registry.get_delete_ne _ _ _ (fun h => hroom h.symm)
        · simp only [mem_clearInterval]
          constructor
          · exact fun h => h.1
          · exact fun h => ⟨h, by rw [hint, hintt]; exact fun e => hr e.symm⟩
        · exact eventsFor_append_other s u navt.userId _ hroom _ rfl
      · cases ok with
        | true =>
          rw [tick_advance s r navt hlive hobjt hst (by omega)]
          apply frame_general hnav
          · simp only
            rw [List.getElem?_set_ne hr]
          · rfl
          · exact Iff.rfl
          · exact eventsFor_append_other s u navt.userId _ hroom _ rfl
        | false =>
          rw [tick_write_failed s r navt hobjt (by omega)]; exact frame_refl hnav
    · have hp : navt.status = .paused := by
        cases h : navt.status with
        | active => exact absurd h hst
        | paused => rfl
      rw [tick_paused s r ok navt hobjt hp]; exact frame_refl hnav
  · rw [tick_dead s r ok hlive]; exact frame_refl hnav

theorem frame_start (findById : RouteId → Except JSError (Option RouteData)) (now : Nat)
    (s : State) (hl : s.Linked) (u v : UserId) (ref : Nat) (nav : Navigation)
    (hnav : s.navigationOf u = some (ref, nav)) (hv : v ≠ u) (r : RouteId) :
    s.FrameFor (startNavigation findById now s v r).1 u ref nav := by
  obtain ⟨_, hint⟩ := Linked_session hl hnav
  obtain ⟨_, hobj⟩ := State.has_of_navigationOf hnav
  have hlen := lt_length_of_getElem? hobj
  unfold startNavigation
  split
  · exact frame_refl hnav
  · unfold startAfterLookup
    split
    · exact frame_refl hnav
    · exact frame_refl hnav
    · split
      · exact frame_refl hnav
      · apply frame_general hnav
        · simp only
          rw [List.getElem?_append_left hlen]
        · exact Registry.get_set_ne _ _ _ _ (fun h => hv h.symm)
        · simp only [List.mem_append, List.mem_singleton]
          constructor
          · rintro (h | h)
            · exact h
            · omega
          · exact fun h => Or.inl h
        · rfl

theorem frame_pause (s : State) (hl : s.Linked) (u v : UserId) (ref : Nat)
    (nav : Navigation) (hnav : s.navigationOf u = some (ref, nav)) (hv : v ≠ u) :
    s.FrameFor (pauseNavigation s v).1 u ref nav := by
  obtain ⟨hu, _⟩ := Linked_session hl hnav
  unfold pauseNavigation
  split
  · exact frame_refl hnav
  · cases hnavv : s.navigationOf v with
    | none => exact frame_refl hnav
    | some p =>
      obtain ⟨rv, navv⟩ := p
      obtain ⟨huv, _⟩ := Linked_session hl hnavv
      have hr : rv ≠ ref := by
        intro h
        subst h
        have h1 := (State.has_of_navigationOf hnav).2
        rw [(State.has_of_navigationOf hnavv).2] at h1
        simp only [Option.some.injEq] at h1
        subst h1
        exact hv (huv.symm.trans hu)
      apply frame_general hnav
      · simp only
        rw [List.getElem?_set_ne hr]
      · rfl
      · exact Iff.rfl
      · exact eventsFor_append_other s u v _ hv _ rfl

theorem frame_resume (s : State) (hl : s.Linked) (u v : UserId) (ref : Nat)
    (nav : Navigation) (hnav : s.navigationOf u = some (ref, nav)) (hv : v ≠ u) :
    s.FrameFor (resumeNavigation s v).1 u ref nav := by
  obtain ⟨hu, _⟩ := Linked_session hl hnav
  unfold resumeNavigation
  split
  · exact frame_refl hnav
  · cases hnavv : s.navigationOf v with
    | none => exact frame_refl hnav
    | some p =>
      obtain ⟨rv, navv⟩ := p
      obtain ⟨huv, _⟩ := Linked_session hl hnavv
      have hr : rv ≠ ref := by
        intro h
        subst h
        have h1 := (State.has_of_navigationOf hnav).2
        rw [(State.has_of_navigationOf hnavv).2] at h1
        simp only [Option.some.injEq] at h1
        subst h1
        exact hv (huv.symm.trans hu)
      apply frame_general hnav
      · simp only
        rw [List.getElem?_set_ne hr]
      · rfl
      · exact Iff.rfl
      · exact eventsFor_append_other s u v _ hv _ rfl

theorem frame_removal (s : State) (hl : s.Linked) (u v : UserId) (ref : Nat)
    (nav : Navigation) (hnav : s.navigationOf u = some (ref, nav)) (hv : v ≠ u)
    (rv : Nat) (navv : Navigation) (hnavv : s.navigationOf v = some (rv, navv))
    (t : State) (hobj : t.objects = s.objects)
    (htim : t.timers = clearInterval s.timers navv.interval)
    (hreg : t.activeNavigations = s.activeNavigations.delete v)
    (hem : t.eventsFor u = s.eventsFor u) : s.FrameFor t u ref nav := by
  obtain ⟨hu, hint⟩ := Linked_session hl hnav
  obtain ⟨huv, hintv⟩ := Linked_session hl hnavv
  have hr : rv ≠ ref := by
    intro h
    subst h
    have h1 := (State.has_of_navigationOf hnav).2
    rw [(State.has_of_navigationOf hnavv).2] at h1
    simp only [Option.some.injEq] at h1
    subst h1
    exact hv (huv.symm.trans hu)
  apply frame_general hnav
  · rw [hobj]
  · rw [hreg]; exact Registry.get_delete_ne _ _ _ (fun h => hv h.symm)
  · rw [htim, mem_clearInterval]
    constructor
    · exact fun h => h.1
    · exact fun h => ⟨h, by rw [hint, hintv]; exact fun e => hr e.symm⟩
  · exact hem

theorem frame_stop (s : State) (hl : s.Linked) (u v : UserId) (ref : Nat)
    (nav : Navigation) (hnav : s.navigationOf u = some (ref, nav)) (hv : v ≠ u) :
    s.FrameFor (stopNavigation s v).1 u ref nav := by
  unfold stopNavigation
  split
  · exact frame_refl hnav
  · cases hnavv : s.navigationOf v with
    | none => exact frame_refl hnav
    | some p =>
      obtain ⟨rv, navv⟩ := p
      exact frame_removal s hl u v ref nav hnav hv rv navv hnavv _ rfl rfl rfl
        (eventsFor_append_other s u v _ hv _ rfl)

theorem frame_disconnect (s : State) (hl : s.Linked) (u v : UserId) (ref : Nat)
    (nav : Navigation) (hnav : s.navigationOf u = some (ref, nav)) (hv : v ≠ u) :
    s.FrameFor (disconnect s (some v)) u ref nav := by
  unfold disconnect
  simp only
  split
  · cases hnavv : s.navigationOf v with
    | none => exact frame_refl hnav
    | some p =>
      obtain ⟨rv, navv⟩ := p
      exact frame_removal s hl u v ref nav hnav hv rv navv hnavv _ rfl rfl rfl rfl
  · exact frame_refl hnav

/-- C21: in every state reached from the boot state by whole operations, for a user `u`
with a session and another user `v`, each of start, pause, resume, stop, disconnect and
tick performed for `v` leaves the session of `u` (its fields, `currentIndex`, `status` and
`movementPoints` among them), its registry entry and its timer as they were, and emits no
event to the room of `u`. -/
theorem other_user_frame (findById : RouteId → Except JSError (Option RouteData))
    (ops : List Op) (u v : UserId) (ref : Nat) (nav : Navigation)
    (hnav : (run findById State.init ops).navigationOf u = some (ref, nav)) (hv : v ≠ u)
    (op : Op) (hop : op.isFor (run findById State.init ops) v) :
    (run findById State.init ops).FrameFor
      (applyOp findById (run findById State.init ops) op) u ref nav := by
  have hl := Linked_run findById ops State.init Linked_init
  cases op with
  | start w r now =>
    have hw : w = v := hop
    subst hw
    exact frame_start findById now _ hl u w ref nav hnav hv r
  | tick r ok =>
    obtain ⟨navt, h1, h2⟩ := hop
    exact frame_tick _ hl u v ref nav hnav hv r ok navt h1 h2
  | pause w =>
    have hw : w = v := hop
    subst hw
    exact frame_pause _ hl u w ref nav hnav hv
  | resume w =>
    have hw : w = v := hop
    subst hw
    exact frame_resume _ hl u w ref nav hnav hv
  | stop w =>
    have hw : w = v := hop
    subst hw
    exact frame_stop _ hl u w ref nav hnav hv
  | disconnect su =>
    have hw : su = some v := hop
    subst hw
    exact frame_disconnect _ hl u v ref nav hnav hv

theorem run_two_users :
    run sampleStore State.init [.start "u" "r1" 0, .start "v" "r1" 1] = sampleTwoUsers := by
  simp only [run, List.foldl, applyOp, startNavigation_sample]
  rw [startNavigation_fresh sampleStore 1 sampleState "v" "r1" ⟨[(0, 0), (0, 10)], 3⟩
    samplePoints rfl rfl processRouteForMovement_sample]
  rfl

theorem other_user_frame_witness :
    (run sampleStore State.init [.start "u" "r1" 0, .start "v" "r1" 1]).FrameFor
      (applyOp sampleStore (run sampleStore State.init [.start "u" "r1" 0, .start "v" "r1" 1])
        (.tick 1 true)) "u" 0 sampleNavigation :=
  other_user_frame sampleStore [.start "u" "r1" 0, .start "v" "r1" 1] "u" "v" 0
    sampleNavigation (by rw [run_two_users]; rfl) (by decide) (.tick 1 true)
    (by rw [run_two_users]; exact ⟨_, rfl, rfl⟩)

end MapORS
